import Mathlib

/-!
# Low-poly palette generator: colour computation and layout

A shallow embedding of `src/app.js`.  JavaScript numbers are modelled by
`JSNum`: a finite value is a rational, and the three non-finite values `NaN`,
`+Infinity` and `-Infinity` are kept, because the generator divides by
`tiles.w - 1`, `tiles.h - 1` and `tiles.w + tiles.h - 2` without a guard.
Signed zero is not distinguished.  A thrown `TypeError` is modelled by `none`.

The operators `+`, `-`, `*`, `/` on `JSNum` are exact.  Where the integer that
`Math.round` returns depends on the rounding of IEEE-754 doubles, in
`hsl_to_rgb`, `hue_to_rgb` and the matrix products of
`apply_colorblind_simulation`, every arithmetic result is passed through
`JSNum.f64`, the rounding to the nearest binary64 value, and a decimal literal
is the double `JSNum.fl64` of its value.  The interpolation of hue, saturation
and lightness before the conversion is kept exact.
-/

namespace PaletteGenerator

/-! ## JavaScript numbers -/

/-- A JavaScript number: `NaN`, an infinity (`inf true` is `+Infinity`), or a
finite value. -/
inductive JSNum where
  | nan : JSNum
  | inf (pos : Bool) : JSNum
  | fin (q : ℚ) : JSNum
  deriving DecidableEq

namespace JSNum

/-- Binary `+`. -/
def add : JSNum → JSNum → JSNum
  | fin a, fin b => fin (a + b)
  | fin _, inf s => inf s
  | inf s, fin _ => inf s
  | inf s, inf t => if s = t then inf s else nan
  | nan, _ => nan
  | fin _, nan => nan
  | inf _, nan => nan

/-- Unary `-`. -/
def neg : JSNum → JSNum
  | fin a => fin (-a)
  | inf s => inf (!s)
  | nan => nan

/-- Binary `-`. -/
def sub (a b : JSNum) : JSNum := add a (neg b)

/-- Sign of a product with an infinite factor: `s` is the sign of the infinity,
`b` the finite factor, which is not zero. -/
def mulSign (s : Bool) (b : ℚ) : Bool := if 0 < b then s else !s

/-- Binary `*`. -/
def mul : JSNum → JSNum → JSNum
  | fin a, fin b => fin (a * b)
  | fin a, inf s => if a = 0 then nan else inf (mulSign s a)
  | inf s, fin b => if b = 0 then nan else inf (mulSign s b)
  | inf s, inf t => inf (s == t)
  | nan, _ => nan
  | fin _, nan => nan
  | inf _, nan => nan

/-- Binary `/`: `0 / 0` is `NaN`, any other finite value over `0` is an
infinity. -/
def div : JSNum → JSNum → JSNum
  | fin a, fin b =>
    if b = 0 then (if a = 0 then nan else inf (decide (0 < a))) else fin (a / b)
  | fin _, inf _ => fin 0
  | inf s, fin b => inf (if 0 ≤ b then s else !s)
  | inf _, inf _ => nan
  | nan, _ => nan
  | fin _, nan => nan
  | inf _, nan => nan

/-- Integer part of a rational, rounding toward zero. -/
def trunc (q : ℚ) : ℤ := if 0 ≤ q then ⌊q⌋ else ⌈q⌉

/-- Binary `%`: the remainder takes the sign of the dividend. -/
def rem : JSNum → JSNum → JSNum
  | fin a, fin b => if b = 0 then nan else fin (a - b * (trunc (a / b) : ℚ))
  | fin a, inf _ => fin a
  | inf _, _ => nan
  | nan, _ => nan
  | fin _, nan => nan

/-- Comparison `<`: false as soon as one side is `NaN`. -/
def lt : JSNum → JSNum → Bool
  | fin a, fin b => decide (a < b)
  | fin _, inf s => s
  | inf s, fin _ => !s
  | inf s, inf t => !s && t
  | nan, _ => false
  | fin _, nan => false
  | inf _, nan => false

/-- Strict equality `===` on numbers: `NaN` equals nothing. -/
def strictEq : JSNum → JSNum → Bool
  | fin a, fin b => decide (a = b)
  | inf s, inf t => s == t
  | _, _ => false

/-- Truthiness of a number: `0` and `NaN` are falsy. -/
def truthy : JSNum → Bool
  | fin a => decide (a ≠ 0)
  | inf _ => true
  | nan => false

/-- `Math.max` of two arguments. -/
def max : JSNum → JSNum → JSNum
  | fin a, fin b => fin (Max.max a b)
  | fin a, inf s => if s then inf true else fin a
  | inf s, fin b => if s then inf true else fin b
  | inf s, inf t => inf (s || t)
  | nan, _ => nan
  | fin _, nan => nan
  | inf _, nan => nan

/-- `Math.min` of two arguments. -/
def min : JSNum → JSNum → JSNum
  | fin a, fin b => fin (Min.min a b)
  | fin a, inf s => if s then fin a else inf false
  | inf s, fin b => if s then fin b else inf false
  | inf s, inf t => inf (s && t)
  | nan, _ => nan
  | fin _, nan => nan
  | inf _, nan => nan

/-- `Math.round`: the nearest integer, a tie going up. -/
def round : JSNum → JSNum
  | fin a => fin (⌊a + 1 / 2⌋ : ℤ)
  | inf s => inf s
  | nan => nan

instance : Add JSNum := ⟨add⟩
instance : Sub JSNum := ⟨sub⟩
instance : Mul JSNum := ⟨mul⟩
instance : Div JSNum := ⟨div⟩
instance : Mod JSNum := ⟨rem⟩
instance (n : Nat) : OfNat JSNum n := ⟨fin n⟩

/-- The number is an integer between `lo` and `hi`. -/
def IsIntIn (v : JSNum) (lo hi : ℤ) : Prop :=
  ∃ n : ℤ, v = fin n ∧ lo ≤ n ∧ n ≤ hi

/-! ### IEEE-754 binary64 rounding -/

/-- The integer nearest to `y`, a tie going to the even neighbour. -/
def round_half_even (y : ℚ) : ℤ :=
  if y - ⌊y⌋ < 1 / 2 then ⌊y⌋
  else if 1 / 2 < y - ⌊y⌋ then ⌊y⌋ + 1
  else if ⌊y⌋ % 2 = 0 then ⌊y⌋ else ⌊y⌋ + 1

/-- The binary exponent of the double that stores `x`: `⌊log₂ |x|⌋`, and
`-1022` in the subnormal range. -/
def binade (x : ℚ) : ℤ := Max.max (Int.log 2 |x|) (-1022)

/-- The spacing of the doubles around `x`: 52 fraction bits below the binary
exponent. -/
def ulp (x : ℚ) : ℚ := 2 ^ (binade x - 52)

/-- The double nearest to the real number `x` (round to nearest, ties to
even); a result of magnitude `2¹⁰²⁴` or more is an infinity. -/
def fl64 (x : ℚ) : JSNum :=
  let y := (round_half_even (x / ulp x) : ℚ) * ulp x
  if 2 ^ 1024 ≤ |y| then inf (decide (0 < x)) else fin y

/-- The double that stores the exact result `v` of an arithmetic operation. -/
def f64 : JSNum → JSNum
  | fin q => fl64 q
  | v => v

end JSNum

open JSNum

/-! ## Colour conversion (`hsl_to_rgb`, `hue_to_rgb`) -/

/-- `hue_to_rgb(p, q, t)`, source lines 902-919, in double arithmetic: every
sum, difference, product and quotient is rounded by `f64`. -/
def hue_to_rgb (p q t : JSNum) : JSNum :=
  let t := if lt t 0 then f64 (t + 1) else t
  let t := if lt 1 t then f64 (t - 1) else t
  if lt t (f64 (1 / 6)) then f64 (p + f64 (f64 (f64 (q - p) * 6) * t))
  else if lt t (f64 (1 / 2)) then q
  else if lt t (f64 (2 / 3)) then
    f64 (p + f64 (f64 (f64 (q - p) * f64 (f64 (2 / 3) - t)) * 6))
  else p

/-- `hsl_to_rgb(h, s, l)`, source lines 881-900, in double arithmetic: the
returned array as a triple.  The literal `0.5` is `fl64 (1 / 2)`. -/
def hsl_to_rgb (h s l : JSNum) : JSNum × JSNum × JSNum :=
  let h := f64 (h / 360)
  let s := f64 (s / 100)
  let l := f64 (l / 100)
  if strictEq s 0 then
    (round (f64 (l * 255)), round (f64 (l * 255)), round (f64 (l * 255)))
  else
    let q := if lt l (fl64 (1 / 2)) then f64 (l * f64 (1 + s))
      else f64 (f64 (l + s) - f64 (l * s))
    let p := f64 (f64 (2 * l) - q)
    (round (f64 (hue_to_rgb p q (f64 (h + f64 (1 / 3))) * 255)),
     round (f64 (hue_to_rgb p q h * 255)),
     round (f64 (hue_to_rgb p q (f64 (h - f64 (1 / 3))) * 255)))

/-! ## Configuration constants (source lines 7-12) -/

def TILE_SIZE : ℤ := 4
def CANVAS_SIZE : ℤ := 1024
def PADDING_TILES : ℤ := 8
def PADDING_PX : ℤ := PADDING_TILES * TILE_SIZE
def LABEL_HEIGHT_PX : ℤ := 18

/-! ## Property lookup on object literals -/

/-- The property names that every object literal inherits from
`Object.prototype`; reading one of them from a table that does not define it
yields a function (or, for `__proto__`, the prototype object), never
`undefined`. -/
def OBJECT_PROTOTYPE_KEYS : List String :=
  ["constructor", "__proto__", "hasOwnProperty", "isPrototypeOf",
   "propertyIsEnumerable", "toLocaleString", "toString", "valueOf",
   "__defineGetter__", "__defineSetter__", "__lookupGetter__",
   "__lookupSetter__"]

/-- Result of `table[key]` on an object literal. -/
inductive Lookup (α : Type) where
  | own (v : α) : Lookup α
  | inherited : Lookup α
  | undefined : Lookup α

/-- The expression `table[key]`: an own property, else an inherited one, else
`undefined`. -/
def js_get {α : Type} (table : List (String × α)) (key : String) : Lookup α :=
  match table.lookup key with
  | some v => Lookup.own v
  | none => if key ∈ OBJECT_PROTOTYPE_KEYS then Lookup.inherited else Lookup.undefined

/-- The expression `v || d` for an optional numeric field: `undefined` and `0`
are falsy and give `d`. -/
def or_default (v : Option ℚ) (d : ℚ) : ℚ :=
  match v with
  | some q => if q = 0 then d else q
  | none => d

/-! ## Theme table (source lines 25-127) -/

/-- One entry of a theme's `category_adjustments`: every field is optional. -/
structure CategoryAdjustment where
  hue_shift : Option ℚ := none
  saturation_mult : Option ℚ := none
  lightness_shift : Option ℚ := none

structure Theme where
  name : String
  hue_shift : ℚ
  saturation_mult : ℚ
  lightness_shift : ℚ
  category_adjustments : List (String × CategoryAdjustment)

/-- The entry `THEMES.none`. -/
def THEMES_none : Theme :=
  { name := "None (Default)", hue_shift := 0, saturation_mult := 1, lightness_shift := 0,
    category_adjustments := [] }

def THEMES : List (String × Theme) :=
  [("none", THEMES_none),
   ("sunset",
    { name := "Sunset", hue_shift := -20, saturation_mult := 11 / 10, lightness_shift := 5,
      category_adjustments :=
        [("wood", { hue_shift := some 10, saturation_mult := some (12 / 10) }),
         ("foliage", { hue_shift := some (-30), saturation_mult := some (13 / 10) }),
         ("water", { hue_shift := some (-60), lightness_shift := some 10 }),
         ("stone", { hue_shift := some 15, saturation_mult := some (8 / 10) }),
         ("emissive", { hue_shift := some (-30), saturation_mult := some (14 / 10) })] }),
   ("icy",
    { name := "Icy / Winter", hue_shift := 30, saturation_mult := 7 / 10, lightness_shift := 15,
      category_adjustments :=
        [("wood", { saturation_mult := some (5 / 10), lightness_shift := some (-10) }),
         ("foliage", { hue_shift := some 60, saturation_mult := some (4 / 10) }),
         ("water", { hue_shift := some 20, lightness_shift := some 20 }),
         ("stone", { saturation_mult := some (3 / 10), lightness_shift := some 20 }),
         ("grass", { hue_shift := some 40, saturation_mult := some (3 / 10) })] }),
   ("rustic",
    { name := "Rustic / Earthy", hue_shift := 10, saturation_mult := 85 / 100,
      lightness_shift := -10,
      category_adjustments :=
        [("wood", { saturation_mult := some (13 / 10), lightness_shift := some (-5) }),
         ("metal_raw", { hue_shift := some 20, saturation_mult := some (12 / 10) }),
         ("stone", { hue_shift := some 15, saturation_mult := some (9 / 10) }),
         ("dirt", { saturation_mult := some (12 / 10) }),
         ("foliage", { hue_shift := some 20, saturation_mult := some (7 / 10) })] }),
   ("tropical",
    { name := "Tropical", hue_shift := -10, saturation_mult := 13 / 10, lightness_shift := 5,
      category_adjustments :=
        [("foliage", { saturation_mult := some (15 / 10), lightness_shift := some 10 }),
         ("water", { saturation_mult := some (14 / 10), lightness_shift := some 15 }),
         ("flowers", { saturation_mult := some (15 / 10) }),
         ("sand", { hue_shift := some (-10), lightness_shift := some 10 })] }),
   ("midnight",
    { name := "Midnight", hue_shift := 60, saturation_mult := 6 / 10, lightness_shift := -25,
      category_adjustments :=
        [("emissive", { saturation_mult := some (15 / 10), lightness_shift := some 20 }),
         ("water", { hue_shift := some 40, lightness_shift := some (-15) }),
         ("foliage", { saturation_mult := some (4 / 10), lightness_shift := some (-20) }),
         ("magic", { saturation_mult := some (16 / 10), lightness_shift := some 15 })] }),
   ("autumn",
    { name := "Autumn", hue_shift := -15, saturation_mult := 11 / 10, lightness_shift := -5,
      category_adjustments :=
        [("foliage", { hue_shift := some (-40), saturation_mult := some (14 / 10) }),
         ("grass", { hue_shift := some (-50), saturation_mult := some (12 / 10) }),
         ("wood", { hue_shift := some (-10), saturation_mult := some (11 / 10) })] }),
   ("pastel",
    { name := "Pastel", hue_shift := 0, saturation_mult := 5 / 10, lightness_shift := 25,
      category_adjustments := [] }),
   ("neon",
    { name := "Neon / Cyberpunk", hue_shift := 0, saturation_mult := 15 / 10,
      lightness_shift := 0,
      category_adjustments :=
        [("emissive", { saturation_mult := some (18 / 10), lightness_shift := some 15 }),
         ("magic", { saturation_mult := some (18 / 10), lightness_shift := some 10 }),
         ("plastic", { saturation_mult := some (16 / 10), lightness_shift := some 10 }),
         ("metal_raw", { hue_shift := some 60, saturation_mult := some (3 / 10) })] })]

/-! ## Colour-blind simulation (source lines 128-170) -/

/-- A 3 x 3 matrix, row by row: the decimal values of the literals. -/
structure Matrix3 where
  m00 : ℚ
  m01 : ℚ
  m02 : ℚ
  m10 : ℚ
  m11 : ℚ
  m12 : ℚ
  m20 : ℚ
  m21 : ℚ
  m22 : ℚ

/-- The table `COLORBLIND_MATRICES`; the entry of `none` is `null`. -/
def COLORBLIND_MATRICES : List (String × Option Matrix3) :=
  [("none", none),
   ("protanopia", some
     { m00 := 567 / 1000, m01 := 433 / 1000, m02 := 0,
       m10 := 558 / 1000, m11 := 442 / 1000, m12 := 0,
       m20 := 0, m21 := 242 / 1000, m22 := 758 / 1000 }),
   ("deuteranopia", some
     { m00 := 625 / 1000, m01 := 375 / 1000, m02 := 0,
       m10 := 700 / 1000, m11 := 300 / 1000, m12 := 0,
       m20 := 0, m21 := 300 / 1000, m22 := 700 / 1000 }),
   ("tritanopia", some
     { m00 := 950 / 1000, m01 := 50 / 1000, m02 := 0,
       m10 := 0, m11 := 433 / 1000, m12 := 567 / 1000,
       m20 := 0, m21 := 475 / 1000, m22 := 525 / 1000 }),
   ("achromatopsia", some
     { m00 := 299 / 1000, m01 := 587 / 1000, m02 := 114 / 1000,
       m10 := 299 / 1000, m11 := 587 / 1000, m12 := 114 / 1000,
       m20 := 299 / 1000, m21 := 587 / 1000, m22 := 114 / 1000 })]

/-- A colour object with fields `r`, `g`, `b`. -/
structure RGB where
  r : JSNum
  g : JSNum
  b : JSNum
  deriving DecidableEq

/-- The sum `matrix[i][0] * r + matrix[i][1] * g + matrix[i][2] * b` of source
lines 161-163 for a row with the literals `a`, `b`, `c`, in double arithmetic:
the literals are stored as doubles, and the three products and the two sums
are rounded. -/
def matrix_row (a b c : ℚ) (r g bl : JSNum) : JSNum :=
  f64 (f64 (f64 (fl64 a * r) + f64 (fl64 b * g)) + f64 (fl64 c * bl))

/-- The matrix branch of `apply_colorblind_simulation`, source lines 160-169. -/
def apply_matrix (m : Matrix3) (r g b : JSNum) : RGB :=
  let new_r := round (matrix_row m.m00 m.m01 m.m02 r g b)
  let new_g := round (matrix_row m.m10 m.m11 m.m12 r g b)
  let new_b := round (matrix_row m.m20 m.m21 m.m22 r g b)
  { r := JSNum.max 0 (JSNum.min 255 new_r),
    g := JSNum.max 0 (JSNum.min 255 new_g),
    b := JSNum.max 0 (JSNum.min 255 new_b) }

/-- `apply_colorblind_simulation(r, g, b)` with `state.colorblind_mode = mode`,
source lines 154-170.  For an inherited property name the looked-up value is
truthy but has no element `0`, so `matrix[0][0]` throws: the result is
`none`. -/
def apply_colorblind_simulation (mode : String) (r g b : JSNum) : Option RGB :=
  if mode = "none" then some { r := r, g := g, b := b }
  else
    match js_get COLORBLIND_MATRICES mode with
    | Lookup.undefined => some { r := r, g := g, b := b }
    | Lookup.own none => some { r := r, g := g, b := b }
    | Lookup.own (some matrix) => some (apply_matrix matrix r g b)
    | Lookup.inherited => none

/-! ## Category catalog (source lines 172-788) -/

structure Tiles where
  w : ℕ
  h : ℕ
  deriving DecidableEq

structure Position where
  x : ℕ
  y : ℕ
  deriving DecidableEq

/-- The three ranges of a category, each `[lo, hi]`. -/
structure Colors where
  hue_range : ℚ × ℚ
  sat_range : ℚ × ℚ
  light_range : ℚ × ℚ
  deriving DecidableEq

/-- A catalog entry; the fields `icon` and `description` play no part in the
colour computation or the layout and are left out. -/
structure Category where
  id : String
  name : String
  tiles : Tiles
  position : Position
  colors : Colors
  deriving DecidableEq

/-- Builds a catalog entry from its id, name, tile size, grid position and the
bounds of its hue, saturation and lightness ranges. -/
def mkCategory (id name : String) (w h x y : ℕ) (h0 h1 s0 s1 l0 l1 : ℚ) : Category :=
  { id := id, name := name, tiles := { w := w, h := h }, position := { x := x, y := y },
    colors := { hue_range := (h0, h1), sat_range := (s0, s1), light_range := (l0, l1) } }

def CATEGORIES : List Category := [
  mkCategory "wood" "Wood" 48 48 0 0 20 40 30 60 25 70,
  mkCategory "bark" "Bark" 32 32 48 0 15 35 20 45 15 40,
  mkCategory "metal_raw" "Metal (Raw)" 40 40 80 0 200 220 0 15 30 85,
  mkCategory "metal_painted" "Painted Metal" 32 32 120 0 0 360 40 70 35 65,
  mkCategory "plastic" "Plastic" 32 32 152 0 0 360 50 85 45 75,
  mkCategory "rubber" "Rubber" 24 24 184 0 0 30 5 20 10 35,
  mkCategory "glass" "Glass" 24 24 208 0 180 220 10 40 60 95,
  mkCategory "stone" "Stone" 32 32 0 48 20 50 5 20 25 70,
  mkCategory "concrete" "Concrete" 24 24 32 48 40 60 0 10 35 65,
  mkCategory "brick" "Brick / Masonry" 24 24 56 48 5 25 40 65 25 50,
  mkCategory "dirt" "Dirt / Soil" 24 24 80 48 20 40 30 55 15 40,
  mkCategory "sand" "Sand / Gravel" 24 24 104 48 35 50 20 45 55 85,
  mkCategory "foliage" "Foliage" 32 32 128 48 80 140 35 70 25 60,
  mkCategory "grass" "Grass / Ground" 24 24 160 48 60 120 30 65 30 55,
  mkCategory "snow" "Snow" 24 24 0 80 200 220 0 15 85 100,
  mkCategory "ice" "Ice" 24 24 24 80 190 210 20 50 65 90,
  mkCategory "water" "Water" 24 24 48 80 190 220 40 70 30 70,
  mkCategory "fabric" "Fabric / Cloth" 24 24 72 80 0 360 25 60 35 70,
  mkCategory "leather" "Leather" 24 24 96 80 15 35 30 55 15 45,
  mkCategory "paper" "Paper / Cardboard" 24 24 120 80 35 50 15 35 65 90,
  mkCategory "emissive" "Emissive" 24 24 144 80 0 360 70 100 55 80,
  mkCategory "coral" "Coral" 20 20 0 112 0 40 40 70 60 85,
  mkCategory "moss" "Moss" 20 20 20 112 70 130 25 55 20 45,
  mkCategory "flowers" "Flowers" 20 20 40 112 280 360 50 85 50 80,
  mkCategory "mud" "Mud" 20 20 60 112 20 35 35 60 10 30,
  mkCategory "smoke" "Smoke" 20 20 80 112 200 220 0 10 60 90,
  mkCategory "ash" "Ash" 20 20 100 112 0 30 0 15 15 40,
  mkCategory "frost" "Frost" 20 20 120 112 190 220 30 60 75 98,
  mkCategory "water_variants" "Water+" 20 20 140 112 180 220 35 75 25 70,
  mkCategory "autumn" "Autumn" 20 20 160 112 10 50 60 90 35 65,
  mkCategory "spring" "Spring" 20 20 180 112 80 150 50 80 45 75,
  mkCategory "rusty_metal" "Rusty" 20 20 0 136 15 35 50 75 20 45,
  mkCategory "brushed_metal" "Brushed" 20 20 20 136 200 220 5 20 50 90,
  mkCategory "gems" "Gems" 24 20 40 136 0 360 60 95 40 75,
  mkCategory "ceramic" "Ceramic" 20 20 64 136 200 240 10 40 70 95,
  mkCategory "foam" "Foam" 20 20 84 136 40 60 40 70 65 90,
  mkCategory "vinyl" "Vinyl" 20 20 104 136 0 360 40 80 50 80,
  mkCategory "synthetic_fabric" "Synth" 20 20 124 136 0 360 30 60 25 55,
  mkCategory "carpet" "Carpet" 20 20 144 136 0 40 30 60 30 55,
  mkCategory "winter" "Winter" 20 20 164 136 200 280 15 45 70 95,
  mkCategory "desert" "Desert" 20 20 184 136 30 55 35 65 50 80,
  mkCategory "alien" "Alien" 20 20 0 160 140 200 60 95 30 65,
  mkCategory "magic" "Magic" 20 20 20 160 260 320 70 100 50 80,
  mkCategory "cartoon" "Cartoon" 20 20 40 160 0 360 70 100 60 85,
  mkCategory "food" "Food" 24 20 60 160 0 60 45 80 35 70,
  mkCategory "rubber_variants" "Rubber+" 20 20 84 160 0 360 20 50 15 40,
  mkCategory "sand_variants" "Sand+" 20 20 104 160 25 50 30 60 45 80]

/-! ## Application state (source lines 792-806) -/

/-- The fields of `state` read by the colour computation and the layout. -/
structure State where
  selected_categories : List String
  current_theme : String
  warmth : ℤ
  colorblind_mode : String
  omit_unselected : Bool

/-- The initial state of the source. -/
def initial_state : State :=
  { selected_categories := [], current_theme := "none", warmth := 0,
    colorblind_mode := "none", omit_unselected := false }

/-! ## Tile colour generation (source lines 921-986) -/

/-- The adjustments resolved at source lines 934-936. -/
structure Adjustments where
  hue_adj : ℚ
  sat_mult : ℚ
  light_adj : ℚ

/-- The record `theme.category_adjustments[category.id] || {}` of source line
931.  An inherited property name yields an object that has none of the three
fields, which reads like the empty record. -/
def category_adjustment (theme : Theme) (category_id : String) : CategoryAdjustment :=
  match js_get theme.category_adjustments category_id with
  | Lookup.own adj => adj
  | Lookup.inherited => {}
  | Lookup.undefined => {}

/-- Source lines 931-936: theme base, category-specific part and warmth. -/
def resolve_adjustments (theme : Theme) (category_id : String) (warmth : ℤ) : Adjustments :=
  let cat_adj := category_adjustment theme category_id
  { hue_adj := or_default (some theme.hue_shift) 0 + or_default cat_adj.hue_shift 0 + warmth,
    sat_mult := or_default (some theme.saturation_mult) 1 * or_default cat_adj.saturation_mult 1,
    light_adj := or_default (some theme.lightness_shift) 0 + or_default cat_adj.lightness_shift 0 }

/-- Source line 942: `light_t = x / (tiles.w - 1)`. -/
def light_t (category : Category) (x : ℕ) : JSNum :=
  fin x / (fin category.tiles.w - 1)

/-- Source line 946: `hue_t = y / (tiles.h - 1)`. -/
def hue_t (category : Category) (y : ℕ) : JSNum :=
  fin y / (fin category.tiles.h - 1)

/-- Source line 950: `sat_t = (x + y) / (tiles.w + tiles.h - 2)`. -/
def sat_t (category : Category) (x y : ℕ) : JSNum :=
  (fin x + fin y) / (fin category.tiles.w + fin category.tiles.h - 2)

/-- Source line 943: the lightness before the theme adjustment. -/
def raw_lightness (category : Category) (x : ℕ) : JSNum :=
  fin category.colors.light_range.2 -
    light_t category x * (fin category.colors.light_range.2 - fin category.colors.light_range.1)

/-- Source line 947: the hue before the theme adjustment. -/
def raw_hue (category : Category) (y : ℕ) : JSNum :=
  fin category.colors.hue_range.1 +
    hue_t category y * (fin category.colors.hue_range.2 - fin category.colors.hue_range.1)

/-- Source line 951: the saturation before the theme adjustment. -/
def raw_saturation (category : Category) (x y : ℕ) : JSNum :=
  fin category.colors.sat_range.1 +
    sat_t category x y * (fin category.colors.sat_range.2 - fin category.colors.sat_range.1)

/-- Source line 954: `hue = (hue + hue_adj + 360) % 360`. -/
def adjust_hue (hue : JSNum) (hue_adj : ℚ) : JSNum :=
  (hue + fin hue_adj + 360) % 360

/-- Source line 955: `Math.max(0, Math.min(100, saturation * sat_mult))`. -/
def adjust_saturation (saturation : JSNum) (sat_mult : ℚ) : JSNum :=
  JSNum.max 0 (JSNum.min 100 (saturation * fin sat_mult))

/-- Source line 956: `Math.max(5, Math.min(95, lightness + light_adj))`. -/
def adjust_lightness (lightness : JSNum) (light_adj : ℚ) : JSNum :=
  JSNum.max 5 (JSNum.min 95 (lightness + fin light_adj))

/-- The arguments of the call `hsl_to_rgb(hue, saturation, lightness)` for the
tile `(x, y)`: hue, saturation, lightness after adjustment. -/
def tile_hsl (adj : Adjustments) (category : Category) (x y : ℕ) : JSNum × JSNum × JSNum :=
  (adjust_hue (raw_hue category y) adj.hue_adj,
   adjust_saturation (raw_saturation category x y) adj.sat_mult,
   adjust_lightness (raw_lightness category x) adj.light_adj)

/-- The body of the inner loop, source lines 940-962: the colour pushed for the
tile `(x, y)`. -/
def tile_color (mode : String) (adj : Adjustments) (category : Category) (x y : ℕ) :
    Option RGB :=
  let hsl := tile_hsl adj category x y
  let rgb := hsl_to_rgb hsl.1 hsl.2.1 hsl.2.2
  apply_colorblind_simulation mode rgb.1 rgb.2.1 rgb.2.2

/-- Runs the steps of a loop in order; an exception in one of them ends the
whole loop. -/
def collect {α : Type} : List (Option α) → Option (List α)
  | [] => some []
  | none :: _ => none
  | some a :: rest =>
    match collect rest with
    | some as => some (a :: as)
    | none => none

/-- The grid built by the two loops of source lines 938-965 once the
adjustments are known: rows `y = 0 .. h-1` of entries `x = 0 .. w-1`. -/
def color_grid (mode : String) (adj : Adjustments) (category : Category) :
    Option (List (List RGB)) :=
  collect ((List.range category.tiles.h).map (fun y =>
    collect ((List.range category.tiles.w).map (fun x => tile_color mode adj category x y))))

/-- `generate_category_colors(category)`, source lines 921-968.  The theme is
`THEMES[state.current_theme] || THEMES.none`; for an inherited property name
that value is truthy and has no `category_adjustments`, so line 931 throws. -/
def generate_category_colors (st : State) (category : Category) :
    Option (List (List RGB)) :=
  match js_get THEMES st.current_theme with
  | Lookup.inherited => none
  | Lookup.own theme =>
    color_grid st.colorblind_mode
      (resolve_adjustments theme category.id st.warmth) category
  | Lookup.undefined =>
    color_grid st.colorblind_mode
      (resolve_adjustments THEMES_none category.id st.warmth) category

/-- `generate_muted_colors(category)`, source lines 970-986. -/
def generate_muted_colors (category : Category) : List (List RGB) :=
  (List.range category.tiles.h).map (fun y =>
    (List.range category.tiles.w).map (fun x =>
      let val : JSNum := if (x + y) % 2 = 0 then 25 else 20
      { r := val, g := val, b := val }))

/-! ## Layout (source lines 990-1050 and 1150-1225) -/

/-- `get_category_row(position_y)`, source lines 991-1005. -/
def get_category_row (position_y : ℕ) : ℤ :=
  if position_y = 0 then 0
  else if position_y < 80 then 1
  else if position_y < 112 then 2
  else if position_y < 136 then 3
  else if position_y < 160 then 4
  else 5

/-- The test of source lines 1014-1020 and 1199-1202: a category is drawn and
hit-tested when it is selected or unselected categories are not omitted. -/
def is_rendered (st : State) (category : Category) : Bool :=
  !(!(decide (category.id ∈ st.selected_categories)) && st.omit_unselected)

/-- A rectangle in canvas pixels. -/
structure Rect where
  left : ℤ
  top : ℤ
  width : ℤ
  height : ℤ
  deriving DecidableEq

/-- The cell filled for tile `(x, y)` of a category, source lines 1037-1042. -/
def tile_cell (category : Category) (x y : ℕ) : Rect :=
  let row_offset := get_category_row category.position.y * LABEL_HEIGHT_PX
  { left := PADDING_PX + ((category.position.x : ℤ) + x) * TILE_SIZE,
    top := PADDING_PX + row_offset + ((category.position.y : ℤ) + y) * TILE_SIZE,
    width := TILE_SIZE,
    height := TILE_SIZE }

/-- The region rectangle of a category, source lines 1046-1049
(`border_x`, `border_y`, `border_w`, `border_h`). -/
def category_rect (category : Category) : Rect :=
  let row_offset := get_category_row category.position.y * LABEL_HEIGHT_PX
  { left := PADDING_PX + (category.position.x : ℤ) * TILE_SIZE,
    top := PADDING_PX + row_offset + (category.position.y : ℤ) * TILE_SIZE,
    width := (category.tiles.w : ℤ) * TILE_SIZE,
    height := (category.tiles.h : ℤ) * TILE_SIZE }

/-- The point `(px, py)` lies in the rectangle, taken half-open. -/
def Rect.Contains (r : Rect) (px py : ℚ) : Prop :=
  (r.left : ℚ) ≤ px ∧ px < r.left + r.width ∧ (r.top : ℚ) ≤ py ∧ py < r.top + r.height

/-- The hover handler's conversion of a canvas coordinate to a tile index,
source lines 1170-1171: `Math.floor(canvas_x / TILE_SIZE)`. -/
def hover_tile (canvas_coord : ℚ) : ℤ :=
  ⌊canvas_coord / (TILE_SIZE : ℚ)⌋

/-- The condition of the `if` at source lines 1217-1220 for one category. -/
def hit_test (category : Category) (tile_x tile_y : ℤ) : Bool :=
  let adjusted_x := tile_x - PADDING_TILES
  let adjusted_y_px := (tile_y - PADDING_TILES) * TILE_SIZE
  let row_offset := get_category_row category.position.y * LABEL_HEIGHT_PX
  let cat_top := row_offset + (category.position.y : ℤ) * TILE_SIZE
  let cat_bottom := cat_top + (category.tiles.h : ℤ) * TILE_SIZE
  let cat_left : ℤ := category.position.x
  let cat_right : ℤ := (category.position.x : ℤ) + category.tiles.w
  decide (adjusted_x ≥ cat_left) && decide (adjusted_x < cat_right) &&
    decide (adjusted_y_px ≥ cat_top) && decide (adjusted_y_px < cat_bottom)

/-- `find_category_at_tile(tile_x, tile_y)`, source lines 1190-1225: the first
catalog entry that is not skipped and passes the test, else `null`. -/
def find_category_at_tile (st : State) (tile_x tile_y : ℤ) : Option Category :=
  CATEGORIES.find? (fun cat => is_rendered st cat && hit_test cat tile_x tile_y)

/-! ## Canvas rendering (source lines 1007-1074) -/

/-- What `render_canvas` draws for one category: the `fillRect` calls of the
tile loop in order, each with its fill colour, and the rectangle
`(border_x, border_y, border_w, border_h)` around which the border is
stroked. -/
structure Region where
  category : Category
  is_selected : Bool
  cells : List (Rect × RGB)
  border : Rect

/-- The tile loop of source lines 1033-1043 over a colour grid.  Reading
`color_grid[y][x]` outside the grid gives `undefined`, and `color.r` then
throws. -/
def draw_tiles (category : Category) (color_grid : List (List RGB)) :
    Option (List (Rect × RGB)) :=
  collect ((List.range category.tiles.h).flatMap (fun y =>
    (List.range category.tiles.w).map (fun x =>
      (color_grid[y]?.bind (fun row => row[x]?)).map
        (fun color => (tile_cell category x y, color)))))

/-- The body of the category loop of `render_canvas`, source lines 1015-1072,
for a category that is not skipped.  The result is `none` when the function
throws. -/
def render_category (st : State) (category : Category) : Option Region :=
  let is_selected := decide (category.id ∈ st.selected_categories)
  let color_grid :=
    if is_selected then generate_category_colors st category
    else some (generate_muted_colors category)
  match color_grid with
  | none => none
  | some color_grid =>
    match draw_tiles category color_grid with
    | none => none
    | some cells =>
      some { category := category, is_selected := is_selected, cells := cells,
             border := category_rect category }

/-- `render_canvas()`, source lines 1007-1074: the regions drawn, in catalog
order; categories that are unselected while `omit_unselected` is set are
skipped.  The result is `none` when a step of the loop throws. -/
def render_canvas (st : State) : Option (List Region) :=
  collect ((CATEGORIES.filter (is_rendered st)).map (render_category st))

/-! ## Restoring selections (source lines 849-877) -/

/-- `Set.prototype.add` on a set kept in insertion order. -/
def set_add (s : List String) (id : String) : List String :=
  if id ∈ s then s else s ++ [id]

/-- The value found under `STORAGE_KEY`.  An array element that is not a
string is never equal to a category id and is dropped like an unknown string,
so only the strings of an array are kept here. -/
inductive StoredSelections where
  | absent : StoredSelections
  | malformed : StoredSelections
  | not_array : StoredSelections
  | array (ids : List String) : StoredSelections

/-- The loop of source lines 855-862: every listed id that is the id of a
catalog category is added to the selection. -/
def restore_ids (selected : List String) (ids : List String) : List String :=
  ids.foldl (fun sel id => if CATEGORIES.any (fun cat => cat.id == id) then set_add sel id else sel)
    selected

/-- `load_selections()`, source lines 849-877.  `stored_settings` is `none`
when no settings are stored, else the field `omit_unselected` of the stored
object if it has one.  Malformed JSON throws inside the `try` block, which
skips the rest of the function. -/
def load_selections (st : State) (stored_selections : StoredSelections)
    (stored_settings : Option (Option Bool)) : State :=
  match stored_selections with
  | StoredSelections.malformed => st
  | stored =>
    let selected :=
      match stored with
      | StoredSelections.array ids => restore_ids st.selected_categories ids
      | _ => st.selected_categories
    match stored_settings with
    | some (some omit_unselected) =>
      { st with selected_categories := selected, omit_unselected := omit_unselected }
    | _ => { st with selected_categories := selected }

instance (r : Rect) (px py : ℚ) : Decidable (r.Contains px py) := by
  unfold Rect.Contains
  infer_instance

/-! ## Grid overlay (source lines 1386-1420) -/

/-- The rectangle `(x, y, w, h)` that `render_grid` computes for a category at
source lines 1395-1398 and outlines at line 1400. -/
def grid_rect (cat : Category) : Rect :=
  { left := PADDING_PX + (cat.position.x : ℤ) * TILE_SIZE,
    top := PADDING_PX + (cat.position.y : ℤ) * TILE_SIZE,
    width := (cat.tiles.w : ℤ) * TILE_SIZE,
    height := (cat.tiles.h : ℤ) * TILE_SIZE }

/-- The category borders outlined by `render_grid()`, source lines 1393-1401,
in catalog order; no category is skipped. -/
def render_grid : List Rect :=
  CATEGORIES.map grid_rect

/-- Every row of the matrix has non-negative entries that sum to 1. -/
def Matrix3.RowStochastic (m : Matrix3) : Prop :=
  (0 ≤ m.m00 ∧ 0 ≤ m.m01 ∧ 0 ≤ m.m02 ∧ m.m00 + m.m01 + m.m02 = 1) ∧
  (0 ≤ m.m10 ∧ 0 ≤ m.m11 ∧ 0 ≤ m.m12 ∧ m.m10 + m.m11 + m.m12 = 1) ∧
  (0 ≤ m.m20 ∧ 0 ≤ m.m21 ∧ 0 ≤ m.m22 ∧ m.m20 + m.m21 + m.m22 = 1)

instance (m : Matrix3) : Decidable m.RowStochastic := by
  unfold Matrix3.RowStochastic
  infer_instance

/-! ## Notions used in the statements -/

/-- The hit regions of two categories share no tile: their tile columns or
their pixel rows (after the label offset) do not meet. -/
def hit_separated (a b : Category) : Prop :=
  (a.position.x : ℤ) + a.tiles.w ≤ b.position.x ∨
  (b.position.x : ℤ) + b.tiles.w ≤ a.position.x ∨
  get_category_row a.position.y * LABEL_HEIGHT_PX + (a.position.y : ℤ) * TILE_SIZE +
      (a.tiles.h : ℤ) * TILE_SIZE ≤
    get_category_row b.position.y * LABEL_HEIGHT_PX + (b.position.y : ℤ) * TILE_SIZE ∨
  get_category_row b.position.y * LABEL_HEIGHT_PX + (b.position.y : ℤ) * TILE_SIZE +
      (b.tiles.h : ℤ) * TILE_SIZE ≤
    get_category_row a.position.y * LABEL_HEIGHT_PX + (a.position.y : ℤ) * TILE_SIZE

instance (a b : Category) : Decidable (hit_separated a b) := by
  unfold hit_separated
  infer_instance

/-- Two rectangles are separated along one of the two axes. -/
def Rect.Separated (a b : Rect) : Prop :=
  a.left + a.width ≤ b.left ∨ b.left + b.width ≤ a.left ∨
  a.top + a.height ≤ b.top ∨ b.top + b.height ≤ a.top

instance (a b : Rect) : Decidable (Rect.Separated a b) := by
  unfold Rect.Separated
  infer_instance

/-! ## Basic facts about JavaScript numbers -/

namespace JSNum

@[simp]
theorem ofNat_eq_fin (n : ℕ) [n.AtLeastTwo] :
    (OfNat.ofNat n : JSNum) = fin (OfNat.ofNat n) := by
  show fin ((n : ℕ) : ℚ) = fin (OfNat.ofNat n)
  exact congrArg fin (Nat.cast_ofNat (R := ℚ))

@[simp]
theorem zero_eq_fin : (0 : JSNum) = fin 0 := by
  show fin ((0 : ℕ) : ℚ) = fin 0
  simp

@[simp]
theorem one_eq_fin : (1 : JSNum) = fin 1 := by
  show fin ((1 : ℕ) : ℚ) = fin 1
  simp

@[simp]
theorem fin_add_fin (a b : ℚ) : fin a + fin b = fin (a + b) := rfl

@[simp]
theorem fin_sub_fin (a b : ℚ) : fin a - fin b = fin (a - b) := by
  show fin (a + -b) = fin (a - b)
  rw [sub_eq_add_neg]

@[simp]
theorem fin_mul_fin (a b : ℚ) : fin a * fin b = fin (a * b) := rfl

@[simp]
theorem fin_div_fin (a b : ℚ) : fin a / fin b =
    if b = 0 then (if a = 0 then nan else inf (decide (0 < a))) else fin (a / b) := rfl

@[simp]
theorem fin_rem_fin (a b : ℚ) : fin a % fin b =
    if b = 0 then nan else fin (a - b * (trunc (a / b) : ℚ)) := rfl

@[simp]
theorem lt_fin_fin (a b : ℚ) : lt (fin a) (fin b) = decide (a < b) := rfl

@[simp]
theorem strictEq_fin_fin (a b : ℚ) : strictEq (fin a) (fin b) = decide (a = b) := rfl

@[simp]
theorem max_fin_fin (a b : ℚ) : JSNum.max (fin a) (fin b) = fin (Max.max a b) := rfl

@[simp]
theorem min_fin_fin (a b : ℚ) : JSNum.min (fin a) (fin b) = fin (Min.min a b) := rfl

@[simp]
theorem round_fin (a : ℚ) : round (fin a) = fin (⌊a + 1 / 2⌋ : ℤ) := rfl

end JSNum

/-! ## Hue wrap-around -/

/-- On finite arguments the adjusted hue is the truncated remainder of
`hue + hue_adj + 360` by 360. -/
theorem adjust_hue_fin (hue hue_adj : ℚ) :
    adjust_hue (fin hue) hue_adj =
      fin (hue + hue_adj + 360 - 360 * (trunc ((hue + hue_adj + 360) / 360) : ℚ)) := by
  simp only [adjust_hue, ofNat_eq_fin, fin_add_fin, fin_rem_fin]
  norm_num

/-- The adjusted hue differs from `hue + hue_adj` by a multiple of 360. -/
theorem adjust_hue_congruent (hue hue_adj : ℚ) :
    ∃ k : ℤ, adjust_hue (fin hue) hue_adj = fin (hue + hue_adj + 360 * (k : ℚ)) := by
  refine ⟨1 - trunc ((hue + hue_adj + 360) / 360), ?_⟩
  rw [adjust_hue_fin]
  congr 1
  push_cast
  ring

/-- When `hue + hue_adj` is at least `-360` the adjusted hue lies in
`[0, 360)`. -/
theorem adjust_hue_mem_range (hue hue_adj : ℚ) (h : -360 ≤ hue + hue_adj) :
    ∃ v : ℚ, adjust_hue (fin hue) hue_adj = fin v ∧ 0 ≤ v ∧ v < 360 := by
  refine ⟨_, adjust_hue_fin hue hue_adj, ?_, ?_⟩
  · have h0 : (0 : ℚ) ≤ (hue + hue_adj + 360) / 360 := by
      apply div_nonneg <;> linarith
    have hf := Int.floor_le ((hue + hue_adj + 360) / 360)
    rw [trunc, if_pos h0]
    have : (360 : ℚ) * ⌊(hue + hue_adj + 360) / 360⌋ ≤ 360 * ((hue + hue_adj + 360) / 360) :=
      mul_le_mul_of_nonneg_left hf (by norm_num)
    have e : (360 : ℚ) * ((hue + hue_adj + 360) / 360) = hue + hue_adj + 360 := by
      field_simp
    linarith
  · have h0 : (0 : ℚ) ≤ (hue + hue_adj + 360) / 360 := by
      apply div_nonneg <;> linarith
    have hf := Int.lt_floor_add_one ((hue + hue_adj + 360) / 360)
    rw [trunc, if_pos h0]
    have : (360 : ℚ) * ((hue + hue_adj + 360) / 360) < 360 * (⌊(hue + hue_adj + 360) / 360⌋ + 1) :=
      mul_lt_mul_of_pos_left hf (by norm_num)
    have e : (360 : ℚ) * ((hue + hue_adj + 360) / 360) = hue + hue_adj + 360 := by
      field_simp
    linarith

/-! ## Theme resolution -/

theorem or_default_zero (v : Option ℚ) : or_default v 0 = v.getD 0 := by
  cases v with
  | none => rfl
  | some q =>
    by_cases hq : q = 0
    · simp [or_default, hq]
    · simp [or_default, hq]

theorem category_adjustment_eq (theme : Theme) (id : String) :
    category_adjustment theme id = (theme.category_adjustments.lookup id).getD {} := by
  unfold category_adjustment js_get
  cases theme.category_adjustments.lookup id with
  | some adj => rfl
  | none =>
    simp only [Option.getD_none]
    split_ifs <;> rfl

theorem category_adjustment_none (id : String) :
    category_adjustment THEMES_none id = {} := by
  rw [category_adjustment_eq]
  rfl

theorem resolve_adjustments_none (id : String) (warmth : ℤ) :
    resolve_adjustments THEMES_none id warmth = ⟨warmth, 1, 0⟩ := by
  unfold resolve_adjustments
  rw [category_adjustment_none]
  simp [or_default, THEMES_none]

/-! ## Interpolation parameters -/

theorem light_t_fin (cat : Category) (x : ℕ) (hw : 2 ≤ cat.tiles.w) :
    light_t cat x = fin ((x : ℚ) / ((cat.tiles.w : ℚ) - 1)) := by
  have h2 : (2 : ℚ) ≤ cat.tiles.w := by exact_mod_cast hw
  have hne : (cat.tiles.w : ℚ) - 1 ≠ 0 := by linarith
  simp [light_t, hne]

theorem hue_t_fin (cat : Category) (y : ℕ) (hh : 2 ≤ cat.tiles.h) :
    hue_t cat y = fin ((y : ℚ) / ((cat.tiles.h : ℚ) - 1)) := by
  have h2 : (2 : ℚ) ≤ cat.tiles.h := by exact_mod_cast hh
  have hne : (cat.tiles.h : ℚ) - 1 ≠ 0 := by linarith
  simp [hue_t, hne]

theorem sat_t_fin (cat : Category) (x y : ℕ) (hwh : 3 ≤ cat.tiles.w + cat.tiles.h) :
    sat_t cat x y = fin (((x : ℚ) + y) / ((cat.tiles.w : ℚ) + cat.tiles.h - 2)) := by
  have h3 : (3 : ℚ) ≤ (cat.tiles.w : ℚ) + cat.tiles.h := by exact_mod_cast hwh
  have hne : (cat.tiles.w : ℚ) + cat.tiles.h - 2 ≠ 0 := by linarith
  simp [sat_t, hne]

theorem raw_lightness_fin (cat : Category) (x : ℕ) (hw : 2 ≤ cat.tiles.w) :
    raw_lightness cat x = fin (cat.colors.light_range.2 -
      (x : ℚ) / ((cat.tiles.w : ℚ) - 1) * (cat.colors.light_range.2 - cat.colors.light_range.1)) := by
  simp [raw_lightness, light_t_fin cat x hw]

theorem raw_hue_fin (cat : Category) (y : ℕ) (hh : 2 ≤ cat.tiles.h) :
    raw_hue cat y = fin (cat.colors.hue_range.1 +
      (y : ℚ) / ((cat.tiles.h : ℚ) - 1) * (cat.colors.hue_range.2 - cat.colors.hue_range.1)) := by
  simp [raw_hue, hue_t_fin cat y hh]

theorem raw_saturation_fin (cat : Category) (x y : ℕ) (hwh : 3 ≤ cat.tiles.w + cat.tiles.h) :
    raw_saturation cat x y = fin (cat.colors.sat_range.1 +
      ((x : ℚ) + y) / ((cat.tiles.w : ℚ) + cat.tiles.h - 2) *
        (cat.colors.sat_range.2 - cat.colors.sat_range.1)) := by
  simp [raw_saturation, sat_t_fin cat x y hwh]

/-- C2: the hue line adds 360 once before taking the remainder, and the
remainder of a negative number is negative: with raw hue 20 (top row of the
catalog entry `wood`), theme `none` and warmth -400 the hue handed to
`hsl_to_rgb` is -20, outside `[0, 360)`; raw hue 0 with adjustment -400 gives
-40.  The example of the specification, 350 + 30, does give 20. -/
theorem adjust_hue_negative_not_wrapped :
    (∃ cat ∈ CATEGORIES, cat.id = "wood" ∧
      (tile_hsl (resolve_adjustments THEMES_none cat.id (-400)) cat 0 0).1 = fin (-20)) ∧
    adjust_hue (fin 0) (-400) = fin (-40) ∧
    adjust_hue (fin 350) 30 = fin 20 := by
  refine ⟨⟨mkCategory "wood" "Wood" 48 48 0 0 20 40 30 60 25 70, by simp [CATEGORIES], rfl, ?_⟩,
    ?_, ?_⟩
  · rw [resolve_adjustments_none]
    rw [tile_hsl, raw_hue_fin _ _ (by decide), adjust_hue_fin]
    norm_num [mkCategory, trunc]
  · rw [adjust_hue_fin]
    norm_num [trunc]
  · rw [adjust_hue_fin]
    norm_num [trunc]

/-- C3, as the code has it: the lightness handed to `hsl_to_rgb` for a tile is
the adjusted lightness of source line 956; for every finite interpolated
lightness and every lightness adjustment it equals
`max 5 (min 95 (lightness + light_adj))`, which lies in `[5, 95]`; the
interpolated lightness is finite for every tile of every category with at
least two columns, as all catalog categories are; a `NaN` lightness, which a
category of one column has, stays `NaN`; lightness 10 under theme `midnight`
(shift -25) gives 5. -/
theorem adjust_lightness_clamped :
    (∀ (adj : Adjustments) (cat : Category) (x y : ℕ),
      (tile_hsl adj cat x y).2.2 = adjust_lightness (raw_lightness cat x) adj.light_adj) ∧
    (∀ lightness light_adj : ℚ,
      adjust_lightness (fin lightness) light_adj = fin (max 5 (min 95 (lightness + light_adj))) ∧
      5 ≤ max 5 (min 95 (lightness + light_adj)) ∧
      max 5 (min 95 (lightness + light_adj)) ≤ 95) ∧
    (∀ (adj : Adjustments) (cat : Category) (x y : ℕ), 2 ≤ cat.tiles.w →
      ∃ lightness lv : ℚ, raw_lightness cat x = fin lightness ∧
        (tile_hsl adj cat x y).2.2 = fin lv ∧
        lv = max 5 (min 95 (lightness + adj.light_adj)) ∧ 5 ≤ lv ∧ lv ≤ 95) ∧
    (∀ cat ∈ CATEGORIES, 2 ≤ cat.tiles.w) ∧
    (∀ light_adj : ℚ, adjust_lightness nan light_adj = nan) ∧
    (∃ midnight, THEMES.lookup "midnight" = some midnight ∧ midnight.lightness_shift = -25 ∧
      adjust_lightness (fin 10) (resolve_adjustments midnight "wood" 0).light_adj = fin 5) := by
  have clamp : ∀ lightness light_adj : ℚ,
      adjust_lightness (fin lightness) light_adj =
        fin (max 5 (min 95 (lightness + light_adj))) := by
    intro lightness light_adj
    simp only [adjust_lightness, ofNat_eq_fin, fin_add_fin, min_fin_fin, max_fin_fin]
  have upper : ∀ v : ℚ, max 5 (min 95 v) ≤ 95 := fun v =>
    max_le (by norm_num) (min_le_left _ _)
  refine ⟨fun _ _ _ _ => rfl, fun lightness light_adj =>
    ⟨clamp _ _, le_max_left _ _, upper _⟩, ?_, by decide!, fun _ => rfl, ?_⟩
  · intro adj cat x y hw
    refine ⟨_, _, raw_lightness_fin cat x hw, ?_, rfl, le_max_left _ _, upper _⟩
    show adjust_lightness (raw_lightness cat x) adj.light_adj = _
    rw [raw_lightness_fin cat x hw, clamp]
  · refine ⟨_, rfl, rfl, ?_⟩
    simp [resolve_adjustments, category_adjustment_eq, or_default, adjust_lightness,
      List.lookup]
    norm_num

/-- The clamp at the top-left tile of a category of 48 columns with lightness
range `[25, 70]`, under a lightness adjustment of -100: the lightness handed
on is 5. -/
theorem adjust_lightness_clamped_witness :
    ∃ lightness lv : ℚ,
      raw_lightness (mkCategory "wood" "Wood" 48 48 0 0 20 40 30 60 25 70) 0 = fin lightness ∧
      (tile_hsl { hue_adj := 0, sat_mult := 1, light_adj := -100 }
        (mkCategory "wood" "Wood" 48 48 0 0 20 40 30 60 25 70) 0 0).2.2 = fin lv ∧
      lv = Max.max 5 (Min.min 95 (lightness + (-100 : ℚ))) ∧ 5 ≤ lv ∧ lv ≤ 95 :=
  adjust_lightness_clamped.2.2.1 { hue_adj := 0, sat_mult := 1, light_adj := -100 }
    (mkCategory "wood" "Wood" 48 48 0 0 20 40 30 60 25 70) 0 0 (by decide)

/-! ## Colour-blind filter -/

theorem apply_colorblind_simulation_none (r g b : JSNum) :
    apply_colorblind_simulation "none" r g b = some { r := r, g := g, b := b } := by
  simp [apply_colorblind_simulation]

/-- A mode that is neither a key of the matrix table nor an inherited property
name leaves the colour unchanged. -/
theorem apply_colorblind_simulation_unknown (mode : String) (r g b : JSNum)
    (hkey : COLORBLIND_MATRICES.lookup mode = none) (hproto : mode ∉ OBJECT_PROTOTYPE_KEYS) :
    apply_colorblind_simulation mode r g b = some { r := r, g := g, b := b } := by
  unfold apply_colorblind_simulation js_get
  rw [hkey]
  simp only [if_neg hproto]
  split_ifs <;> rfl

/-- C6: the mode `none` returns the triple unchanged, and so does the
unrecognised mode `sepia`; but for the identifier `constructor`, which has no
matrix in the table, the lookup `COLORBLIND_MATRICES[mode]` finds the
inherited property, the guard does not fire and `matrix[0][0]` throws: no
triple is returned. -/
theorem apply_colorblind_simulation_inherited_key (r g b : JSNum) :
    COLORBLIND_MATRICES.lookup "constructor" = none ∧
    apply_colorblind_simulation "constructor" r g b = none ∧
    apply_colorblind_simulation "none" r g b = some { r := r, g := g, b := b } ∧
    apply_colorblind_simulation "sepia" r g b = some { r := r, g := g, b := b } := by
  refine ⟨by simp [COLORBLIND_MATRICES, List.lookup], ?_, apply_colorblind_simulation_none r g b,
    ?_⟩
  · simp [apply_colorblind_simulation, js_get, COLORBLIND_MATRICES, List.lookup,
      OBJECT_PROTOTYPE_KEYS]
  · exact apply_colorblind_simulation_unknown _ r g b (by simp [COLORBLIND_MATRICES, List.lookup])
      (by simp [OBJECT_PROTOTYPE_KEYS])

/-! ## Resolved adjustments -/

/-- C7: for every theme, category id and warmth the resolved hue adjustment is
`theme.hue_shift + override.hue_shift + warmth` and the resolved lightness
adjustment is `theme.lightness_shift + override.lightness_shift`, where the
override is the entry of the theme's `category_adjustments` for that id and an
absent field, or an absent entry, counts as 0. -/
theorem resolve_adjustments_additive (theme : Theme) (category_id : String) (warmth : ℤ) :
    (resolve_adjustments theme category_id warmth).hue_adj =
      theme.hue_shift +
        ((theme.category_adjustments.lookup category_id).bind
          CategoryAdjustment.hue_shift).getD 0 + warmth ∧
    (resolve_adjustments theme category_id warmth).light_adj =
      theme.lightness_shift +
        ((theme.category_adjustments.lookup category_id).bind
          CategoryAdjustment.lightness_shift).getD 0 := by
  unfold resolve_adjustments
  simp only [or_default_zero, category_adjustment_eq, Option.getD_some]
  cases theme.category_adjustments.lookup category_id <;> simp

theorem exists_mem_of_lookup {β : Type} (l : List (String × β)) (k : String) (b : β)
    (h : l.lookup k = some b) : ∃ e ∈ l, e.2 = b := by
  induction l with
  | nil => simp at h
  | cons e es ih =>
    obtain ⟨a, v⟩ := e
    rw [List.lookup_cons] at h
    cases hk : (k == a) with
    | true =>
      rw [hk] at h
      exact ⟨(a, v), List.mem_cons_self _ _, by simpa using h⟩
    | false =>
      rw [hk] at h
      obtain ⟨e, he, hb⟩ := ih h
      exact ⟨e, List.mem_cons_of_mem _ he, hb⟩

/-- No multiplier of the theme table is 0. -/
theorem THEMES_mult_ne_zero : ∀ entry ∈ THEMES, entry.2.saturation_mult ≠ 0 ∧
    ∀ adj ∈ entry.2.category_adjustments, adj.2.saturation_mult ≠ some 0 := by
  decide!

/-- The factor that `v || 1` contributes: an absent field and the value 0 both
count as 1. -/
theorem or_default_one (v : Option ℚ) :
    or_default v 1 = if v = none ∨ v = some 0 then 1 else v.getD 1 := by
  cases v with
  | none => simp [or_default]
  | some q =>
    by_cases hq : q = 0
    · simp [or_default, hq]
    · simp [or_default, hq]

/-- C8, as the code has it: the resolved saturation multiplier is the product
of the theme's and the override's multiplier, where a field that is absent or
equal to 0 counts as 1; for every theme of the theme table, none of whose
multipliers is 0, it is `theme.saturation_mult` times the override's
multiplier, the latter 1 when absent. -/
theorem resolve_adjustments_sat_mult :
    (∀ (theme : Theme) (category_id : String) (warmth : ℤ),
      (resolve_adjustments theme category_id warmth).sat_mult =
        (if theme.saturation_mult = 0 then 1 else theme.saturation_mult) *
        (match (theme.category_adjustments.lookup category_id).bind
            CategoryAdjustment.saturation_mult with
          | some v => if v = 0 then 1 else v
          | none => 1)) ∧
    (∀ entry ∈ THEMES, ∀ (category_id : String) (warmth : ℤ),
      (resolve_adjustments entry.2 category_id warmth).sat_mult =
        entry.2.saturation_mult *
          ((entry.2.category_adjustments.lookup category_id).bind
            CategoryAdjustment.saturation_mult).getD 1) := by
  have key : ∀ (theme : Theme) (category_id : String) (warmth : ℤ),
      (resolve_adjustments theme category_id warmth).sat_mult =
        (if theme.saturation_mult = 0 then 1 else theme.saturation_mult) *
        (match (theme.category_adjustments.lookup category_id).bind
            CategoryAdjustment.saturation_mult with
          | some v => if v = 0 then 1 else v
          | none => 1) := by
    intro theme category_id warmth
    unfold resolve_adjustments
    simp only [category_adjustment_eq]
    cases theme.category_adjustments.lookup category_id with
    | none => simp [or_default]
    | some adj =>
      cases h : adj.saturation_mult <;> simp [or_default, h]
  refine ⟨key, ?_⟩
  intro entry hentry category_id warmth
  rw [key]
  obtain ⟨hne, hadj⟩ := THEMES_mult_ne_zero entry hentry
  rw [if_neg hne]
  cases hl : entry.2.category_adjustments.lookup category_id with
  | none => simp
  | some adj =>
    obtain ⟨e, he, rfl⟩ := exists_mem_of_lookup _ _ _ hl
    have hz := hadj e he
    cases hs : e.2.saturation_mult with
    | none => simp [hs]
    | some v =>
      have hv : v ≠ 0 := fun h0 => hz (by rw [hs, h0])
      simp [hs, hv]

/-- The saturation rule at the table entry `none` and the category `wood`. -/
theorem resolve_adjustments_sat_mult_witness :
    ("none", THEMES_none) ∈ THEMES ∧
    (resolve_adjustments THEMES_none "wood" 0).sat_mult =
      THEMES_none.saturation_mult *
        ((THEMES_none.category_adjustments.lookup "wood").bind
          CategoryAdjustment.saturation_mult).getD 1 :=
  ⟨by simp [THEMES],
    resolve_adjustments_sat_mult.2 ("none", THEMES_none) (by simp [THEMES]) "wood" 0⟩

/-- C8 fails as stated: an override whose `saturation_mult` is present with
value 0 resolves to the multiplier 1, not 0. -/
theorem resolve_adjustments_zero_mult_ignored :
    (resolve_adjustments
      { THEMES_none with
        category_adjustments := [("wood", { saturation_mult := some 0 })] } "wood" 0).sat_mult = 1 ∧
    ¬ (resolve_adjustments
      { THEMES_none with
        category_adjustments := [("wood", { saturation_mult := some 0 })] } "wood" 0).sat_mult =
      THEMES_none.saturation_mult * 0 := by
  have h : (resolve_adjustments
      { THEMES_none with
        category_adjustments := [("wood", { saturation_mult := some 0 })] } "wood" 0).sat_mult = 1 := by
    simp [resolve_adjustments, category_adjustment_eq, or_default, List.lookup, THEMES_none]
  exact ⟨h, by rw [h]; norm_num⟩

/-! ## The generated grid -/

theorem collect_map_some {α β : Type} (f : β → Option α) (g : β → α) (l : List β)
    (h : ∀ x ∈ l, f x = some (g x)) : collect (l.map f) = some (l.map g) := by
  induction l with
  | nil => rfl
  | cons a as ih =>
    have ha := h a (List.mem_cons_self _ _)
    have has := ih (fun x hx => h x (List.mem_cons_of_mem _ hx))
    simp only [List.map_cons, ha, collect, has]

/-- When every tile of the grid yields a colour, the grid is the table of
these colours. -/
theorem color_grid_eq_some (mode : String) (adj : Adjustments) (cat : Category)
    (g : ℕ → ℕ → RGB)
    (h : ∀ y < cat.tiles.h, ∀ x < cat.tiles.w, tile_color mode adj cat x y = some (g x y)) :
    color_grid mode adj cat =
      some ((List.range cat.tiles.h).map fun y => (List.range cat.tiles.w).map fun x => g x y) := by
  unfold color_grid
  apply collect_map_some
  intro y hy
  apply collect_map_some
  intro x hx
  exact h y (List.mem_range.mp hy) x (List.mem_range.mp hx)

theorem grid_getElem? {α : Type} (w h : ℕ) (g : ℕ → ℕ → α) (x y : ℕ) (hx : x < w) (hy : y < h) :
    ((List.range h).map fun y => (List.range w).map fun x => g x y)[y]?.bind
      (fun row => row[x]?) = some (g x y) := by
  simp [List.getElem?_range, hx, hy]

/-- With the mode `none` no step of the loop throws. -/
theorem tile_color_none (adj : Adjustments) (cat : Category) (x y : ℕ) :
    tile_color "none" adj cat x y =
      some { r := (hsl_to_rgb (tile_hsl adj cat x y).1 (tile_hsl adj cat x y).2.1
                (tile_hsl adj cat x y).2.2).1,
             g := (hsl_to_rgb (tile_hsl adj cat x y).1 (tile_hsl adj cat x y).2.1
                (tile_hsl adj cat x y).2.2).2.1,
             b := (hsl_to_rgb (tile_hsl adj cat x y).1 (tile_hsl adj cat x y).2.1
                (tile_hsl adj cat x y).2.2).2.2 } := by
  simp only [tile_color, apply_colorblind_simulation_none]

theorem js_get_THEMES_none : js_get THEMES "none" = Lookup.own THEMES_none := by
  simp [js_get, THEMES, List.lookup]

/-- A theme id that is neither a key of the theme table nor an inherited
property name is treated like `none`. -/
theorem generate_category_colors_unknown_theme (st : State) (cat : Category)
    (hkey : THEMES.lookup st.current_theme = none)
    (hproto : st.current_theme ∉ OBJECT_PROTOTYPE_KEYS) :
    generate_category_colors st cat =
      generate_category_colors { st with current_theme := "none" } cat := by
  unfold generate_category_colors
  rw [js_get_THEMES_none]
  simp only [js_get, hkey, if_neg hproto]

/-- C10: the theme id `constructor` is not a key of the theme table, yet the
lookup `THEMES[state.current_theme]` finds the property inherited from
`Object.prototype`, the fallback to `THEMES.none` is not taken and reading
`theme.category_adjustments[category.id]` throws: for every category, warmth
and mode no grid is returned, while the theme id `none` does return a grid for
the mode `none`. -/
theorem generate_category_colors_inherited_theme (st : State) (cat : Category) :
    THEMES.lookup "constructor" = none ∧
    generate_category_colors { st with current_theme := "constructor" } cat = none ∧
    ∃ grid, generate_category_colors
      { st with current_theme := "none", colorblind_mode := "none" } cat = some grid := by
  refine ⟨by simp [THEMES, List.lookup], ?_, ?_⟩
  · simp [generate_category_colors, js_get, THEMES, List.lookup, OBJECT_PROTOTYPE_KEYS]
  · unfold generate_category_colors
    rw [js_get_THEMES_none]
    exact ⟨_, color_grid_eq_some _ _ _ _ (fun y _ x _ => tile_color_none _ _ x y)⟩

/-- C1: with theme `none`, warmth -710 and mode `none`, the catalog entry
`emissive` gets for its tile `x = 23`, `y = 0` the hue -350, saturation 85 and
lightness 55, and the colour stored in row 0, column 23 of the grid is
(238, 75, -315): the blue channel is below 0. -/
theorem generate_category_colors_channel_below_zero :
    ∃ cat ∈ CATEGORIES, cat.id = "emissive" ∧
      ∃ grid, generate_category_colors
        { selected_categories := [], current_theme := "none", warmth := -710,
          colorblind_mode := "none", omit_unselected := false } cat = some grid ∧
        grid[0]?.bind (fun row => row[23]?) =
          some { r := fin 238, g := fin 75, b := fin (-315) } := by
  refine ⟨mkCategory "emissive" "Emissive" 24 24 144 80 0 360 70 100 55 80,
    by simp [CATEGORIES], rfl, ?_⟩
  unfold generate_category_colors
  rw [js_get_THEMES_none]
  refine ⟨_, color_grid_eq_some _ _ _ _ (fun y _ x _ => tile_color_none _ _ x y), ?_⟩
  have hsl : tile_hsl (resolve_adjustments THEMES_none "emissive" (-710))
      (mkCategory "emissive" "Emissive" 24 24 144 80 0 360 70 100 55 80) 23 0 =
      (fin (-350), fin 85, fin 55) := by
    rw [resolve_adjustments_none, tile_hsl, raw_hue_fin _ _ (by decide),
      raw_saturation_fin _ _ _ (by decide), raw_lightness_fin _ _ (by decide), adjust_hue_fin]
    simp [mkCategory, adjust_saturation, adjust_lightness]
    norm_num [trunc]
  have rgb : hsl_to_rgb (fin (-350)) (fin 85) (fin 55) = (fin 238, fin 75, fin (-315)) := by
    decide!
  have h0 : (0 : ℕ) < (mkCategory "emissive" "Emissive" 24 24 144 80 0 360 70 100 55 80).tiles.h := by
    decide
  have h23 : (23 : ℕ) < (mkCategory "emissive" "Emissive" 24 24 144 80 0 360 70 100 55 80).tiles.w := by
    decide
  rw [grid_getElem? _ _ _ _ _ h23 h0]
  dsimp only [mkCategory] at hsl ⊢
  rw [hsl, rgb]

/-! ## Hit testing -/

theorem hover_tile_centre (n : ℤ) : hover_tile ((n : ℚ) + (TILE_SIZE : ℚ) / 2) = (n + 2) / 4 := by
  unfold hover_tile TILE_SIZE
  have e : ((n : ℚ) + ((4 : ℤ) : ℚ) / 2) / ((4 : ℤ) : ℚ) = ((n + 2 : ℤ) : ℚ) / ((4 : ℕ) : ℚ) := by
    push_cast
    ring
  rw [e, Rat.floor_intCast_div_natCast]
  rfl

theorem get_category_row_cases (y : ℕ) :
    get_category_row y = 0 ∨ get_category_row y = 1 ∨ get_category_row y = 2 ∨
    get_category_row y = 3 ∨ get_category_row y = 4 ∨ get_category_row y = 5 := by
  unfold get_category_row
  split_ifs <;> simp

/-- The centre of the cell of tile `(col, row)` passes the hit test of its own
category. -/
theorem hit_test_centre (cat : Category) (col row : ℕ) (hcol : col < cat.tiles.w)
    (hrow : row < cat.tiles.h) :
    hit_test cat
      (hover_tile (((tile_cell cat col row).left : ℚ) + (TILE_SIZE : ℚ) / 2))
      (hover_tile (((tile_cell cat col row).top : ℚ) + (TILE_SIZE : ℚ) / 2)) = true := by
  rw [hover_tile_centre, hover_tile_centre]
  simp only [hit_test, tile_cell, Bool.and_eq_true, decide_eq_true_eq, PADDING_PX, PADDING_TILES,
    TILE_SIZE, LABEL_HEIGHT_PX]
  rcases get_category_row_cases cat.position.y with h | h | h | h | h | h <;> rw [h] <;>
    refine ⟨⟨⟨?_, ?_⟩, ?_⟩, ?_⟩ <;> omega

theorem hit_test_not_separated (a b : Category) (tile_x tile_y : ℤ)
    (ha : hit_test a tile_x tile_y = true) (hb : hit_test b tile_x tile_y = true) :
    ¬ hit_separated a b := by
  simp only [hit_test, Bool.and_eq_true, decide_eq_true_eq] at ha hb
  unfold hit_separated
  omega

theorem hit_separated_symm : Symmetric hit_separated := by
  intro a b h
  unfold hit_separated at h ⊢
  omega

theorem CATEGORIES_hit_separated : CATEGORIES.Pairwise hit_separated := by
  decide!

theorem find?_eq_some_of_unique {α : Type} (p : α → Bool) (l : List α) (a : α) (ha : a ∈ l)
    (hp : p a = true) (hu : ∀ b ∈ l, p b = true → b = a) : l.find? p = some a := by
  induction l with
  | nil => cases ha
  | cons c cs ih =>
    by_cases hc : p c = true
    · rw [List.find?_cons_of_pos _ hc, hu c (List.mem_cons_self _ _) hc]
    · rw [List.find?_cons_of_neg _ hc]
      rcases List.mem_cons.mp ha with rfl | hmem
      · exact absurd hp hc
      · exact ih hmem (fun b hb => hu b (List.mem_cons_of_mem _ hb))

/-- At most one catalog category passes the hit test at a tile. -/
theorem hit_test_unique (a : Category) (ha : a ∈ CATEGORIES) (b : Category)
    (hb : b ∈ CATEGORIES) (tile_x tile_y : ℤ) (hta : hit_test a tile_x tile_y = true)
    (htb : hit_test b tile_x tile_y = true) : b = a := by
  by_contra hne
  exact hit_test_not_separated b a tile_x tile_y htb hta
    (CATEGORIES_hit_separated.forall hit_separated_symm hb ha hne)

/-- C4: for every catalog category that is rendered and every tile
`(col, row)` of it, the centre pixel of the cell drawn for that tile, turned
into tile coordinates as the hover handler does, is found by
`find_category_at_tile` to belong to that same category. -/
theorem find_category_at_tile_centre (st : State) (cat : Category) (hcat : cat ∈ CATEGORIES)
    (hr : is_rendered st cat = true) (col row : ℕ) (hcol : col < cat.tiles.w)
    (hrow : row < cat.tiles.h) :
    find_category_at_tile st
      (hover_tile (((tile_cell cat col row).left : ℚ) + (TILE_SIZE : ℚ) / 2))
      (hover_tile (((tile_cell cat col row).top : ℚ) + (TILE_SIZE : ℚ) / 2)) = some cat := by
  have hit := hit_test_centre cat col row hcol hrow
  apply find?_eq_some_of_unique _ _ _ hcat
  · simp only [hr, hit, Bool.and_self]
  · intro b hb hpb
    rw [Bool.and_eq_true] at hpb
    exact hit_test_unique cat hcat b hb _ _ hit hpb.2

/-- The centre of tile (10, 5) of `bark`, with nothing selected and nothing
omitted, is found to belong to `bark`. -/
theorem find_category_at_tile_centre_witness :
    find_category_at_tile initial_state
      (hover_tile (((tile_cell (mkCategory "bark" "Bark" 32 32 48 0 15 35 20 45 15 40) 10 5).left : ℚ)
        + (TILE_SIZE : ℚ) / 2))
      (hover_tile (((tile_cell (mkCategory "bark" "Bark" 32 32 48 0 15 35 20 45 15 40) 10 5).top : ℚ)
        + (TILE_SIZE : ℚ) / 2)) =
      some (mkCategory "bark" "Bark" 32 32 48 0 15 35 20 45 15 40) :=
  find_category_at_tile_centre initial_state _ (by simp [CATEGORIES]) (by decide) 10 5
    (by decide) (by decide)

/-! ## Region rectangles -/

theorem Rect.not_contains_of_separated (a b : Rect) (h : a.Separated b) (px py : ℚ) :
    ¬ (a.Contains px py ∧ b.Contains px py) := by
  rintro ⟨⟨h1, h2, h3, h4⟩, ⟨h5, h6, h7, h8⟩⟩
  unfold Rect.Separated at h
  rcases h with h | h | h | h
  · have : ((a.left + a.width : ℤ) : ℚ) ≤ b.left := by exact_mod_cast h
    push_cast at this
    linarith
  · have : ((b.left + b.width : ℤ) : ℚ) ≤ a.left := by exact_mod_cast h
    push_cast at this
    linarith
  · have : ((a.top + a.height : ℤ) : ℚ) ≤ b.top := by exact_mod_cast h
    push_cast at this
    linarith
  · have : ((b.top + b.height : ℤ) : ℚ) ≤ a.top := by exact_mod_cast h
    push_cast at this
    linarith

theorem CATEGORIES_rect_separated :
    CATEGORIES.Pairwise (fun a b => (category_rect a).Separated (category_rect b)) := by
  decide!

/-- C5: the region rectangles of two distinct categories of the catalog have
no point in common. -/
theorem category_rect_disjoint (a : Category) (ha : a ∈ CATEGORIES) (b : Category)
    (hb : b ∈ CATEGORIES) (hne : a ≠ b) (px py : ℚ) :
    ¬ ((category_rect a).Contains px py ∧ (category_rect b).Contains px py) := by
  apply Rect.not_contains_of_separated
  refine List.Pairwise.forall ?_ CATEGORIES_rect_separated ha hb hne
  intro x y hxy
  unfold Rect.Separated at hxy ⊢
  omega

/-- The regions of `wood` and `bark`, which touch along the line `x = 224`,
share no point; the point (224, 40) lies in the region of `bark` only. -/
theorem category_rect_disjoint_witness :
    ¬ ((category_rect (mkCategory "wood" "Wood" 48 48 0 0 20 40 30 60 25 70)).Contains 224 40 ∧
      (category_rect (mkCategory "bark" "Bark" 32 32 48 0 15 35 20 45 15 40)).Contains 224 40) :=
  category_rect_disjoint _ (by simp [CATEGORIES]) _ (by simp [CATEGORIES]) (by decide) 224 40

/-! ## Propagation of `NaN` -/

namespace JSNum

@[simp]
theorem nan_add (a : JSNum) : nan + a = nan := rfl

@[simp]
theorem add_nan (a : JSNum) : a + nan = nan := by
  cases a <;> rfl

@[simp]
theorem nan_sub (a : JSNum) : nan - a = nan := rfl

@[simp]
theorem sub_nan (a : JSNum) : a - nan = nan := by
  cases a <;> rfl

@[simp]
theorem nan_mul (a : JSNum) : nan * a = nan := rfl

@[simp]
theorem mul_nan (a : JSNum) : a * nan = nan := by
  cases a <;> rfl

@[simp]
theorem nan_div (a : JSNum) : nan / a = nan := rfl

@[simp]
theorem nan_rem (a : JSNum) : nan % a = nan := rfl

@[simp]
theorem lt_nan_left (a : JSNum) : lt nan a = false := rfl

@[simp]
theorem lt_nan_right (a : JSNum) : lt a nan = false := by
  cases a <;> rfl

@[simp]
theorem max_nan (a : JSNum) : JSNum.max a nan = nan := by
  cases a <;> rfl

@[simp]
theorem min_nan (a : JSNum) : JSNum.min a nan = nan := by
  cases a <;> rfl

@[simp]
theorem round_nan : round nan = nan := rfl

end JSNum

/-! ## Rounding error of double arithmetic -/

/-- Rounding to the nearest integer moves a number by at most 1/2. -/
theorem round_half_even_close (y : ℚ) : |(round_half_even y : ℚ) - y| ≤ 1 / 2 := by
  have h1 := Int.floor_le y
  have h2 := Int.lt_floor_add_one y
  unfold round_half_even
  rw [abs_le]
  split_ifs <;> push_cast <;> constructor <;> linarith

/-- The binary exponent of a number below `2 ^ (k + 1)` is at most `k`. -/
theorem binade_le (x : ℚ) (k : ℤ) (hx0 : x ≠ 0) (hk : -1022 ≤ k) (hx : |x| < 2 ^ (k + 1)) :
    binade x ≤ k := by
  have hpos : (0 : ℚ) < |x| := abs_pos.mpr hx0
  have h := (Int.lt_zpow_iff_log_lt (b := 2) (by norm_num) hpos).mp (by exact_mod_cast hx)
  unfold binade
  exact max_le (by omega) hk

theorem fl64_zero : fl64 0 = fin 0 := by decide!

/-- Spot checks of the rounding: the doubles behind the literals `0.1` and
`0.7` (and `-0.7`), two ties that go to the even neighbour, and an integer
that is stored exactly. -/
theorem fl64_examples :
    fl64 (1 / 10) = fin (3602879701896397 / 36028797018963968) ∧
    fl64 (7 / 10) = fin (3152519739159347 / 4503599627370496) ∧
    fl64 (-7 / 10) = fin (-3152519739159347 / 4503599627370496) ∧
    fl64 (1 + 1 / 2 ^ 53) = fin 1 ∧
    fl64 (1 + 3 / 2 ^ 53) = fin (1 + 1 / 2 ^ 51) ∧
    fl64 255 = fin 255 := by
  decide!

/-- The rounding error of a double: a number of magnitude below `2 ^ (k + 1)`,
`-1022 ≤ k ≤ 1022`, is stored as a finite double at most `2 ^ (k - 53)` away
from it. -/
theorem fl64_close (x : ℚ) (k : ℤ) (hk : -1022 ≤ k) (hk2 : k ≤ 1022) (hx : |x| < 2 ^ (k + 1)) :
    ∃ y : ℚ, fl64 x = fin y ∧ |y - x| ≤ 2 ^ (k - 53) := by
  by_cases hx0 : x = 0
  · subst hx0
    exact ⟨0, fl64_zero, by simp; positivity⟩
  have he := binade_le x k hx0 hk hx
  have hu : (0 : ℚ) < ulp x := by unfold ulp; positivity
  have hule : ulp x ≤ 2 ^ (k - 52) := by
    unfold ulp
    exact zpow_le_zpow_right₀ (by norm_num) (by omega)
  have hr := round_half_even_close (x / ulp x)
  have herr : |(round_half_even (x / ulp x) : ℚ) * ulp x - x| ≤ 2 ^ (k - 53) := by
    have e1 : (round_half_even (x / ulp x) : ℚ) * ulp x - x
        = ((round_half_even (x / ulp x) : ℚ) - x / ulp x) * ulp x := by
      field_simp
    rw [e1, abs_mul, abs_of_pos hu]
    have e2 : (2 : ℚ) ^ (k - 53) = 1 / 2 * 2 ^ (k - 52) := by
      rw [show k - 52 = (k - 53) + 1 by ring, zpow_add_one₀ (by norm_num)]
      ring
    rw [e2]
    exact mul_le_mul hr hule hu.le (by norm_num)
  refine ⟨(round_half_even (x / ulp x) : ℚ) * ulp x, ?_, herr⟩
  unfold fl64
  simp only
  rw [if_neg]
  rw [not_le]
  have h3 : |(round_half_even (x / ulp x) : ℚ) * ulp x| ≤ |x| + 2 ^ (k - 53) := by
    have := abs_sub_abs_le_abs_sub ((round_half_even (x / ulp x) : ℚ) * ulp x) x
    linarith
  have h4 : (2 : ℚ) ^ (k + 1) ≤ 2 ^ (1023 : ℤ) := zpow_le_zpow_right₀ (by norm_num) (by omega)
  have h5 : (2 : ℚ) ^ (k - 53) ≤ 2 ^ (1023 : ℤ) := zpow_le_zpow_right₀ (by norm_num) (by omega)
  have h6 : (2 : ℚ) ^ (1024 : ℕ) = 2 * 2 ^ (1023 : ℤ) := by
    rw [mul_comm, ← zpow_add_one₀ (by norm_num : (2 : ℚ) ≠ 0),
      show (1023 : ℤ) + 1 = ((1024 : ℕ) : ℤ) by norm_num, zpow_natCast]
  have h7 : (0 : ℚ) < 2 ^ (k - 53) := by positivity
  rw [h6]
  linarith

/-- A number of magnitude below 2048 is stored with an error of at most
`2⁻⁴³`. -/
theorem fl64_near (x : ℚ) (hx : |x| < 2048) : ∃ y : ℚ, fl64 x = fin y ∧ |y - x| ≤ 1 / 2 ^ 43 := by
  obtain ⟨y, hy, h⟩ := fl64_close x 10 (by norm_num) (by norm_num) (by norm_num; exact hx)
  exact ⟨y, hy, by norm_num at h ⊢; exact h⟩


@[simp]
theorem f64_fin (q : ℚ) : f64 (fin q) = fl64 q := rfl

@[simp]
theorem f64_nan : f64 nan = nan := rfl

@[simp]
theorem f64_inf (s : Bool) : f64 (inf s) = inf s := rfl

/-- The product of a literal of `[0, 1]` and a channel of magnitude at most
`2²⁰`, in double arithmetic, is within `2⁻³²` of the exact product. -/
theorem lit_mul_close (a r : ℚ) (ha0 : 0 ≤ a) (ha1 : a ≤ 1) (hr : |r| ≤ 2 ^ 20) :
    ∃ p : ℚ, f64 (fl64 a * fin r) = fin p ∧ |p - a * r| ≤ 1 / 2 ^ 32 := by
  obtain ⟨a1, ha, e1⟩ := fl64_close a 0 (by norm_num) (by norm_num)
    (by rw [abs_of_nonneg ha0]; norm_num; linarith)
  have e2 : |(a1 - a) * r| ≤ 1 / 2 ^ 53 * 2 ^ 20 := by
    rw [abs_mul]
    exact mul_le_mul (by norm_num at e1 ⊢; exact e1) hr (abs_nonneg _) (by norm_num)
  have e3 : |a * r| ≤ 2 ^ 20 := by
    rw [abs_mul, abs_of_nonneg ha0]
    calc a * |r| ≤ 1 * |r| := mul_le_mul_of_nonneg_right ha1 (abs_nonneg _)
      _ ≤ 2 ^ 20 := by linarith
  have e4 : a1 * r = a * r + (a1 - a) * r := by ring
  have e5 : |a1 * r| < 2 ^ ((20 : ℤ) + 1) := by
    rw [e4]
    have := abs_add (a * r) ((a1 - a) * r)
    norm_num at e2 e3 ⊢
    linarith
  obtain ⟨p, hp, e6⟩ := fl64_close (a1 * r) 20 (by norm_num) (by norm_num) e5
  refine ⟨p, by rw [ha, fin_mul_fin, f64_fin, hp], ?_⟩
  have e7 : p - a * r = (p - a1 * r) + (a1 - a) * r := by ring
  rw [e7]
  have := abs_add (p - a1 * r) ((a1 - a) * r)
  norm_num at e2 e6 ⊢
  linarith

/-- The sum of a matrix row in double arithmetic is a finite number within
`10⁻⁸` of the exact sum, for literals in `[0, 1]` and channels of magnitude at
most `2²⁰`. -/
theorem row_close (a b c r g bl : ℚ) (ha0 : 0 ≤ a) (ha1 : a ≤ 1) (hb0 : 0 ≤ b) (hb1 : b ≤ 1)
    (hc0 : 0 ≤ c) (hc1 : c ≤ 1) (hr : |r| ≤ 2 ^ 20) (hg : |g| ≤ 2 ^ 20) (hbl : |bl| ≤ 2 ^ 20) :
    ∃ s : ℚ, matrix_row a b c (fin r) (fin g) (fin bl) = fin s ∧
      |s - (a * r + b * g + c * bl)| ≤ 1 / 10 ^ 8 := by
  obtain ⟨p1, h1, e1⟩ := lit_mul_close a r ha0 ha1 hr
  obtain ⟨p2, h2, e2⟩ := lit_mul_close b g hb0 hb1 hg
  obtain ⟨p3, h3, e3⟩ := lit_mul_close c bl hc0 hc1 hbl
  have ar : |a * r| ≤ 2 ^ 20 := by
    rw [abs_mul, abs_of_nonneg ha0]
    calc a * |r| ≤ 1 * |r| := mul_le_mul_of_nonneg_right ha1 (abs_nonneg _)
      _ ≤ 2 ^ 20 := by linarith
  have bg : |b * g| ≤ 2 ^ 20 := by
    rw [abs_mul, abs_of_nonneg hb0]
    calc b * |g| ≤ 1 * |g| := mul_le_mul_of_nonneg_right hb1 (abs_nonneg _)
      _ ≤ 2 ^ 20 := by linarith
  have cb : |c * bl| ≤ 2 ^ 20 := by
    rw [abs_mul, abs_of_nonneg hc0]
    calc c * |bl| ≤ 1 * |bl| := mul_le_mul_of_nonneg_right hc1 (abs_nonneg _)
      _ ≤ 2 ^ 20 := by linarith
  rw [abs_le] at e1 e2 e3 ar bg cb
  norm_num at e1 e2 e3 ar bg cb
  have q1 : |p1 + p2| < 2 ^ ((21 : ℤ) + 1) := by
    rw [abs_lt]; norm_num; constructor <;> linarith
  obtain ⟨s1, hs1, f1⟩ := fl64_close (p1 + p2) 21 (by norm_num) (by norm_num) q1
  rw [abs_le] at f1
  norm_num at f1
  have q2 : |s1 + p3| < 2 ^ ((22 : ℤ) + 1) := by
    rw [abs_lt]; norm_num; constructor <;> linarith
  obtain ⟨s, hs, f2⟩ := fl64_close (s1 + p3) 22 (by norm_num) (by norm_num) q2
  rw [abs_le] at f2
  norm_num at f2
  refine ⟨s, ?_, ?_⟩
  · unfold matrix_row
    rw [h1, h2, h3, fin_add_fin, f64_fin, hs1, fin_add_fin, f64_fin, hs]
  · rw [abs_le]; norm_num; constructor <;> linarith


theorem f64_near (x : ℚ) (hx : |x| < 2048) :
    ∃ y : ℚ, f64 (fin x) = fin y ∧ x - 1 / 2 ^ 43 ≤ y ∧ y ≤ x + 1 / 2 ^ 43 := by
  obtain ⟨y, hy, h⟩ := fl64_near x hx
  rw [abs_le] at h
  exact ⟨y, hy, by linarith, by linarith⟩

theorem fl64_half : fl64 (1 / 2) = fin (1 / 2) := by decide!

theorem f64_third : f64 (1 / 3) = fin (6004799503160661 / 18014398509481984) := by decide!

theorem f64_sixth : f64 (1 / 6) = fin (6004799503160661 / 36028797018963968) := by decide!

theorem f64_half : f64 (1 / 2) = fin (1 / 2) := by decide!

theorem f64_two_thirds : f64 (2 / 3) = fin (6004799503160661 / 9007199254740992) := by decide!

/-- A combination `p + θ (q - p)` with `θ` close to `[0, 1]` stays close to
the interval spanned by `p` and `q`. -/
theorem convex_near (p q θ : ℚ) (hp0 : -(1 / 10 ^ 9) ≤ p) (hp1 : p ≤ 1 + 1 / 10 ^ 9)
    (hq0 : -(1 / 10 ^ 9) ≤ q) (hq1 : q ≤ 1 + 1 / 10 ^ 9) (h0 : -(1 / 10 ^ 9) ≤ θ)
    (h1 : θ ≤ 1 + 1 / 10 ^ 9) :
    -(1 / 10 ^ 8) ≤ p + θ * (q - p) ∧ p + θ * (q - p) ≤ 1 + 1 / 10 ^ 8 := by
  have e : p + θ * (q - p) = (1 - θ) * p + θ * q := by ring
  rw [e]
  by_cases c0 : 0 ≤ θ <;> by_cases c1 : θ ≤ 1
  · constructor <;> nlinarith
  · constructor <;> nlinarith
  · constructor <;> nlinarith
  · constructor <;> nlinarith


theorem near_add (a b : ℚ) (ha : |a| ≤ 1000) (hb : |b| ≤ 1000) :
    ∃ y : ℚ, f64 (fin a + fin b) = fin y ∧ a + b - 1 / 2 ^ 43 ≤ y ∧ y ≤ a + b + 1 / 2 ^ 43 := by
  rw [fin_add_fin]
  apply f64_near
  have := abs_add a b
  linarith

theorem near_sub (a b : ℚ) (ha : |a| ≤ 1000) (hb : |b| ≤ 1000) :
    ∃ y : ℚ, f64 (fin a - fin b) = fin y ∧ a - b - 1 / 2 ^ 43 ≤ y ∧ y ≤ a - b + 1 / 2 ^ 43 := by
  rw [fin_sub_fin]
  apply f64_near
  have := abs_sub a b
  linarith

theorem near_mul (a b : ℚ) (ha : |a| ≤ 40) (hb : |b| ≤ 40) :
    ∃ y : ℚ, f64 (fin a * fin b) = fin y ∧ a * b - 1 / 2 ^ 43 ≤ y ∧ y ≤ a * b + 1 / 2 ^ 43 := by
  rw [fin_mul_fin]
  apply f64_near
  rw [abs_mul]
  have := mul_le_mul ha hb (abs_nonneg b) (by norm_num)
  linarith

/-- A factor of size at most 1 does not enlarge an error. -/
theorem mul_small (t d e : ℚ) (ht : |t| ≤ 1) (hd : |d| ≤ e) : |t * d| ≤ e := by
  rw [abs_mul]
  have := mul_le_mul ht hd (abs_nonneg d) (by norm_num)
  linarith

/-- The rising branch `p + (q - p) * 6 * t` of `hue_to_rgb` in double
arithmetic. -/
theorem hue_rise_near (p q t : ℚ) (hp0 : -(1 / 10 ^ 9) ≤ p) (hp1 : p ≤ 1 + 1 / 10 ^ 9)
    (hq0 : -(1 / 10 ^ 9) ≤ q) (hq1 : q ≤ 1 + 1 / 10 ^ 9) (ht0 : -(1 / 10 ^ 10) ≤ t)
    (ht1 : t ≤ 1 / 6 + 1 / 10 ^ 10) :
    ∃ v : ℚ, f64 (fin p + f64 (f64 (f64 (fin q - fin p) * 6) * fin t)) = fin v ∧
      -(1 / 10 ^ 7) ≤ v ∧ v ≤ 1 + 1 / 10 ^ 7 := by
  obtain ⟨d, hd, d0, d1⟩ := near_sub q p (by rw [abs_le]; constructor <;> linarith)
    (by rw [abs_le]; constructor <;> linarith)
  obtain ⟨X, hX, X0, X1⟩ := near_mul d 6 (by rw [abs_le]; constructor <;> linarith)
    (by norm_num)
  obtain ⟨Y, hY, Y0, Y1⟩ := near_mul X t (by rw [abs_le]; constructor <;> linarith)
    (by rw [abs_le]; constructor <;> linarith)
  have hta : |t| ≤ 1 := by rw [abs_le]; constructor <;> linarith
  have hXd : |X - 6 * (q - p)| ≤ 1 / 10 ^ 11 := by rw [abs_le]; constructor <;> linarith
  have hs := mul_small t (X - 6 * (q - p)) _ hta hXd
  rw [abs_le] at hs
  obtain ⟨c0, c1⟩ := convex_near p q (6 * t) hp0 hp1 hq0 hq1 (by linarith) (by linarith)
  have hYa : |Y| ≤ 1000 := by
    rw [abs_le]; constructor <;> nlinarith
  obtain ⟨v, hv, v0, v1⟩ := near_add p Y (by rw [abs_le]; constructor <;> linarith) hYa
  refine ⟨v, by rw [hd, ofNat_eq_fin, hX, hY, hv], ?_, ?_⟩ <;> nlinarith

/-- The falling branch `p + (q - p) * (2/3 - t) * 6` of `hue_to_rgb` in double
arithmetic, with `w` the stored value of `2/3 - t`. -/
theorem hue_fall_near (p q w : ℚ) (hp0 : -(1 / 10 ^ 9) ≤ p) (hp1 : p ≤ 1 + 1 / 10 ^ 9)
    (hq0 : -(1 / 10 ^ 9) ≤ q) (hq1 : q ≤ 1 + 1 / 10 ^ 9) (hw0 : -(1 / 10 ^ 10) ≤ w)
    (hw1 : w ≤ 1 / 6 + 1 / 10 ^ 10) :
    ∃ v : ℚ, f64 (fin p + f64 (f64 (f64 (fin q - fin p) * fin w) * 6)) = fin v ∧
      -(1 / 10 ^ 7) ≤ v ∧ v ≤ 1 + 1 / 10 ^ 7 := by
  obtain ⟨d, hd, d0, d1⟩ := near_sub q p (by rw [abs_le]; constructor <;> linarith)
    (by rw [abs_le]; constructor <;> linarith)
  have hwa : |w| ≤ 1 := by rw [abs_le]; constructor <;> linarith
  obtain ⟨X, hX, X0, X1⟩ := near_mul d w (by rw [abs_le]; constructor <;> linarith)
    (by linarith)
  have hdd : |d - (q - p)| ≤ 1 / 10 ^ 11 := by rw [abs_le]; constructor <;> linarith
  have hs := mul_small w (d - (q - p)) _ hwa hdd
  rw [abs_le] at hs
  obtain ⟨c0, c1⟩ := convex_near p q (6 * w) hp0 hp1 hq0 hq1 (by linarith) (by linarith)
  have hXa : |X| ≤ 40 := by
    rw [abs_le]; constructor <;> nlinarith
  obtain ⟨Y, hY, Y0, Y1⟩ := near_mul X 6 hXa (by norm_num)
  have hYa : |Y| ≤ 1000 := by
    rw [abs_le] at hXa ⊢; constructor <;> linarith
  obtain ⟨v, hv, v0, v1⟩ := near_add p Y (by rw [abs_le]; constructor <;> linarith) hYa
  refine ⟨v, by rw [hd, hX, ofNat_eq_fin, hY, hv], ?_, ?_⟩ <;> nlinarith

/-- For `p` and `q` within `10⁻⁹` of `[0, 1]` and `t` in `[-1/2, 3/2]` the value
of `hue_to_rgb` is finite and within `10⁻⁷` of `[0, 1]`. -/
theorem hue_to_rgb_near (p q t : ℚ) (hp0 : -(1 / 10 ^ 9) ≤ p) (hp1 : p ≤ 1 + 1 / 10 ^ 9)
    (hq0 : -(1 / 10 ^ 9) ≤ q) (hq1 : q ≤ 1 + 1 / 10 ^ 9) (ht0 : -(1 / 2) ≤ t) (ht1 : t ≤ 3 / 2) :
    ∃ v : ℚ, hue_to_rgb (fin p) (fin q) (fin t) = fin v ∧
      -(1 / 10 ^ 7) ≤ v ∧ v ≤ 1 + 1 / 10 ^ 7 := by
  have s1 : ∃ t1 : ℚ, (if lt (fin t) 0 then f64 (fin t + 1) else fin t) = fin t1 ∧
      0 ≤ t1 ∧ t1 ≤ 3 / 2 := by
    by_cases h : t < 0
    · obtain ⟨y, hy, y0, y1⟩ := near_add t 1 (by rw [abs_le]; constructor <;> linarith)
        (by norm_num)
      refine ⟨y, ?_, by linarith, by linarith⟩
      rw [zero_eq_fin, lt_fin_fin, decide_eq_true h, if_pos rfl, one_eq_fin, hy]
    · refine ⟨t, ?_, not_lt.mp h, ht1⟩
      rw [zero_eq_fin, lt_fin_fin, decide_eq_false h, if_neg (by simp)]
  obtain ⟨t1, e1, a0, a1⟩ := s1
  have s2 : ∃ t2 : ℚ, (if lt 1 (fin t1) then f64 (fin t1 - 1) else fin t1) = fin t2 ∧
      -(1 / 10 ^ 12) ≤ t2 ∧ t2 ≤ 1 := by
    by_cases h : 1 < t1
    · obtain ⟨y, hy, y0, y1⟩ := near_sub t1 1 (by rw [abs_le]; constructor <;> linarith)
        (by norm_num)
      refine ⟨y, ?_, by linarith, by linarith⟩
      rw [one_eq_fin, lt_fin_fin, decide_eq_true h, if_pos rfl, hy]
    · refine ⟨t1, ?_, by linarith, not_lt.mp h⟩
      rw [one_eq_fin, lt_fin_fin, decide_eq_false h, if_neg (by simp)]
  obtain ⟨t2, e2, b0, b1⟩ := s2
  unfold hue_to_rgb
  simp only [e1, e2]
  rw [f64_sixth, f64_half, f64_two_thirds]
  simp only [lt_fin_fin]
  by_cases c1 : t2 < 6004799503160661 / 36028797018963968
  · rw [decide_eq_true c1, if_pos rfl]
    exact hue_rise_near p q t2 hp0 hp1 hq0 hq1 (by linarith) (by linarith)
  · rw [decide_eq_false c1, if_neg (by simp)]
    by_cases c2 : t2 < 1 / 2
    · rw [decide_eq_true c2, if_pos rfl]
      exact ⟨q, rfl, by linarith, by linarith⟩
    · rw [decide_eq_false c2, if_neg (by simp)]
      by_cases c3 : t2 < 6004799503160661 / 9007199254740992
      · rw [if_pos (decide_eq_true c3)]
        obtain ⟨w, hw, w0, w1⟩ := near_sub (6004799503160661 / 9007199254740992) t2
          (by norm_num [abs_le]) (by rw [abs_le]; constructor <;> linarith)
        rw [hw]
        exact hue_fall_near p q w hp0 hp1 hq0 hq1 (by linarith) (by linarith)
      · rw [if_neg (fun h => c3 (of_decide_eq_true h))]
        exact ⟨p, rfl, by linarith, by linarith⟩

/-- A value within `10⁻⁷` of `[0, 1]` becomes an integer channel in
`[0, 255]`. -/
theorem channel_isIntIn (v : ℚ) (h0 : -(1 / 10 ^ 7) ≤ v) (h1 : v ≤ 1 + 1 / 10 ^ 7) :
    (round (f64 (fin v * 255))).IsIntIn 0 255 := by
  rw [ofNat_eq_fin 255, fin_mul_fin]
  obtain ⟨c, hc, c0, c1⟩ := f64_near (v * 255) (by rw [abs_lt]; constructor <;> linarith)
  rw [hc]
  refine ⟨⌊c + 1 / 2⌋, rfl, ?_, ?_⟩
  · exact Int.floor_nonneg.mpr (by linarith)
  · have : ⌊c + 1 / 2⌋ < 256 := Int.floor_lt.mpr (by push_cast; linarith)
    omega

/-- The intermediate values `q` and `p` of `hsl_to_rgb` are finite and within
`10⁻⁹` of `[0, 1]`, for a stored saturation and lightness within `10⁻¹²` of
`[0, 1]`. -/
theorem hsl_pq_near (s l : ℚ) (hs0 : -(1 / 10 ^ 12) ≤ s) (hs1 : s ≤ 1 + 1 / 10 ^ 12)
    (hl0 : -(1 / 10 ^ 12) ≤ l) (hl1 : l ≤ 1 + 1 / 10 ^ 12) :
    ∃ q p : ℚ,
      (if lt (fin l) (fl64 (1 / 2)) then f64 (fin l * f64 (1 + fin s))
        else f64 (f64 (fin l + fin s) - f64 (fin l * fin s))) = fin q ∧
      f64 (f64 (2 * fin l) - fin q) = fin p ∧
      -(1 / 10 ^ 9) ≤ p ∧ p ≤ 1 + 1 / 10 ^ 9 ∧ -(1 / 10 ^ 9) ≤ q ∧ q ≤ 1 + 1 / 10 ^ 9 := by
  have hla : |l| ≤ 40 := by rw [abs_le]; constructor <;> linarith
  have hsa : |s| ≤ 40 := by rw [abs_le]; constructor <;> linarith
  obtain ⟨B, hB, B0, B1⟩ := near_mul 2 l (by norm_num) hla
  rw [ofNat_eq_fin 2, hB, fl64_half, lt_fin_fin]
  by_cases h : l < 1 / 2
  · rw [decide_eq_true h, if_pos rfl]
    obtain ⟨A, hA, A0, A1⟩ := near_add 1 s (by norm_num)
      (by rw [abs_le]; constructor <;> linarith)
    obtain ⟨q, hq, q0, q1⟩ := near_mul l A hla (by rw [abs_le]; constructor <;> linarith)
    have m1 : 0 ≤ (l + 1 / 10 ^ 12) * A :=
      mul_nonneg (by linarith) (by linarith)
    have m2 : 0 ≤ (1 / 2 - l) * A := mul_nonneg (by linarith) (by linarith)
    have m3 : 0 ≤ (l + 1 / 10 ^ 12) * (2 - A + 1 / 10 ^ 11) :=
      mul_nonneg (by linarith) (by linarith)
    have k1 : -(1 / 10 ^ 11) ≤ l * A := by linarith only [m1, A1, hs1]
    have k2 : l * A ≤ 1 + 1 / 10 ^ 11 := by linarith only [m2, A1, hs1]
    have k3 : -(1 / 10 ^ 10) ≤ 2 * l - l * A := by linarith only [m3, A0, A1, hs0, hs1, hl0, h]
    have k4 : 2 * l - l * A ≤ 1 + 1 / 10 ^ 10 := by linarith only [k1, h]
    have q0' : -(1 / 10 ^ 10) ≤ q := by linarith only [k1, q0]
    have q1' : q ≤ 1 + 1 / 10 ^ 10 := by linarith only [k2, q1]
    obtain ⟨p, hp, p0, p1⟩ := near_sub B q (by rw [abs_le]; constructor <;> linarith)
      (by rw [abs_le]; constructor <;> linarith)
    refine ⟨q, p, by rw [one_eq_fin, hA, hq], hp, ?_, ?_, ?_, ?_⟩
    · linarith only [p0, B0, q1, k3]
    · linarith only [p1, B1, q0, k4]
    · linarith only [q0']
    · linarith only [q1']
  · rw [decide_eq_false h, if_neg (by simp)]
    have h' : 1 / 2 ≤ l := not_lt.mp h
    obtain ⟨C, hC, C0, C1⟩ := near_add l s (by rw [abs_le]; constructor <;> linarith)
      (by rw [abs_le]; constructor <;> linarith)
    obtain ⟨D, hD, D0, D1⟩ := near_mul l s hla hsa
    have m1 : 0 ≤ (l - 1 / 2) * (s + 1 / 10 ^ 12) := mul_nonneg (by linarith) (by linarith)
    have m2 : 0 ≤ (l - 1 / 2) * (1 + 1 / 10 ^ 12 - s) := mul_nonneg (by linarith) (by linarith)
    have m3 : 0 ≤ (1 + 1 / 10 ^ 12 - l) * (s + 1 / 10 ^ 12) :=
      mul_nonneg (by linarith) (by linarith)
    have m4 : 0 ≤ (1 + 1 / 10 ^ 12 - l) * (1 + 1 / 10 ^ 12 - s) :=
      mul_nonneg (by linarith) (by linarith)
    have k1 : l + s - l * s ≤ 1 + 1 / 10 ^ 11 := by linarith only [m4, hl0, hs0]
    have k2 : 0 ≤ l + s - l * s := by linarith only [m2, hl1, hs0]
    have k3 : -(1 / 10 ^ 11) ≤ l - s + l * s := by linarith only [m1, hl1, hs1, h']
    have k4 : l - s + l * s ≤ 1 + 1 / 10 ^ 11 := by linarith only [m3, hl0, hl1, hs1]
    have k5 : -2 ≤ l * s := by linarith only [k3, hl1, hs0]
    have k6 : l * s ≤ 4 := by linarith only [k2, hl1, hs1]
    obtain ⟨q, hq, q0, q1⟩ := near_sub C D (by rw [abs_le]; constructor <;> linarith)
      (by rw [abs_le]; constructor <;> linarith only [D0, D1, k5, k6])
    have q0' : -(1 / 10 ^ 10) ≤ q := by linarith only [q0, C0, D1, k2]
    have q1' : q ≤ 1 + 1 / 10 ^ 10 := by linarith only [q1, C1, D0, k1]
    obtain ⟨p, hp, p0, p1⟩ := near_sub B q (by rw [abs_le]; constructor <;> linarith)
      (by rw [abs_le]; constructor <;> linarith)
    refine ⟨q, p, by rw [hC, hD, hq], hp, ?_, ?_, ?_, ?_⟩
    · linarith only [p0, B0, q1, C1, D0, k3]
    · linarith only [p1, B1, q0, C0, D1, k4]
    · linarith only [q0']
    · linarith only [q1']

/-! ## Propagation of `NaN` -/

theorem hue_to_rgb_nan (t : JSNum) : hue_to_rgb nan nan t = nan := by
  unfold hue_to_rgb
  simp only [nan_add, nan_sub, nan_mul, f64_nan]
  split_ifs <;> rfl

/-- A `NaN` lightness makes all three channels `NaN`. -/
theorem hsl_to_rgb_nan_lightness (h s : JSNum) : hsl_to_rgb h s nan = (nan, nan, nan) := by
  unfold hsl_to_rgb
  simp only [nan_div, nan_mul, round_nan, lt_nan_left, nan_add, nan_sub, mul_nan, sub_nan,
    f64_nan, hue_to_rgb_nan]
  split_ifs <;> simp [hue_to_rgb_nan]

theorem apply_matrix_nan (m : Matrix3) : apply_matrix m nan nan nan = ⟨nan, nan, nan⟩ := by
  simp [apply_matrix, matrix_row]

/-- The colour-blind filter maps the all-`NaN` triple to itself unless the
mode is an inherited property name. -/
theorem apply_colorblind_simulation_nan (mode : String) (hproto : mode ∉ OBJECT_PROTOTYPE_KEYS) :
    apply_colorblind_simulation mode nan nan nan = some ⟨nan, nan, nan⟩ := by
  unfold apply_colorblind_simulation js_get
  split_ifs with h
  · rfl
  · cases hl : COLORBLIND_MATRICES.lookup mode with
    | none => simp [if_neg hproto]
    | some m =>
      cases m with
      | none => rfl
      | some matrix => simp [apply_matrix_nan]

theorem light_t_single (cat : Category) (x : ℕ) (hw : cat.tiles.w = 1) (hx : x < cat.tiles.w) :
    light_t cat x = nan := by
  have hx0 : x = 0 := by omega
  simp [light_t, hw, hx0]

/-- C3 fails as stated: for a category of a single column the interpolated
lightness is `NaN` (the quotient `0 / 0`), and the lightness handed to
`hsl_to_rgb` is `NaN` too, here under a lightness adjustment of 0: it is no
number of `[5, 95]`. -/
theorem adjust_lightness_single_column_nan :
    raw_lightness (mkCategory "single" "Single" 1 1 0 0 0 40 50 50 50 50) 0 = nan ∧
    (tile_hsl { hue_adj := 0, sat_mult := 1, light_adj := 0 }
      (mkCategory "single" "Single" 1 1 0 0 0 40 50 50 50 50) 0 0).2.2 = nan ∧
    ¬ ∃ lv : ℚ,
      (tile_hsl { hue_adj := 0, sat_mult := 1, light_adj := 0 }
        (mkCategory "single" "Single" 1 1 0 0 0 40 50 50 50 50) 0 0).2.2 = fin lv ∧
      5 ≤ lv ∧ lv ≤ 95 := by
  have h := light_t_single (mkCategory "single" "Single" 1 1 0 0 0 40 50 50 50 50) 0 rfl
    (by decide)
  have h1 : raw_lightness (mkCategory "single" "Single" 1 1 0 0 0 40 50 50 50 50) 0 = nan := by
    simp only [raw_lightness, h, nan_mul, sub_nan]
  have h2 : (tile_hsl { hue_adj := 0, sat_mult := 1, light_adj := 0 }
      (mkCategory "single" "Single" 1 1 0 0 0 40 50 50 50 50) 0 0).2.2 = nan := by
    simp only [tile_hsl, h1, adjust_lightness, nan_add, min_nan, max_nan]
  refine ⟨h1, h2, ?_⟩
  rintro ⟨lv, hlv, -⟩
  rw [h2] at hlv
  exact JSNum.noConfusion hlv

theorem hue_t_single (cat : Category) (y : ℕ) (hh : cat.tiles.h = 1) (hy : y < cat.tiles.h) :
    hue_t cat y = nan := by
  have hy0 : y = 0 := by omega
  simp [hue_t, hh, hy0]

theorem sat_t_single (cat : Category) (x y : ℕ) (hw : cat.tiles.w = 1) (hh : cat.tiles.h = 1)
    (hx : x < cat.tiles.w) (hy : y < cat.tiles.h) : sat_t cat x y = nan := by
  have hx0 : x = 0 := by omega
  have hy0 : y = 0 := by omega
  simp [sat_t, hw, hh, hx0, hy0]
  norm_num

theorem tile_color_single_width (mode : String) (adj : Adjustments) (cat : Category) (x y : ℕ)
    (hmode : mode ∉ OBJECT_PROTOTYPE_KEYS) (hw : cat.tiles.w = 1) (hx : x < cat.tiles.w) :
    tile_color mode adj cat x y = some ⟨nan, nan, nan⟩ := by
  simp only [tile_color, tile_hsl, raw_lightness, light_t_single cat x hw hx, nan_mul, sub_nan,
    adjust_lightness, nan_add, min_nan, max_nan, hsl_to_rgb_nan_lightness]
  exact apply_colorblind_simulation_nan mode hmode

theorem color_grid_single_width (mode : String) (adj : Adjustments) (cat : Category)
    (hmode : mode ∉ OBJECT_PROTOTYPE_KEYS) (hw : cat.tiles.w = 1) :
    color_grid mode adj cat = some (List.replicate cat.tiles.h [⟨nan, nan, nan⟩]) := by
  rw [color_grid_eq_some mode adj cat (fun _ _ => ⟨nan, nan, nan⟩)
    (fun y _ x hx => tile_color_single_width mode adj cat x y hmode hw hx)]
  simp [hw]

theorem generate_category_colors_single_width (st : State) (cat : Category)
    (htheme : st.current_theme ∉ OBJECT_PROTOTYPE_KEYS)
    (hmode : st.colorblind_mode ∉ OBJECT_PROTOTYPE_KEYS) (hw : cat.tiles.w = 1) :
    generate_category_colors st cat = some (List.replicate cat.tiles.h [⟨nan, nan, nan⟩]) := by
  unfold generate_category_colors js_get
  cases THEMES.lookup st.current_theme with
  | none =>
    simp only [if_neg htheme]
    exact color_grid_single_width _ _ cat hmode hw
  | some theme => exact color_grid_single_width _ _ cat hmode hw

theorem unit_interval_of_div (a b : ℚ) (ha : 0 ≤ a) (hab : a ≤ b) (hb : 0 < b) :
    0 ≤ a / b ∧ a / b ≤ 1 :=
  ⟨div_nonneg ha hb.le, (div_le_one hb).mpr hab⟩

/-- C9, as the code has it: for a category of tile width 1 (of tile height 1,
of width and height 1) the interpolation parameter `light_t` (`hue_t`,
`sat_t`) is `0 / 0`, that is `NaN` and not 0, and so is the lightness (hue,
saturation) before adjustment; with width 1 every channel of every entry of
the returned grid is `NaN`.  The parameters are the finite numbers
`x / (W - 1)`, `y / (H - 1)` and `(x + y) / (W + H - 2)`, each in `[0, 1]`,
when `W ≥ 2` and `H ≥ 2`, which holds for every category of the catalog. -/
theorem interpolation_parameters :
    (∀ (cat : Category) (x : ℕ), cat.tiles.w = 1 → x < cat.tiles.w →
      light_t cat x = nan ∧ raw_lightness cat x = nan) ∧
    (∀ (cat : Category) (y : ℕ), cat.tiles.h = 1 → y < cat.tiles.h →
      hue_t cat y = nan ∧ raw_hue cat y = nan) ∧
    (∀ (cat : Category) (x y : ℕ), cat.tiles.w = 1 → cat.tiles.h = 1 →
      x < cat.tiles.w → y < cat.tiles.h →
      sat_t cat x y = nan ∧ raw_saturation cat x y = nan) ∧
    (∀ (st : State) (cat : Category), cat.tiles.w = 1 →
      st.current_theme ∉ OBJECT_PROTOTYPE_KEYS → st.colorblind_mode ∉ OBJECT_PROTOTYPE_KEYS →
      generate_category_colors st cat =
        some (List.replicate cat.tiles.h [{ r := nan, g := nan, b := nan }])) ∧
    (∀ (cat : Category) (x y : ℕ), 2 ≤ cat.tiles.w → 2 ≤ cat.tiles.h →
      x < cat.tiles.w → y < cat.tiles.h →
      (light_t cat x = fin ((x : ℚ) / ((cat.tiles.w : ℚ) - 1)) ∧
        0 ≤ (x : ℚ) / ((cat.tiles.w : ℚ) - 1) ∧ (x : ℚ) / ((cat.tiles.w : ℚ) - 1) ≤ 1) ∧
      (hue_t cat y = fin ((y : ℚ) / ((cat.tiles.h : ℚ) - 1)) ∧
        0 ≤ (y : ℚ) / ((cat.tiles.h : ℚ) - 1) ∧ (y : ℚ) / ((cat.tiles.h : ℚ) - 1) ≤ 1) ∧
      (sat_t cat x y = fin (((x : ℚ) + y) / ((cat.tiles.w : ℚ) + cat.tiles.h - 2)) ∧
        0 ≤ ((x : ℚ) + y) / ((cat.tiles.w : ℚ) + cat.tiles.h - 2) ∧
        ((x : ℚ) + y) / ((cat.tiles.w : ℚ) + cat.tiles.h - 2) ≤ 1)) ∧
    (∀ cat ∈ CATEGORIES, 2 ≤ cat.tiles.w ∧ 2 ≤ cat.tiles.h) := by
  refine ⟨?_, ?_, ?_, ?_, ?_, by decide⟩
  · intro cat x hw hx
    have h := light_t_single cat x hw hx
    exact ⟨h, by simp [raw_lightness, h]⟩
  · intro cat y hh hy
    have h := hue_t_single cat y hh hy
    exact ⟨h, by simp [raw_hue, h]⟩
  · intro cat x y hw hh hx hy
    have h := sat_t_single cat x y hw hh hx hy
    exact ⟨h, by simp [raw_saturation, h]⟩
  · intro st cat hw htheme hmode
    exact generate_category_colors_single_width st cat htheme hmode hw
  · intro cat x y hw hh hx hy
    have hw2 : (2 : ℚ) ≤ cat.tiles.w := by exact_mod_cast hw
    have hh2 : (2 : ℚ) ≤ cat.tiles.h := by exact_mod_cast hh
    have hxw : (x : ℚ) + 1 ≤ cat.tiles.w := by exact_mod_cast hx
    have hyh : (y : ℚ) + 1 ≤ cat.tiles.h := by exact_mod_cast hy
    have hx0 : (0 : ℚ) ≤ x := Nat.cast_nonneg x
    have hy0 : (0 : ℚ) ≤ y := Nat.cast_nonneg y
    refine ⟨⟨light_t_fin cat x hw, ?_⟩, ⟨hue_t_fin cat y hh, ?_⟩,
      ⟨sat_t_fin cat x y (by omega), ?_⟩⟩
    · exact unit_interval_of_div _ _ hx0 (by linarith) (by linarith)
    · exact unit_interval_of_div _ _ hy0 (by linarith) (by linarith)
    · exact unit_interval_of_div _ _ (by linarith) (by linarith) (by linarith)

/-- The rule for width 1 at a category of one tile, and the catalog fact at
`wood`. -/
theorem interpolation_parameters_witness :
    light_t (mkCategory "single" "Single" 1 1 0 0 0 40 50 50 50 50) 0 = nan ∧
    raw_lightness (mkCategory "single" "Single" 1 1 0 0 0 40 50 50 50 50) 0 = nan :=
  interpolation_parameters.1 (mkCategory "single" "Single" 1 1 0 0 0 40 50 50 50 50) 0 rfl
    (by decide)

/-- C9 fails as stated: for a category of a single tile, under the initial
state, `light_t` is `NaN`, not 0, and the one colour of the grid has `NaN`
in every channel, so no channel is an integer in `[0, 255]`. -/
theorem light_t_single_tile_not_zero :
    light_t (mkCategory "single" "Single" 1 1 0 0 0 40 50 50 50 50) 0 = nan ∧
    light_t (mkCategory "single" "Single" 1 1 0 0 0 40 50 50 50 50) 0 ≠ 0 ∧
    generate_category_colors initial_state
      (mkCategory "single" "Single" 1 1 0 0 0 40 50 50 50 50) =
        some [[{ r := nan, g := nan, b := nan }]] ∧
    ¬ (nan : JSNum).IsIntIn 0 255 := by
  have h := light_t_single (mkCategory "single" "Single" 1 1 0 0 0 40 50 50 50 50) 0 rfl
    (by decide)
  refine ⟨h, ?_, ?_, ?_⟩
  · rw [h, zero_eq_fin]
    exact fun h => JSNum.noConfusion h
  · rw [generate_category_colors_single_width initial_state _ (by decide) (by decide) rfl]
    rfl
  · rintro ⟨n, hn, -⟩
    exact JSNum.noConfusion hn

/-! ## Channel range for a hue inside `[0, 360)` -/

/-- For a hue in `[0, 360]`, a saturation in `[0, 100]` and a lightness in
`[0, 100]` the three channels are integers in `[0, 255]`. -/
theorem hsl_to_rgb_isIntIn (h s l : ℚ) (hh0 : 0 ≤ h) (hh1 : h ≤ 360) (hs0 : 0 ≤ s)
    (hs1 : s ≤ 100) (hl0 : 0 ≤ l) (hl1 : l ≤ 100) :
    (hsl_to_rgb (fin h) (fin s) (fin l)).1.IsIntIn 0 255 ∧
    (hsl_to_rgb (fin h) (fin s) (fin l)).2.1.IsIntIn 0 255 ∧
    (hsl_to_rgb (fin h) (fin s) (fin l)).2.2.IsIntIn 0 255 := by
  have e360 : fin h / 360 = fin (h / 360) := by simp
  have es : fin s / 100 = fin (s / 100) := by simp
  have el : fin l / 100 = fin (l / 100) := by simp
  obtain ⟨h', hh', h0, h1⟩ := f64_near (h / 360)
    (by rw [abs_lt]; constructor <;> linarith)
  obtain ⟨s', hs', s0, s1⟩ := f64_near (s / 100)
    (by rw [abs_lt]; constructor <;> linarith)
  obtain ⟨l', hl', l0, l1⟩ := f64_near (l / 100)
    (by rw [abs_lt]; constructor <;> linarith)
  have l0' : -(1 / 10 ^ 12) ≤ l' := by linarith
  have l1' : l' ≤ 1 + 1 / 10 ^ 12 := by linarith
  have s0' : -(1 / 10 ^ 12) ≤ s' := by linarith
  have s1' : s' ≤ 1 + 1 / 10 ^ 12 := by linarith
  unfold hsl_to_rgb
  simp only [e360, es, el, hh', hs', hl']
  by_cases hz : s' = 0
  · simp only [zero_eq_fin, strictEq_fin_fin, hz, decide_True, if_true]
    have c := channel_isIntIn l' (by linarith) (by linarith)
    exact ⟨c, c, c⟩
  · obtain ⟨q, p, hq, hp, p0, p1, q0, q1⟩ := hsl_pq_near s' l' s0' s1' l0' l1'
    obtain ⟨tr, htr, tr0, tr1⟩ := near_add h' (6004799503160661 / 18014398509481984)
      (by rw [abs_le]; constructor <;> linarith) (by norm_num [abs_le])
    obtain ⟨tb, htb, tb0, tb1⟩ := near_sub h' (6004799503160661 / 18014398509481984)
      (by rw [abs_le]; constructor <;> linarith) (by norm_num [abs_le])
    obtain ⟨vr, hvr, vr0, vr1⟩ := hue_to_rgb_near p q tr p0 p1 q0 q1 (by linarith) (by linarith)
    obtain ⟨vg, hvg, vg0, vg1⟩ := hue_to_rgb_near p q h' p0 p1 q0 q1 (by linarith) (by linarith)
    obtain ⟨vb, hvb, vb0, vb1⟩ := hue_to_rgb_near p q tb p0 p1 q0 q1 (by linarith) (by linarith)
    simp only [zero_eq_fin, strictEq_fin_fin, hz, decide_False, if_false, hq, hp, f64_third,
      htr, htb, hvr, hvg, hvb]
    exact ⟨channel_isIntIn vr vr0 vr1, channel_isIntIn vg vg0 vg1, channel_isIntIn vb vb0 vb1⟩

theorem clamp_round_isIntIn (x : ℚ) :
    (JSNum.max 0 (JSNum.min 255 (round (fin x)))).IsIntIn 0 255 := by
  refine ⟨Max.max 0 (Min.min 255 ⌊x + 1 / 2⌋), ?_, le_max_left _ _, ?_⟩
  · simp only [round_fin, zero_eq_fin, ofNat_eq_fin, min_fin_fin, max_fin_fin]
    push_cast
    rfl
  · exact max_le (by norm_num) (min_le_left _ _)

/-- The matrix branch returns integers in `[0, 255]` for literals in `[0, 1]`
and channels of magnitude at most `2²⁰`. -/
theorem apply_matrix_isIntIn (m : Matrix3) (r g b : ℚ)
    (hm : ∀ a ∈ [m.m00, m.m01, m.m02, m.m10, m.m11, m.m12, m.m20, m.m21, m.m22],
      0 ≤ a ∧ a ≤ 1)
    (hr : |r| ≤ 2 ^ 20) (hg : |g| ≤ 2 ^ 20) (hb : |b| ≤ 2 ^ 20) :
    (apply_matrix m (fin r) (fin g) (fin b)).r.IsIntIn 0 255 ∧
    (apply_matrix m (fin r) (fin g) (fin b)).g.IsIntIn 0 255 ∧
    (apply_matrix m (fin r) (fin g) (fin b)).b.IsIntIn 0 255 := by
  obtain ⟨sr, hsr, -⟩ := row_close m.m00 m.m01 m.m02 r g b (hm _ (by simp)).1 (hm _ (by simp)).2
    (hm _ (by simp)).1 (hm _ (by simp)).2 (hm _ (by simp)).1 (hm _ (by simp)).2 hr hg hb
  obtain ⟨sg, hsg, -⟩ := row_close m.m10 m.m11 m.m12 r g b (hm _ (by simp)).1 (hm _ (by simp)).2
    (hm _ (by simp)).1 (hm _ (by simp)).2 (hm _ (by simp)).1 (hm _ (by simp)).2 hr hg hb
  obtain ⟨sb, hsb, -⟩ := row_close m.m20 m.m21 m.m22 r g b (hm _ (by simp)).1 (hm _ (by simp)).2
    (hm _ (by simp)).1 (hm _ (by simp)).2 (hm _ (by simp)).1 (hm _ (by simp)).2 hr hg hb
  simp only [apply_matrix, hsr, hsg, hsb]
  exact ⟨clamp_round_isIntIn _, clamp_round_isIntIn _, clamp_round_isIntIn _⟩

/-- Every entry of every matrix of the table lies in `[0, 1]`. -/
theorem COLORBLIND_MATRICES_unit : ∀ entry ∈ COLORBLIND_MATRICES, ∀ M : Matrix3,
    entry.2 = some M →
      ∀ a ∈ [M.m00, M.m01, M.m02, M.m10, M.m11, M.m12, M.m20, M.m21, M.m22], 0 ≤ a ∧ a ≤ 1 := by
  have table : ∀ entry ∈ COLORBLIND_MATRICES, ∀ M ∈ entry.2,
      ∀ a ∈ [M.m00, M.m01, M.m02, M.m10, M.m11, M.m12, M.m20, M.m21, M.m22],
        0 ≤ a ∧ a ≤ 1 := by
    decide!
  intro entry hentry M hM
  exact table entry hentry M (Option.mem_def.mpr hM)

/-- The filter keeps channels that are integers in `[0, 255]` inside that
range, for every mode that is not an inherited property name. -/
theorem apply_colorblind_simulation_isIntIn (mode : String) (r g b : JSNum)
    (hmode : mode ∉ OBJECT_PROTOTYPE_KEYS) (hr : r.IsIntIn 0 255) (hg : g.IsIntIn 0 255)
    (hb : b.IsIntIn 0 255) :
    ∃ c, apply_colorblind_simulation mode r g b = some c ∧
      c.r.IsIntIn 0 255 ∧ c.g.IsIntIn 0 255 ∧ c.b.IsIntIn 0 255 := by
  unfold apply_colorblind_simulation js_get
  split_ifs with h
  · exact ⟨_, rfl, hr, hg, hb⟩
  · cases hl : COLORBLIND_MATRICES.lookup mode with
    | none =>
      simp only [if_neg hmode]
      exact ⟨_, rfl, hr, hg, hb⟩
    | some m =>
      cases m with
      | none => exact ⟨_, rfl, hr, hg, hb⟩
      | some matrix =>
        obtain ⟨nr, rfl, r0, r1⟩ := hr
        obtain ⟨ng, rfl, g0, g1⟩ := hg
        obtain ⟨nb, rfl, b0, b1⟩ := hb
        obtain ⟨entry, hentry, he⟩ := exists_mem_of_lookup _ _ _ hl
        have bound : ∀ n : ℤ, 0 ≤ n → n ≤ 255 → |(n : ℚ)| ≤ 2 ^ 20 := by
          intro n h0 h1
          have e0 : (0 : ℚ) ≤ n := by exact_mod_cast h0
          have e1 : (n : ℚ) ≤ 255 := by exact_mod_cast h1
          rw [abs_le]
          constructor <;> linarith
        exact ⟨_, rfl, apply_matrix_isIntIn matrix nr ng nb
          (COLORBLIND_MATRICES_unit entry hentry matrix he) (bound nr r0 r1) (bound ng g0 g1)
          (bound nb b0 b1)⟩

theorem collect_map_forall {α β : Type} (f : β → Option α) (P : α → Prop) (l : List β)
    (h : ∀ x ∈ l, ∃ a, f x = some a ∧ P a) :
    ∃ as, collect (l.map f) = some as ∧ ∀ a ∈ as, P a := by
  induction l with
  | nil => exact ⟨[], rfl, fun a ha => by cases ha⟩
  | cons b bs ih =>
    obtain ⟨a, ha, hPa⟩ := h b (List.mem_cons_self _ _)
    obtain ⟨as, has, hPas⟩ := ih (fun x hx => h x (List.mem_cons_of_mem _ hx))
    refine ⟨a :: as, by simp only [List.map_cons, ha, collect, has], ?_⟩
    intro c hc
    rcases List.mem_cons.mp hc with rfl | hc
    · exact hPa
    · exact hPas c hc

/-- When every tile of the grid yields a colour with property `P`, a grid is
returned and all its entries have property `P`. -/
theorem color_grid_forall (mode : String) (adj : Adjustments) (cat : Category) (P : RGB → Prop)
    (h : ∀ y < cat.tiles.h, ∀ x < cat.tiles.w, ∃ c, tile_color mode adj cat x y = some c ∧ P c) :
    ∃ grid, color_grid mode adj cat = some grid ∧ ∀ row ∈ grid, ∀ c ∈ row, P c := by
  unfold color_grid
  apply collect_map_forall _ (fun row => ∀ c ∈ row, P c)
  intro y hy
  apply collect_map_forall _ P
  intro x hx
  exact h y (List.mem_range.mp hy) x (List.mem_range.mp hx)

/-- The arguments handed to `hsl_to_rgb` for a tile of a category with at
least two columns and two rows, a hue range inside the non-negative numbers
and a hue adjustment of at least -360. -/
theorem tile_hsl_mem_range (adj : Adjustments) (cat : Category) (x y : ℕ)
    (hw : 2 ≤ cat.tiles.w) (hh : 2 ≤ cat.tiles.h) (hh0 : 0 ≤ cat.colors.hue_range.1)
    (hh1 : cat.colors.hue_range.1 ≤ cat.colors.hue_range.2) (hadj : -360 ≤ adj.hue_adj) :
    ∃ hv sv lv : ℚ, tile_hsl adj cat x y = (fin hv, fin sv, fin lv) ∧
      0 ≤ hv ∧ hv < 360 ∧ 0 ≤ sv ∧ sv ≤ 100 ∧ 5 ≤ lv ∧ lv ≤ 95 := by
  have hraw : 0 ≤ cat.colors.hue_range.1 +
      (y : ℚ) / ((cat.tiles.h : ℚ) - 1) * (cat.colors.hue_range.2 - cat.colors.hue_range.1) := by
    have h2 : (2 : ℚ) ≤ cat.tiles.h := by exact_mod_cast hh
    have : 0 ≤ (y : ℚ) / ((cat.tiles.h : ℚ) - 1) :=
      div_nonneg (Nat.cast_nonneg y) (by linarith)
    have := mul_nonneg this (sub_nonneg.mpr hh1)
    linarith
  obtain ⟨hv, hhv, hv0, hv1⟩ := adjust_hue_mem_range (cat.colors.hue_range.1 +
      (y : ℚ) / ((cat.tiles.h : ℚ) - 1) * (cat.colors.hue_range.2 - cat.colors.hue_range.1))
    adj.hue_adj (by linarith)
  refine ⟨hv,
    Max.max 0 (Min.min 100 ((cat.colors.sat_range.1 +
      ((x : ℚ) + y) / ((cat.tiles.w : ℚ) + cat.tiles.h - 2) *
        (cat.colors.sat_range.2 - cat.colors.sat_range.1)) * adj.sat_mult)),
    Max.max 5 (Min.min 95 (cat.colors.light_range.2 -
      (x : ℚ) / ((cat.tiles.w : ℚ) - 1) *
        (cat.colors.light_range.2 - cat.colors.light_range.1) + adj.light_adj)),
    ?_, hv0, hv1, ?_, ?_, ?_, ?_⟩
  · rw [tile_hsl, raw_hue_fin cat y hh, raw_saturation_fin cat x y (by omega),
      raw_lightness_fin cat x hw, hhv]
    simp only [adjust_saturation, adjust_lightness, zero_eq_fin, ofNat_eq_fin, fin_mul_fin,
      fin_add_fin, min_fin_fin, max_fin_fin]
  · exact le_max_left _ _
  · exact max_le (by norm_num) (min_le_left _ _)
  · exact le_max_left _ _
  · exact max_le (by norm_num) (min_le_left _ _)

/-- Every catalog category has at least two columns and two rows and a hue
range `lo ≤ hi` of non-negative numbers. -/
theorem CATEGORIES_well_formed : ∀ cat ∈ CATEGORIES, 2 ≤ cat.tiles.w ∧ 2 ≤ cat.tiles.h ∧
    0 ≤ cat.colors.hue_range.1 ∧ cat.colors.hue_range.1 ≤ cat.colors.hue_range.2 := by
  decide!

/-- No theme of the table shifts the hue of a category by less than -80. -/
theorem THEMES_hue_shift_ge : ∀ entry ∈ THEMES, -80 ≤ entry.2.hue_shift ∧
    ∀ adj ∈ entry.2.category_adjustments,
      -80 ≤ entry.2.hue_shift + or_default adj.2.hue_shift 0 := by
  decide!

theorem resolve_adjustments_hue_adj_ge (theme : Theme) (hbase : -80 ≤ theme.hue_shift)
    (hadj : ∀ adj ∈ theme.category_adjustments,
      -80 ≤ theme.hue_shift + or_default adj.2.hue_shift 0)
    (id : String) (warmth : ℤ) :
    -80 + (warmth : ℚ) ≤ (resolve_adjustments theme id warmth).hue_adj := by
  unfold resolve_adjustments
  simp only [category_adjustment_eq, or_default_zero, Option.getD_some]
  cases hl : theme.category_adjustments.lookup id with
  | none =>
    simp only [Option.getD_none]
    linarith
  | some adj =>
    obtain ⟨e, he, rfl⟩ := exists_mem_of_lookup _ _ _ hl
    have := hadj e he
    rw [or_default_zero] at this
    simp only [Option.getD_some]
    linarith

/-- For every catalog category, every theme id and mode that is not an
inherited property name, and every warmth of at least -280, a grid is returned
and every channel of every entry is an integer in `[0, 255]`. -/
theorem generate_category_colors_isIntIn (st : State) (cat : Category) (hcat : cat ∈ CATEGORIES)
    (htheme : st.current_theme ∉ OBJECT_PROTOTYPE_KEYS)
    (hmode : st.colorblind_mode ∉ OBJECT_PROTOTYPE_KEYS) (hwarmth : -280 ≤ st.warmth) :
    ∃ grid, generate_category_colors st cat = some grid ∧
      ∀ row ∈ grid, ∀ c ∈ row, c.r.IsIntIn 0 255 ∧ c.g.IsIntIn 0 255 ∧ c.b.IsIntIn 0 255 := by
  obtain ⟨hw, hh, hh0, hh1⟩ := CATEGORIES_well_formed cat hcat
  have hwq : (-280 : ℚ) ≤ st.warmth := by exact_mod_cast hwarmth
  have key : ∀ theme : Theme, -80 ≤ theme.hue_shift →
      (∀ adj ∈ theme.category_adjustments,
        -80 ≤ theme.hue_shift + or_default adj.2.hue_shift 0) →
      ∃ grid, color_grid st.colorblind_mode (resolve_adjustments theme cat.id st.warmth) cat =
        some grid ∧
        ∀ row ∈ grid, ∀ c ∈ row, c.r.IsIntIn 0 255 ∧ c.g.IsIntIn 0 255 ∧ c.b.IsIntIn 0 255 := by
    intro theme hbase hadj
    apply color_grid_forall
    intro y _ x _
    have hge := resolve_adjustments_hue_adj_ge theme hbase hadj cat.id st.warmth
    obtain ⟨hv, sv, lv, hsl, hv0, hv1, hs0, hs1, hl0, hl1⟩ :=
      tile_hsl_mem_range (resolve_adjustments theme cat.id st.warmth) cat x y hw hh hh0 hh1
        (by linarith)
    obtain ⟨hr, hg, hb⟩ := hsl_to_rgb_isIntIn hv sv lv hv0 hv1.le hs0 hs1 (by linarith)
      (by linarith)
    simp only [tile_color, hsl]
    exact apply_colorblind_simulation_isIntIn _ _ _ _ hmode hr hg hb
  unfold generate_category_colors js_get
  cases hl : THEMES.lookup st.current_theme with
  | none =>
    simp only [if_neg htheme]
    exact key THEMES_none (by norm_num [THEMES_none]) (by simp [THEMES_none])
  | some theme =>
    obtain ⟨e, he, rfl⟩ := exists_mem_of_lookup _ _ _ hl
    obtain ⟨h1, h2⟩ := THEMES_hue_shift_ge e he
    exact key e.2 h1 h2

/-- The range result at the catalog entry `wood` under the initial state. -/
theorem generate_category_colors_isIntIn_witness :
    ∃ grid, generate_category_colors initial_state
        (mkCategory "wood" "Wood" 48 48 0 0 20 40 30 60 25 70) = some grid ∧
      ∀ row ∈ grid, ∀ c ∈ row, c.r.IsIntIn 0 255 ∧ c.g.IsIntIn 0 255 ∧ c.b.IsIntIn 0 255 :=
  generate_category_colors_isIntIn initial_state _ (by simp [CATEGORIES]) (by decide) (by decide)
    (by decide)

/-! ## Layout rows -/

/-- C13: `get_category_row` returns 0 for `y = 0`, else 1 for `y < 80`, 2 for
`80 ≤ y < 112`, 3 for `112 ≤ y < 136`, 4 for `136 ≤ y < 160` and 5 for
`y ≥ 160`; the `y` positions of the catalog are 0, 48, 80, 112, 136 and 160,
which map to the rows 0, 1, 2, 3, 4 and 5. -/
theorem get_category_row_spec :
    (∀ y : ℕ,
      (y = 0 → get_category_row y = 0) ∧
      (0 < y → y < 80 → get_category_row y = 1) ∧
      (80 ≤ y → y < 112 → get_category_row y = 2) ∧
      (112 ≤ y → y < 136 → get_category_row y = 3) ∧
      (136 ≤ y → y < 160 → get_category_row y = 4) ∧
      (160 ≤ y → get_category_row y = 5)) ∧
    (CATEGORIES.map (fun cat => cat.position.y)).dedup = [0, 48, 80, 112, 136, 160] ∧
    [0, 48, 80, 112, 136, 160].map get_category_row = [0, 1, 2, 3, 4, 5] := by
  refine ⟨fun y => ?_, by decide, by decide⟩
  unfold get_category_row
  refine ⟨?_, ?_, ?_, ?_, ?_, ?_⟩ <;> intros <;> split_ifs <;> first | rfl | omega

/-- The row rule at the position `y = 112`. -/
theorem get_category_row_spec_witness : get_category_row 112 = 3 :=
  (get_category_row_spec.1 112).2.2.2.1 (by decide) (by decide)

/-! ## Muted placeholder grid -/

/-- C17: for every category `generate_muted_colors` returns `h` rows of `w`
entries, and the entry in row `y`, column `x` is the grey (25, 25, 25) when
`(x + y) mod 2 = 0` and (20, 20, 20) otherwise; the function reads neither
the theme nor the warmth nor the colour-blind mode. -/
theorem generate_muted_colors_spec (cat : Category) :
    (generate_muted_colors cat).length = cat.tiles.h ∧
    (∀ row ∈ generate_muted_colors cat, row.length = cat.tiles.w) ∧
    (∀ x y : ℕ, x < cat.tiles.w → y < cat.tiles.h →
      (generate_muted_colors cat)[y]?.bind (fun row => row[x]?) =
        some (if (x + y) % 2 = 0 then { r := fin 25, g := fin 25, b := fin 25 }
              else { r := fin 20, g := fin 20, b := fin 20 })) := by
  refine ⟨by simp [generate_muted_colors], ?_, ?_⟩
  · intro row hrow
    simp only [generate_muted_colors, List.mem_map] at hrow
    obtain ⟨y, -, rfl⟩ := hrow
    simp
  · intro x y hx hy
    unfold generate_muted_colors
    rw [grid_getElem? _ _ _ _ _ hx hy]
    split_ifs <;> simp

/-- The muted grid of a 3 x 2 category at column 1, row 0. -/
theorem generate_muted_colors_spec_witness :
    (generate_muted_colors (mkCategory "c" "C" 3 2 0 0 0 0 0 0 0 0))[0]?.bind
        (fun row => row[1]?) =
      some (if (1 + 0) % 2 = 0 then { r := fin 25, g := fin 25, b := fin 25 }
            else { r := fin 20, g := fin 20, b := fin 20 }) :=
  (generate_muted_colors_spec (mkCategory "c" "C" 3 2 0 0 0 0 0 0 0 0)).2.2 1 0 (by decide)
    (by decide)

/-! ## Restoring selections -/

theorem mem_set_add (s : List String) (id a : String) :
    a ∈ set_add s id ↔ a ∈ s ∨ a = id := by
  unfold set_add
  split_ifs with h
  · constructor
    · exact Or.inl
    · rintro (h1 | rfl)
      · exact h1
      · exact h
  · simp

theorem any_id_iff (id : String) :
    CATEGORIES.any (fun cat => cat.id == id) = true ↔ id ∈ CATEGORIES.map Category.id := by
  simp only [List.any_eq_true, beq_iff_eq, List.mem_map]

theorem mem_restore_ids (ids : List String) (selected : List String) (a : String) :
    a ∈ restore_ids selected ids ↔
      a ∈ selected ∨ (a ∈ ids ∧ a ∈ CATEGORIES.map Category.id) := by
  unfold restore_ids
  induction ids generalizing selected with
  | nil => simp
  | cons id rest ih =>
    rw [List.foldl_cons, ih]
    by_cases hid : CATEGORIES.any (fun cat => cat.id == id) = true
    · rw [if_pos hid, mem_set_add]
      have hm := (any_id_iff id).mp hid
      constructor
      · rintro ((h | rfl) | ⟨h1, h2⟩)
        · exact Or.inl h
        · exact Or.inr ⟨List.mem_cons_self _ _, hm⟩
        · exact Or.inr ⟨List.mem_cons_of_mem _ h1, h2⟩
      · rintro (h | ⟨h1, h2⟩)
        · exact Or.inl (Or.inl h)
        · rcases List.mem_cons.mp h1 with rfl | h1
          · exact Or.inl (Or.inr rfl)
          · exact Or.inr ⟨h1, h2⟩
    · rw [if_neg hid]
      have hm : id ∉ CATEGORIES.map Category.id := fun h => hid ((any_id_iff id).mpr h)
      constructor
      · rintro (h | ⟨h1, h2⟩)
        · exact Or.inl h
        · exact Or.inr ⟨List.mem_cons_of_mem _ h1, h2⟩
      · rintro (h | ⟨h1, h2⟩)
        · exact Or.inl h
        · rcases List.mem_cons.mp h1 with rfl | h1
          · exact absurd h2 hm
          · exact Or.inr ⟨h1, h2⟩

theorem nodup_set_add (s : List String) (id : String) (h : s.Nodup) : (set_add s id).Nodup := by
  unfold set_add
  split_ifs with hmem
  · exact h
  · exact List.Nodup.append h (List.nodup_singleton id) (by simpa using hmem)

theorem nodup_restore_ids (ids : List String) (selected : List String) (h : selected.Nodup) :
    (restore_ids selected ids).Nodup := by
  unfold restore_ids
  induction ids generalizing selected with
  | nil => exact h
  | cons id rest ih =>
    rw [List.foldl_cons]
    apply ih
    split_ifs
    · exact nodup_set_add _ _ h
    · exact h

theorem load_selections_array (st : State) (ids : List String)
    (stored_settings : Option (Option Bool)) :
    (load_selections st (StoredSelections.array ids) stored_settings).selected_categories =
      restore_ids st.selected_categories ids := by
  unfold load_selections
  rcases stored_settings with _ | _ | _ <;> rfl

/-- C16: restoring a persisted list of strings into an empty selection always
returns a state, whatever settings are stored; an id is selected afterwards
exactly when it is listed and is the id of a catalog category, so unknown ids
are dropped and the selection is a subset of the catalog ids; no id is held
twice. -/
theorem load_selections_restores_catalog_ids (st : State) (ids : List String)
    (stored_settings : Option (Option Bool)) (hempty : st.selected_categories = []) :
    (∀ id : String,
      id ∈ (load_selections st (StoredSelections.array ids) stored_settings).selected_categories ↔
        id ∈ ids ∧ ∃ cat ∈ CATEGORIES, cat.id = id) ∧
    (∀ id ∈ (load_selections st (StoredSelections.array ids)
        stored_settings).selected_categories, id ∈ CATEGORIES.map Category.id) ∧
    (load_selections st (StoredSelections.array ids) stored_settings).selected_categories.Nodup := by
  rw [load_selections_array, hempty]
  refine ⟨fun id => ?_, fun id hid => ?_, nodup_restore_ids _ _ List.nodup_nil⟩
  · rw [mem_restore_ids]
    simp only [List.not_mem_nil, false_or, List.mem_map]
  · rw [mem_restore_ids] at hid
    rcases hid with h | ⟨-, h⟩
    · cases h
    · exact h

/-- Restoring the list `wood`, `unicorn`, `wood`, `bark` into the initial
state selects `wood` and `bark` only. -/
theorem load_selections_restores_catalog_ids_witness :
    (load_selections initial_state (StoredSelections.array ["wood", "unicorn", "wood", "bark"])
        none).selected_categories = ["wood", "bark"] ∧
    ∀ id : String,
      id ∈ (load_selections initial_state
          (StoredSelections.array ["wood", "unicorn", "wood", "bark"]) none).selected_categories ↔
        id ∈ ["wood", "unicorn", "wood", "bark"] ∧ ∃ cat ∈ CATEGORIES, cat.id = id :=
  ⟨by decide,
    (load_selections_restores_catalog_ids initial_state ["wood", "unicorn", "wood", "bark"] none
      rfl).1⟩

/-! ## Gradients before adjustment -/

theorem clamp_mono (lo hi a b : ℚ) (h : a ≤ b) :
    Max.max lo (Min.min hi a) ≤ Max.max lo (Min.min hi b) :=
  max_le_max le_rfl (min_le_min le_rfl h)

/-- C18: for every category with at least two columns and `l_lo ≤ l_hi` the
lightness of tile `(x, y)` before adjustment is
`l_hi - (x / (W - 1)) * (l_hi - l_lo)`; it does not depend on `y`, is `l_hi`
at `x = 0` and `l_lo` at `x = W - 1`, and does not increase with `x`; the
lightness handed to `hsl_to_rgb`, adjusted and clamped, does not increase with
`x` either. -/
theorem raw_lightness_gradient (cat : Category) (hw : 2 ≤ cat.tiles.w)
    (hl : cat.colors.light_range.1 ≤ cat.colors.light_range.2) :
    (∀ x : ℕ, raw_lightness cat x = fin (cat.colors.light_range.2 -
      (x : ℚ) / ((cat.tiles.w : ℚ) - 1) *
        (cat.colors.light_range.2 - cat.colors.light_range.1))) ∧
    (∀ (adj : Adjustments) (x y y' : ℕ),
      (tile_hsl adj cat x y).2.2 = (tile_hsl adj cat x y').2.2) ∧
    raw_lightness cat 0 = fin cat.colors.light_range.2 ∧
    raw_lightness cat (cat.tiles.w - 1) = fin cat.colors.light_range.1 ∧
    (∀ x x' : ℕ, x ≤ x' → ∃ v v' : ℚ,
      raw_lightness cat x = fin v ∧ raw_lightness cat x' = fin v' ∧ v' ≤ v) ∧
    (∀ (adj : Adjustments) (x x' y : ℕ), x ≤ x' → ∃ v v' : ℚ,
      (tile_hsl adj cat x y).2.2 = fin v ∧ (tile_hsl adj cat x' y).2.2 = fin v' ∧ v' ≤ v) := by
  have h2 : (2 : ℚ) ≤ cat.tiles.w := by exact_mod_cast hw
  have hpos : (0 : ℚ) < (cat.tiles.w : ℚ) - 1 := by linarith
  have hd : 0 ≤ cat.colors.light_range.2 - cat.colors.light_range.1 := by linarith
  have mono : ∀ x x' : ℕ, x ≤ x' →
      cat.colors.light_range.2 - (x' : ℚ) / ((cat.tiles.w : ℚ) - 1) *
          (cat.colors.light_range.2 - cat.colors.light_range.1) ≤
        cat.colors.light_range.2 - (x : ℚ) / ((cat.tiles.w : ℚ) - 1) *
          (cat.colors.light_range.2 - cat.colors.light_range.1) := by
    intro x x' hxx
    have hq : (x : ℚ) ≤ x' := by exact_mod_cast hxx
    have hdiv : (x : ℚ) / ((cat.tiles.w : ℚ) - 1) ≤ (x' : ℚ) / ((cat.tiles.w : ℚ) - 1) :=
      div_le_div_of_nonneg_right hq hpos.le
    have := mul_le_mul_of_nonneg_right hdiv hd
    linarith
  refine ⟨fun x => raw_lightness_fin cat x hw, fun _ _ _ _ => rfl, ?_, ?_, ?_, ?_⟩
  · rw [raw_lightness_fin cat 0 hw]
    simp
  · rw [raw_lightness_fin cat _ hw]
    congr 1
    have hc : ((cat.tiles.w - 1 : ℕ) : ℚ) = (cat.tiles.w : ℚ) - 1 := by
      rw [Nat.cast_sub (by omega)]
      simp
    rw [hc, div_self hpos.ne']
    ring
  · intro x x' hxx
    exact ⟨_, _, raw_lightness_fin cat x hw, raw_lightness_fin cat x' hw, mono x x' hxx⟩
  · intro adj x x' y hxx
    refine ⟨Max.max 5 (Min.min 95 (cat.colors.light_range.2 -
        (x : ℚ) / ((cat.tiles.w : ℚ) - 1) *
          (cat.colors.light_range.2 - cat.colors.light_range.1) + adj.light_adj)),
      Max.max 5 (Min.min 95 (cat.colors.light_range.2 -
        (x' : ℚ) / ((cat.tiles.w : ℚ) - 1) *
          (cat.colors.light_range.2 - cat.colors.light_range.1) + adj.light_adj)), ?_, ?_, ?_⟩
    · show adjust_lightness (raw_lightness cat x) adj.light_adj = _
      rw [raw_lightness_fin cat x hw]
      simp only [adjust_lightness, ofNat_eq_fin, fin_add_fin, min_fin_fin, max_fin_fin]
    · show adjust_lightness (raw_lightness cat x') adj.light_adj = _
      rw [raw_lightness_fin cat x' hw]
      simp only [adjust_lightness, ofNat_eq_fin, fin_add_fin, min_fin_fin, max_fin_fin]
    · apply clamp_mono
      have := mono x x' hxx
      linarith

/-- The lightness gradient of the catalog entry `wood`: 70 in the left
column. -/
theorem raw_lightness_gradient_witness :
    raw_lightness (mkCategory "wood" "Wood" 48 48 0 0 20 40 30 60 25 70) 0 =
      fin (mkCategory "wood" "Wood" 48 48 0 0 20 40 30 60 25 70).colors.light_range.2 :=
  (raw_lightness_gradient (mkCategory "wood" "Wood" 48 48 0 0 20 40 30 60 25 70) (by decide)
    (by norm_num [mkCategory])).2.2.1

/-- C20: for every category with `W + H > 2` the saturation of tile `(x, y)`
before adjustment is `s_lo + ((x + y) / (W + H - 2)) * (s_hi - s_lo)`, which
is `s_lo` at tile `(0, 0)` and `s_hi` at tile `(W - 1, H - 1)`; the
saturation handed to `hsl_to_rgb` is that value times the multiplier, clamped
to `[0, 100]`, whatever the multiplier. -/
theorem raw_saturation_gradient (cat : Category) (hwh : 2 < cat.tiles.w + cat.tiles.h) :
    (∀ x y : ℕ, raw_saturation cat x y = fin (cat.colors.sat_range.1 +
      ((x : ℚ) + y) / ((cat.tiles.w : ℚ) + cat.tiles.h - 2) *
        (cat.colors.sat_range.2 - cat.colors.sat_range.1))) ∧
    raw_saturation cat 0 0 = fin cat.colors.sat_range.1 ∧
    (1 ≤ cat.tiles.w → 1 ≤ cat.tiles.h →
      raw_saturation cat (cat.tiles.w - 1) (cat.tiles.h - 1) = fin cat.colors.sat_range.2) ∧
    (∀ saturation sat_mult : ℚ,
      adjust_saturation (fin saturation) sat_mult =
        fin (Max.max 0 (Min.min 100 (saturation * sat_mult))) ∧
      0 ≤ Max.max 0 (Min.min 100 (saturation * sat_mult)) ∧
      Max.max 0 (Min.min 100 (saturation * sat_mult)) ≤ 100) ∧
    (∀ (adj : Adjustments) (x y : ℕ), ∃ saturation v : ℚ,
      raw_saturation cat x y = fin saturation ∧
      (tile_hsl adj cat x y).2.1 = fin v ∧
      v = Max.max 0 (Min.min 100 (saturation * adj.sat_mult)) ∧ 0 ≤ v ∧ v ≤ 100) := by
  have h3 : (3 : ℚ) ≤ (cat.tiles.w : ℚ) + cat.tiles.h := by exact_mod_cast hwh
  have hpos : (0 : ℚ) < (cat.tiles.w : ℚ) + cat.tiles.h - 2 := by linarith
  have clamp : ∀ saturation sat_mult : ℚ,
      adjust_saturation (fin saturation) sat_mult =
        fin (Max.max 0 (Min.min 100 (saturation * sat_mult))) := by
    intro saturation sat_mult
    simp only [adjust_saturation, zero_eq_fin, ofNat_eq_fin, fin_mul_fin, min_fin_fin,
      max_fin_fin]
  have upper : ∀ v : ℚ, Max.max 0 (Min.min 100 v) ≤ 100 := fun v =>
    max_le (by norm_num) (min_le_left _ _)
  refine ⟨fun x y => raw_saturation_fin cat x y hwh, ?_, ?_, fun s m =>
    ⟨clamp s m, le_max_left _ _, upper _⟩, ?_⟩
  · rw [raw_saturation_fin cat 0 0 hwh]
    simp
  · intro hw hh
    rw [raw_saturation_fin cat _ _ hwh]
    congr 1
    have hc : ((cat.tiles.w - 1 : ℕ) : ℚ) + ((cat.tiles.h - 1 : ℕ) : ℚ) =
        (cat.tiles.w : ℚ) + cat.tiles.h - 2 := by
      rw [Nat.cast_sub hw, Nat.cast_sub hh]
      push_cast
      ring
    rw [hc, div_self hpos.ne']
    ring
  · intro adj x y
    refine ⟨_, _, raw_saturation_fin cat x y hwh, ?_, rfl, le_max_left _ _, upper _⟩
    show adjust_saturation (raw_saturation cat x y) adj.sat_mult = _
    rw [raw_saturation_fin cat x y hwh, clamp]

/-- The saturation gradient of the catalog entry `wood`: 30 at tile (0, 0). -/
theorem raw_saturation_gradient_witness :
    raw_saturation (mkCategory "wood" "Wood" 48 48 0 0 20 40 30 60 25 70) 0 0 =
      fin (mkCategory "wood" "Wood" 48 48 0 0 20 40 30 60 25 70).colors.sat_range.1 :=
  (raw_saturation_gradient (mkCategory "wood" "Wood" 48 48 0 0 20 40 30 60 25 70)
    (by decide)).2.1

/-! ## The matrix branch of the colour-blind filter -/

/-- A mode that is a key of the matrix table with a matrix goes through the
matrix branch. -/
theorem apply_colorblind_simulation_own (mode : String) (matrix : Matrix3) (r g b : JSNum)
    (hne : mode ≠ "none") (hkey : COLORBLIND_MATRICES.lookup mode = some (some matrix)) :
    apply_colorblind_simulation mode r g b = some (apply_matrix matrix r g b) := by
  unfold apply_colorblind_simulation js_get
  rw [if_neg hne, hkey]

theorem COLORBLIND_MATRICES_lookup : ∀ entry ∈ COLORBLIND_MATRICES,
    COLORBLIND_MATRICES.lookup entry.1 = some entry.2 ∧
    (entry.1 = "none" → entry.2 = none) := by
  intro entry hentry
  simp only [COLORBLIND_MATRICES, List.mem_cons, List.mem_singleton, List.not_mem_nil,
    or_false] at hentry
  rcases hentry with rfl | rfl | rfl | rfl | rfl <;>
    exact ⟨by simp [COLORBLIND_MATRICES, List.lookup], by simp⟩

/-- `Math.round` of a finite number is the integer `n` with
`n - 1/2 ≤ x < n + 1/2`. -/
theorem round_fin_nearest (x : ℚ) :
    ∃ n : ℤ, round (fin x) = fin n ∧ (n : ℚ) - 1 / 2 ≤ x ∧ x < (n : ℚ) + 1 / 2 := by
  refine ⟨⌊x + 1 / 2⌋, rfl, ?_, ?_⟩
  · have := Int.floor_le (x + 1 / 2)
    linarith
  · have := Int.lt_floor_add_one (x + 1 / 2)
    linarith

/-- Every row of every matrix of the table has non-negative entries whose
decimal values sum to 1. -/
theorem COLORBLIND_MATRICES_rowStochastic : ∀ entry ∈ COLORBLIND_MATRICES, ∀ M : Matrix3,
    entry.2 = some M → M.RowStochastic := by
  have table : ∀ entry ∈ COLORBLIND_MATRICES, ∀ M ∈ entry.2, M.RowStochastic := by
    decide!
  intro entry hentry M hM
  exact table entry hentry M (Option.mem_def.mpr hM)

/-- A mode of the table with a matrix goes through the matrix branch. -/
theorem COLORBLIND_MATRICES_own : ∀ entry ∈ COLORBLIND_MATRICES, ∀ M : Matrix3,
    entry.2 = some M → ∀ r g b : JSNum,
      apply_colorblind_simulation entry.1 r g b = some (apply_matrix M r g b) := by
  intro entry hentry M hM r g b
  obtain ⟨hlookup, hnone⟩ := COLORBLIND_MATRICES_lookup entry hentry
  have hne : entry.1 ≠ "none" := by
    intro h
    rw [hnone h] at hM
    cases hM
  rw [hM] at hlookup
  exact apply_colorblind_simulation_own _ M _ _ _ hne hlookup

/-- Every entry of every matrix is a whole number of thousandths. -/
theorem COLORBLIND_MATRICES_thousandths : ∀ entry ∈ COLORBLIND_MATRICES, ∀ M : Matrix3,
    entry.2 = some M →
      ∀ a ∈ [M.m00, M.m01, M.m02, M.m10, M.m11, M.m12, M.m20, M.m21, M.m22],
        (a * 1000).den = 1 := by
  have table : ∀ entry ∈ COLORBLIND_MATRICES, ∀ M ∈ entry.2,
      ∀ a ∈ [M.m00, M.m01, M.m02, M.m10, M.m11, M.m12, M.m20, M.m21, M.m22],
        (a * 1000).den = 1 := by
    decide!
  intro entry hentry M hM
  exact table entry hentry M (Option.mem_def.mpr hM)

/-- The rounded value of one row: the sum in double arithmetic is a finite
number within `10⁻⁸` of the exact sum, and `Math.round` takes it to the
integer `n` with `n - 1/2 ≤ s < n + 1/2`. -/
theorem round_row (a b c r g bl : ℚ) (ha0 : 0 ≤ a) (ha1 : a ≤ 1) (hb0 : 0 ≤ b) (hb1 : b ≤ 1)
    (hc0 : 0 ≤ c) (hc1 : c ≤ 1) (hr : |r| ≤ 2 ^ 20) (hg : |g| ≤ 2 ^ 20) (hbl : |bl| ≤ 2 ^ 20) :
    ∃ (s : ℚ) (n : ℤ), matrix_row a b c (fin r) (fin g) (fin bl) = fin s ∧
      |s - (a * r + b * g + c * bl)| ≤ 1 / 10 ^ 8 ∧
      (n : ℚ) - 1 / 2 ≤ s ∧ s < (n : ℚ) + 1 / 2 ∧
      round (matrix_row a b c (fin r) (fin g) (fin bl)) = fin n ∧
      JSNum.max 0 (JSNum.min 255 (round (matrix_row a b c (fin r) (fin g) (fin bl)))) =
        fin ((Max.max 0 (Min.min 255 n) : ℤ) : ℚ) := by
  obtain ⟨s, hs, e⟩ := row_close a b c r g bl ha0 ha1 hb0 hb1 hc0 hc1 hr hg hbl
  obtain ⟨n, hn, h1, h2⟩ := round_fin_nearest s
  refine ⟨s, n, hs, e, h1, h2, by rw [hs, hn], ?_⟩
  rw [hs, hn]
  simp only [zero_eq_fin, ofNat_eq_fin, min_fin_fin, max_fin_fin]
  push_cast
  rfl

/-- An integer within `1/2 + 10⁻⁸` of a whole number of thousandths is within
`1/2` of it. -/
theorem nearest_of_thousandths (x s : ℚ) (n : ℤ) (hx : (x * 1000).den = 1)
    (hs : |s - x| ≤ 1 / 10 ^ 8) (h1 : (n : ℚ) - 1 / 2 ≤ s) (h2 : s < (n : ℚ) + 1 / 2) :
    |(n : ℚ) - x| ≤ 1 / 2 := by
  have hk : ((x * 1000).num : ℚ) = x * 1000 := Rat.coe_int_num_of_den_eq_one hx
  rw [abs_le] at hs ⊢
  have a1 : ((1000 * n - (x * 1000).num : ℤ) : ℚ) < 501 := by
    push_cast
    rw [hk]
    linarith
  have a2 : (-501 : ℚ) < ((1000 * n - (x * 1000).num : ℤ) : ℚ) := by
    push_cast
    rw [hk]
    linarith
  have b1 : 1000 * n - (x * 1000).num < 501 := by exact_mod_cast a1
  have b2 : -501 < 1000 * n - (x * 1000).num := by exact_mod_cast a2
  have c1 : ((1000 * n - (x * 1000).num : ℤ) : ℚ) ≤ 500 := by
    have : 1000 * n - (x * 1000).num ≤ 500 := by omega
    exact_mod_cast this
  have c2 : (-500 : ℚ) ≤ ((1000 * n - (x * 1000).num : ℤ) : ℚ) := by
    have : -500 ≤ 1000 * n - (x * 1000).num := by omega
    exact_mod_cast this
  push_cast at c1 c2
  rw [hk] at c1 c2
  constructor <;> linarith

/-- A row of whole thousandths takes integer channels to a whole number of
thousandths. -/
theorem den_row (a b c : ℚ) (i j k : ℤ) (ha : (a * 1000).den = 1) (hb : (b * 1000).den = 1)
    (hc : (c * 1000).den = 1) : ((a * i + b * j + c * k) * 1000).den = 1 := by
  have e : (a * i + b * j + c * k) * 1000 =
      (((a * 1000).num * i + (b * 1000).num * j + (c * 1000).num * k : ℤ) : ℚ) := by
    push_cast
    rw [Rat.coe_int_num_of_den_eq_one ha, Rat.coe_int_num_of_den_eq_one hb,
      Rat.coe_int_num_of_den_eq_one hc]
    ring
  rw [e]
  exact Rat.den_intCast _

/-- C11, as the code has it: the modes with a matrix are `protanopia`,
`deuteranopia`, `tritanopia` and `achromatopsia`; for each of them, with
matrix `M`, and for every triple of channels of magnitude at most `2²⁰`,
channel `i` of the result is `Math.round` of the sum
`M[i][0]*r + M[i][1]*g + M[i][2]*b` computed in double arithmetic, clamped to
`[0, 255]`.  The computed sum `s` is within `10⁻⁸` of the exact sum, the
rounded value is the integer `n` with `n - 1/2 ≤ s < n + 1/2`, and for integer
channels `n` is an integer nearest to the exact sum (at an exact tie either
neighbour). -/
theorem apply_colorblind_simulation_matrix :
    COLORBLIND_MATRICES.map (fun entry => (entry.1, entry.2.isSome)) =
      [("none", false), ("protanopia", true), ("deuteranopia", true), ("tritanopia", true),
       ("achromatopsia", true)] ∧
    ∀ entry ∈ COLORBLIND_MATRICES, ∀ M : Matrix3, entry.2 = some M → ∀ r g b : ℚ,
      |r| ≤ 2 ^ 20 → |g| ≤ 2 ^ 20 → |b| ≤ 2 ^ 20 →
      ∃ (sr sg sb : ℚ) (nr ng nb : ℤ),
        (matrix_row M.m00 M.m01 M.m02 (fin r) (fin g) (fin b) = fin sr ∧
          |sr - (M.m00 * r + M.m01 * g + M.m02 * b)| ≤ 1 / 10 ^ 8 ∧
          (nr : ℚ) - 1 / 2 ≤ sr ∧ sr < (nr : ℚ) + 1 / 2) ∧
        (matrix_row M.m10 M.m11 M.m12 (fin r) (fin g) (fin b) = fin sg ∧
          |sg - (M.m10 * r + M.m11 * g + M.m12 * b)| ≤ 1 / 10 ^ 8 ∧
          (ng : ℚ) - 1 / 2 ≤ sg ∧ sg < (ng : ℚ) + 1 / 2) ∧
        (matrix_row M.m20 M.m21 M.m22 (fin r) (fin g) (fin b) = fin sb ∧
          |sb - (M.m20 * r + M.m21 * g + M.m22 * b)| ≤ 1 / 10 ^ 8 ∧
          (nb : ℚ) - 1 / 2 ≤ sb ∧ sb < (nb : ℚ) + 1 / 2) ∧
        apply_colorblind_simulation entry.1 (fin r) (fin g) (fin b) =
          some { r := fin ((Max.max 0 (Min.min 255 nr) : ℤ) : ℚ),
                 g := fin ((Max.max 0 (Min.min 255 ng) : ℤ) : ℚ),
                 b := fin ((Max.max 0 (Min.min 255 nb) : ℤ) : ℚ) } ∧
        ((∃ i j k : ℤ, r = i ∧ g = j ∧ b = k) →
          |(nr : ℚ) - (M.m00 * r + M.m01 * g + M.m02 * b)| ≤ 1 / 2 ∧
          |(ng : ℚ) - (M.m10 * r + M.m11 * g + M.m12 * b)| ≤ 1 / 2 ∧
          |(nb : ℚ) - (M.m20 * r + M.m21 * g + M.m22 * b)| ≤ 1 / 2) := by
  refine ⟨by simp [COLORBLIND_MATRICES], ?_⟩
  intro entry hentry M hM r g b hr hg hb
  obtain ⟨⟨a0, a1, a2, as⟩, ⟨b0, b1, b2, bs⟩, ⟨c0, c1, c2, cs⟩⟩ :=
    COLORBLIND_MATRICES_rowStochastic entry hentry M hM
  have ht := COLORBLIND_MATRICES_thousandths entry hentry M hM
  obtain ⟨sr, nr, er, dr, r1, r2, -, cr⟩ := round_row M.m00 M.m01 M.m02 r g b
    a0 (by linarith) a1 (by linarith) a2 (by linarith) hr hg hb
  obtain ⟨sg, ng, eg, dg, g1, g2, -, cg⟩ := round_row M.m10 M.m11 M.m12 r g b
    b0 (by linarith) b1 (by linarith) b2 (by linarith) hr hg hb
  obtain ⟨sb, nb, eb, db, b1', b2', -, cb⟩ := round_row M.m20 M.m21 M.m22 r g b
    c0 (by linarith) c1 (by linarith) c2 (by linarith) hr hg hb
  refine ⟨sr, sg, sb, nr, ng, nb, ⟨er, dr, r1, r2⟩, ⟨eg, dg, g1, g2⟩, ⟨eb, db, b1', b2'⟩, ?_, ?_⟩
  · rw [COLORBLIND_MATRICES_own entry hentry M hM]
    simp only [apply_matrix, cr, cg, cb]
  · rintro ⟨i, j, k, rfl, rfl, rfl⟩
    exact ⟨nearest_of_thousandths _ sr nr
        (den_row _ _ _ i j k (ht _ (by simp)) (ht _ (by simp)) (ht _ (by simp))) dr r1 r2,
      nearest_of_thousandths _ sg ng
        (den_row _ _ _ i j k (ht _ (by simp)) (ht _ (by simp)) (ht _ (by simp))) dg g1 g2,
      nearest_of_thousandths _ sb nb
        (den_row _ _ _ i j k (ht _ (by simp)) (ht _ (by simp)) (ht _ (by simp))) db b1' b2'⟩

/-- The filter under `achromatopsia` on the triple (10, 200, 30): every
channel is 0.299*10 + 0.587*200 + 0.114*30 = 123.81 rounded, 124. -/
theorem apply_colorblind_simulation_matrix_witness :
    apply_colorblind_simulation "achromatopsia" (fin 10) (fin 200) (fin 30) =
      some { r := fin 124, g := fin 124, b := fin 124 } := by
  obtain ⟨sr, sg, sb, nr, ng, nb, ⟨-, dr, r1, r2⟩, ⟨-, dg, g1, g2⟩, ⟨-, db, b1, b2⟩, h, -⟩ :=
    apply_colorblind_simulation_matrix.2
      ("achromatopsia", some
        { m00 := 299 / 1000, m01 := 587 / 1000, m02 := 114 / 1000,
          m10 := 299 / 1000, m11 := 587 / 1000, m12 := 114 / 1000,
          m20 := 299 / 1000, m21 := 587 / 1000, m22 := 114 / 1000 })
      (by simp [COLORBLIND_MATRICES]) _ rfl 10 200 30 (by norm_num [abs_le])
      (by norm_num [abs_le]) (by norm_num [abs_le])
  have e : ∀ (s : ℚ) (n : ℤ),
      |s - (299 / 1000 * 10 + 587 / 1000 * 200 + 114 / 1000 * 30)| ≤ 1 / 10 ^ 8 →
      (n : ℚ) - 1 / 2 ≤ s → s < (n : ℚ) + 1 / 2 → n = 124 := by
    intro s n hs h1 h2
    rw [abs_le] at hs
    have h3 : (n : ℚ) < 125 := by linarith
    have h4 : (123 : ℚ) < n := by linarith
    have h5 : n < 125 := by exact_mod_cast h3
    have h6 : 123 < n := by exact_mod_cast h4
    omega
  rw [e sr nr dr r1 r2, e sg ng dg g1 g2, e sb nb db b1 b2] at h
  rw [h]
  norm_num

/-- C11 fails as stated: under `deuteranopia` the triple (0, 0, 45) has the
exact blue sum 0*0 + 0.3*0 + 0.7*45 = 31.5, which rounds to 32 (a tie going
up, as `Math.round` does); in double arithmetic the sum is
31.499999999999996, and the filter returns blue 31. -/
theorem apply_colorblind_simulation_tie_rounds_down :
    COLORBLIND_MATRICES.lookup "deuteranopia" = some (some
      { m00 := 625 / 1000, m01 := 375 / 1000, m02 := 0,
        m10 := 700 / 1000, m11 := 300 / 1000, m12 := 0,
        m20 := 0, m21 := 300 / 1000, m22 := 700 / 1000 }) ∧
    matrix_row 0 (300 / 1000) (700 / 1000) (fin 0) (fin 0) (fin 45) =
      fin (8866461766385663 / 281474976710656) ∧
    apply_colorblind_simulation "deuteranopia" (fin 0) (fin 0) (fin 45) =
      some { r := fin 0, g := fin 0, b := fin 31 } ∧
    JSNum.max 0 (JSNum.min 255 (round (fin (0 * 0 + 300 / 1000 * 0 + 700 / 1000 * 45)))) =
      fin 32 := by
  refine ⟨by simp [COLORBLIND_MATRICES, List.lookup], by decide!, by decide!, by decide!⟩

/-! ## Canvas rendering -/

theorem collect_map_proj {α β γ : Type} (f : β → Option α) (proj : α → γ) (ρ : β → γ)
    (hf : ∀ b a, f b = some a → proj a = ρ b) (l : List β) (as : List α)
    (h : collect (l.map f) = some as) : as.map proj = l.map ρ := by
  induction l generalizing as with
  | nil =>
    simp only [List.map_nil, collect, Option.some.injEq] at h
    subst h
    rfl
  | cons b bs ih =>
    rw [List.map_cons] at h
    cases hb : f b with
    | none => simp [hb, collect] at h
    | some a =>
      cases hbs : collect (bs.map f) with
      | none => simp [hb, hbs, collect] at h
      | some as' =>
        simp only [hb, hbs, collect, Option.some.injEq] at h
        subst h
        simp only [List.map_cons, hf b a hb, ih as' hbs]

/-- The positions visited by the tile loop, row by row. -/
theorem tile_positions_map {α : Type} (w h : ℕ) (F : ℕ → ℕ → α) :
    (List.range h).flatMap (fun y => (List.range w).map (fun x => F x y)) =
      ((List.range h).flatMap (fun y => (List.range w).map (fun x => (x, y)))).map
        (fun p => F p.1 p.2) := by
  rw [List.map_flatMap]
  apply List.flatMap_congr
  intro y _
  rw [List.map_map]
  rfl

/-- Whatever the colour grid, the cells filled by the tile loop are the cells
of the tiles, row by row. -/
theorem draw_tiles_rects (cat : Category) (color_grid : List (List RGB))
    (cells : List (Rect × RGB)) (h : draw_tiles cat color_grid = some cells) :
    cells.map Prod.fst =
      (List.range cat.tiles.h).flatMap (fun y =>
        (List.range cat.tiles.w).map (fun x => tile_cell cat x y)) := by
  unfold draw_tiles at h
  rw [tile_positions_map] at h
  rw [tile_positions_map cat.tiles.w cat.tiles.h (fun x y => tile_cell cat x y)]
  refine collect_map_proj _ Prod.fst (fun p => tile_cell cat p.1 p.2) ?_ _ _ h
  intro p a ha
  cases hl : color_grid[p.2]?.bind (fun row => row[p.1]?) with
  | none => simp [hl] at ha
  | some c =>
    simp only [hl, Option.map_some', Option.some.injEq] at ha
    rw [← ha]

theorem render_category_some (st : State) (cat : Category) (region : Region)
    (h : render_category st cat = some region) :
    region.category = cat ∧
    region.is_selected = decide (cat.id ∈ st.selected_categories) ∧
    region.border = category_rect cat ∧
    region.cells.map Prod.fst =
      (List.range cat.tiles.h).flatMap (fun y =>
        (List.range cat.tiles.w).map (fun x => tile_cell cat x y)) := by
  unfold render_category at h
  simp only at h
  split at h
  · cases h
  · rename_i color_grid _
    split at h
    · cases h
    · rename_i cells hcells
      simp only [Option.some.injEq] at h
      subst h
      exact ⟨rfl, rfl, rfl, draw_tiles_rects cat color_grid cells hcells⟩

theorem collect_map_mem {α β : Type} (f : β → Option α) (l : List β) (as : List α)
    (h : collect (l.map f) = some as) : ∀ a ∈ as, ∃ b ∈ l, f b = some a := by
  induction l generalizing as with
  | nil =>
    simp only [List.map_nil, collect, Option.some.injEq] at h
    subst h
    intro a ha
    cases ha
  | cons b bs ih =>
    rw [List.map_cons] at h
    cases hb : f b with
    | none => simp [hb, collect] at h
    | some a' =>
      cases hbs : collect (bs.map f) with
      | none => simp [hb, hbs, collect] at h
      | some as' =>
        simp only [hb, hbs, collect, Option.some.injEq] at h
        subst h
        intro a ha
        rcases List.mem_cons.mp ha with rfl | ha
        · exact ⟨b, List.mem_cons_self _ _, hb⟩
        · obtain ⟨c, hc, hfc⟩ := ih as' hbs a ha
          exact ⟨c, List.mem_cons_of_mem _ hc, hfc⟩

/-- When `render_canvas` returns, it has drawn one region for each category
that is not skipped, in catalog order, each with the border rectangle and the
tile cells of its category. -/
theorem render_canvas_regions (st : State) (regions : List Region)
    (h : render_canvas st = some regions) :
    regions.map Region.category = CATEGORIES.filter (is_rendered st) ∧
    ∀ region ∈ regions,
      region.border = category_rect region.category ∧
      region.cells.map Prod.fst =
        (List.range region.category.tiles.h).flatMap (fun y =>
          (List.range region.category.tiles.w).map (fun x => tile_cell region.category x y)) := by
  unfold render_canvas at h
  constructor
  · rw [collect_map_proj _ Region.category id
      (fun b a hab => (render_category_some st b a hab).1) _ _ h]
    exact List.map_id _
  · intro region hregion
    obtain ⟨cat, -, hcat⟩ := collect_map_mem _ _ _ h region hregion
    obtain ⟨h1, -, h3, h4⟩ := render_category_some st cat region hcat
    rw [h1]
    exact ⟨h3, h4⟩

theorem collect_map_some_id {α : Type} (l : List α) : collect (l.map some) = some l := by
  have := collect_map_some (fun a : α => some a) id l (fun _ _ => rfl)
  simpa using this

/-- On a grid of `h` rows of `w` entries the tile loop does not throw. -/
theorem draw_tiles_table (cat : Category) (g : ℕ → ℕ → RGB) :
    draw_tiles cat
        ((List.range cat.tiles.h).map fun y => (List.range cat.tiles.w).map fun x => g x y) =
      some ((List.range cat.tiles.h).flatMap (fun y =>
        (List.range cat.tiles.w).map (fun x => (tile_cell cat x y, g x y)))) := by
  unfold draw_tiles
  rw [← collect_map_some_id ((List.range cat.tiles.h).flatMap (fun y =>
        (List.range cat.tiles.w).map (fun x => (tile_cell cat x y, g x y)))), List.map_flatMap]
  congr 1
  apply List.flatMap_congr
  intro y hy
  rw [List.map_map]
  apply List.map_congr_left
  intro x hx
  rw [grid_getElem? _ _ _ _ _ (List.mem_range.mp hx) (List.mem_range.mp hy)]
  rfl

theorem apply_colorblind_simulation_isSome (mode : String) (r g b : JSNum)
    (hmode : mode ∉ OBJECT_PROTOTYPE_KEYS) :
    ∃ c, apply_colorblind_simulation mode r g b = some c := by
  unfold apply_colorblind_simulation js_get
  split_ifs with h
  · exact ⟨_, rfl⟩
  · cases hl : COLORBLIND_MATRICES.lookup mode with
    | none =>
      simp only [if_neg hmode]
      exact ⟨_, rfl⟩
    | some m =>
      cases m with
      | none => exact ⟨_, rfl⟩
      | some matrix => exact ⟨_, rfl⟩

/-- For a theme id and a mode that are not inherited property names the
generator returns a grid of `h` rows of `w` entries. -/
theorem generate_category_colors_table (st : State) (cat : Category)
    (htheme : st.current_theme ∉ OBJECT_PROTOTYPE_KEYS)
    (hmode : st.colorblind_mode ∉ OBJECT_PROTOTYPE_KEYS) :
    ∃ g : ℕ → ℕ → RGB, generate_category_colors st cat =
      some ((List.range cat.tiles.h).map fun y => (List.range cat.tiles.w).map fun x => g x y) := by
  have key : ∀ adj : Adjustments, ∃ g : ℕ → ℕ → RGB, color_grid st.colorblind_mode adj cat =
      some ((List.range cat.tiles.h).map fun y =>
        (List.range cat.tiles.w).map fun x => g x y) := by
    intro adj
    refine ⟨fun x y => (tile_color st.colorblind_mode adj cat x y).getD ⟨nan, nan, nan⟩,
      color_grid_eq_some _ _ _ _ ?_⟩
    intro y _ x _
    obtain ⟨c, hc⟩ := apply_colorblind_simulation_isSome st.colorblind_mode
      (hsl_to_rgb (tile_hsl adj cat x y).1 (tile_hsl adj cat x y).2.1
        (tile_hsl adj cat x y).2.2).1
      (hsl_to_rgb (tile_hsl adj cat x y).1 (tile_hsl adj cat x y).2.1
        (tile_hsl adj cat x y).2.2).2.1
      (hsl_to_rgb (tile_hsl adj cat x y).1 (tile_hsl adj cat x y).2.1
        (tile_hsl adj cat x y).2.2).2.2 hmode
    have ht : tile_color st.colorblind_mode adj cat x y = some c := hc
    simp only [ht, Option.getD_some]
  unfold generate_category_colors js_get
  cases THEMES.lookup st.current_theme with
  | none =>
    simp only [if_neg htheme]
    exact key _
  | some theme => exact key _

/-- A category is drawn without an exception when it is unselected, or when
the theme id and the mode are not inherited property names. -/
theorem render_category_isSome (st : State) (cat : Category)
    (h : cat.id ∈ st.selected_categories →
      st.current_theme ∉ OBJECT_PROTOTYPE_KEYS ∧ st.colorblind_mode ∉ OBJECT_PROTOTYPE_KEYS) :
    ∃ region, render_category st cat = some region := by
  unfold render_category
  by_cases hsel : cat.id ∈ st.selected_categories
  · obtain ⟨g, hg⟩ := generate_category_colors_table st cat (h hsel).1 (h hsel).2
    simp only [hsel, decide_True, if_true, hg, draw_tiles_table]
    exact ⟨_, rfl⟩
  · simp only [hsel, decide_False, Bool.false_eq_true, if_false]
    have : generate_muted_colors cat = (List.range cat.tiles.h).map fun y =>
        (List.range cat.tiles.w).map fun x =>
          (let val : JSNum := if (x + y) % 2 = 0 then 25 else 20
           ({ r := val, g := val, b := val } : RGB)) := rfl
    rw [this, draw_tiles_table]
    exact ⟨_, rfl⟩

/-- `render_canvas` returns when the theme id and the mode are not inherited
property names, or when no catalog category is selected. -/
theorem render_canvas_isSome (st : State)
    (h : (st.current_theme ∉ OBJECT_PROTOTYPE_KEYS ∧ st.colorblind_mode ∉ OBJECT_PROTOTYPE_KEYS) ∨
      ∀ cat ∈ CATEGORIES, cat.id ∉ st.selected_categories) :
    ∃ regions, render_canvas st = some regions := by
  unfold render_canvas
  obtain ⟨regions, hregions, -⟩ := collect_map_forall (render_category st) (fun _ => True)
    (CATEGORIES.filter (is_rendered st)) (by
      intro cat hcat
      obtain ⟨region, hregion⟩ := render_category_isSome st cat (by
        intro hsel
        rcases h with h | h
        · exact h
        · exact absurd hsel (h cat (List.mem_of_mem_filter hcat)))
      exact ⟨region, hregion, trivial⟩)
  exact ⟨regions, hregions⟩

/-! ## Region geometry -/

/-- A half-open interval of `n` steps of length 4 is the disjoint union of the
`n` steps. -/
theorem interval_tiling (a : ℚ) (n : ℕ) (p : ℚ) :
    (a ≤ p ∧ p < a + (n : ℚ) * 4) ↔
      ∃ k : ℕ, k < n ∧ a + (k : ℚ) * 4 ≤ p ∧ p < a + (k : ℚ) * 4 + 4 := by
  constructor
  · rintro ⟨h1, h2⟩
    have h0 : 0 ≤ (p - a) / 4 := by
      apply div_nonneg <;> linarith
    have hfl := Int.floor_le ((p - a) / 4)
    have hfu := Int.lt_floor_add_one ((p - a) / 4)
    have hnn : 0 ≤ ⌊(p - a) / 4⌋ := Int.floor_nonneg.mpr h0
    obtain ⟨k, hk⟩ := Int.eq_ofNat_of_zero_le hnn
    rw [hk] at hfl hfu
    have hfl' : (k : ℚ) ≤ (p - a) / 4 := by exact_mod_cast hfl
    have hfu' : (p - a) / 4 < (k : ℚ) + 1 := by exact_mod_cast hfu
    refine ⟨k, ?_, by linarith, by linarith⟩
    have : (k : ℚ) < n := by
      by_contra hcon
      push_neg at hcon
      linarith
    exact_mod_cast this
  · rintro ⟨k, hk, h1, h2⟩
    have hkq : (k : ℚ) + 1 ≤ n := by exact_mod_cast hk
    have hk0 : (0 : ℚ) ≤ k := Nat.cast_nonneg k
    constructor <;> linarith

theorem interval_tiling_unique (a : ℚ) (k k' : ℕ) (p : ℚ)
    (h1 : a + (k : ℚ) * 4 ≤ p) (h2 : p < a + (k : ℚ) * 4 + 4)
    (h1' : a + (k' : ℚ) * 4 ≤ p) (h2' : p < a + (k' : ℚ) * 4 + 4) : k = k' := by
  have ha : (k : ℚ) < k' + 1 := by linarith
  have hb : (k' : ℚ) < k + 1 := by linarith
  have ha' : k < k' + 1 := by exact_mod_cast ha
  have hb' : k' < k + 1 := by exact_mod_cast hb
  omega

theorem tile_cell_contains (cat : Category) (col r : ℕ) (px py : ℚ) :
    (tile_cell cat col r).Contains px py ↔
      (((category_rect cat).left : ℚ) + (col : ℚ) * 4 ≤ px ∧
        px < ((category_rect cat).left : ℚ) + (col : ℚ) * 4 + 4) ∧
      (((category_rect cat).top : ℚ) + (r : ℚ) * 4 ≤ py ∧
        py < ((category_rect cat).top : ℚ) + (r : ℚ) * 4 + 4) := by
  simp only [Rect.Contains, tile_cell, category_rect, PADDING_PX, PADDING_TILES, TILE_SIZE,
    LABEL_HEIGHT_PX]
  push_cast
  constructor
  · rintro ⟨h1, h2, h3, h4⟩
    exact ⟨⟨by linarith, by linarith⟩, by linarith, by linarith⟩
  · rintro ⟨⟨h1, h2⟩, h3, h4⟩
    exact ⟨by linarith, by linarith, by linarith, by linarith⟩

theorem category_rect_contains (cat : Category) (px py : ℚ) :
    (category_rect cat).Contains px py ↔
      (((category_rect cat).left : ℚ) ≤ px ∧
        px < ((category_rect cat).left : ℚ) + (cat.tiles.w : ℚ) * 4) ∧
      (((category_rect cat).top : ℚ) ≤ py ∧
        py < ((category_rect cat).top : ℚ) + (cat.tiles.h : ℚ) * 4) := by
  simp only [Rect.Contains, category_rect, PADDING_PX, PADDING_TILES, TILE_SIZE,
    LABEL_HEIGHT_PX]
  push_cast
  constructor
  · rintro ⟨h1, h2, h3, h4⟩
    exact ⟨⟨h1, h2⟩, h3, h4⟩
  · rintro ⟨⟨h1, h2⟩, h3, h4⟩
    exact ⟨h1, h2, h3, h4⟩

/-- The tile cells of a category cover its region rectangle and nothing
else. -/
theorem category_rect_tiled (cat : Category) (px py : ℚ) :
    (category_rect cat).Contains px py ↔
      ∃ col r : ℕ, col < cat.tiles.w ∧ r < cat.tiles.h ∧
        (tile_cell cat col r).Contains px py := by
  rw [category_rect_contains, interval_tiling, interval_tiling]
  constructor
  · rintro ⟨⟨col, hcol, h1, h2⟩, r, hr, h3, h4⟩
    exact ⟨col, r, hcol, hr, (tile_cell_contains cat col r px py).mpr ⟨⟨h1, h2⟩, h3, h4⟩⟩
  · rintro ⟨col, r, hcol, hr, h⟩
    obtain ⟨⟨h1, h2⟩, h3, h4⟩ := (tile_cell_contains cat col r px py).mp h
    exact ⟨⟨col, hcol, h1, h2⟩, r, hr, h3, h4⟩

/-- Two tile cells of a category that share a point are the same cell. -/
theorem tile_cell_unique (cat : Category) (col r col' r' : ℕ) (px py : ℚ)
    (h : (tile_cell cat col r).Contains px py) (h' : (tile_cell cat col' r').Contains px py) :
    col = col' ∧ r = r' := by
  obtain ⟨⟨h1, h2⟩, h3, h4⟩ := (tile_cell_contains cat col r px py).mp h
  obtain ⟨⟨h1', h2'⟩, h3', h4'⟩ := (tile_cell_contains cat col' r' px py).mp h'
  exact ⟨interval_tiling_unique _ _ _ _ h1 h2 h1' h2', interval_tiling_unique _ _ _ _ h3 h4 h3' h4'⟩

theorem category_rect_eq (cat : Category) :
    category_rect cat =
      { left := 32 + (cat.position.x : ℤ) * 4,
        top := 32 + get_category_row cat.position.y * 18 + (cat.position.y : ℤ) * 4,
        width := (cat.tiles.w : ℤ) * 4,
        height := (cat.tiles.h : ℤ) * 4 } := by
  simp only [category_rect, PADDING_PX, PADDING_TILES, TILE_SIZE, LABEL_HEIGHT_PX]
  norm_num

theorem tile_cell_eq (cat : Category) (col r : ℕ) :
    tile_cell cat col r =
      { left := (category_rect cat).left + (col : ℤ) * 4,
        top := (category_rect cat).top + (r : ℤ) * 4,
        width := 4,
        height := 4 } := by
  simp only [tile_cell, category_rect, PADDING_PX, PADDING_TILES, TILE_SIZE, LABEL_HEIGHT_PX,
    Rect.mk.injEq, and_true]
  constructor <;> ring

/-- C12: whenever `render_canvas` returns, which it does when the theme id and
the mode are not inherited property names, it has drawn one region for each
category that is not skipped, in catalog order.  The region of a category at
grid position `(x, y)` with `w` by `h` tiles has its border rectangle at
`pixel_x = 32 + x*4`, `pixel_y = 32 + row*18 + y*4` with width `w*4` and
height `h*4`, where `row = get_category_row y`; the tile loop fills, row by
row, the 4 x 4 cell at `(pixel_x + col*4, pixel_y + r*4)` for tile `(col, r)`;
a point lies in the region rectangle exactly when it lies in one of these
cells, and two cells that share a point are the same cell. -/
theorem render_canvas_layout :
    (∀ st : State, st.current_theme ∉ OBJECT_PROTOTYPE_KEYS →
      st.colorblind_mode ∉ OBJECT_PROTOTYPE_KEYS → ∃ regions, render_canvas st = some regions) ∧
    (∀ (st : State) (regions : List Region), render_canvas st = some regions →
      regions.map Region.category = CATEGORIES.filter (is_rendered st) ∧
      ∀ region ∈ regions,
        region.border =
          { left := 32 + (region.category.position.x : ℤ) * 4,
            top := 32 + get_category_row region.category.position.y * 18 +
              (region.category.position.y : ℤ) * 4,
            width := (region.category.tiles.w : ℤ) * 4,
            height := (region.category.tiles.h : ℤ) * 4 } ∧
        region.cells.map Prod.fst =
          (List.range region.category.tiles.h).flatMap (fun r =>
            (List.range region.category.tiles.w).map (fun col =>
              { left := region.border.left + (col : ℤ) * 4,
                top := region.border.top + (r : ℤ) * 4,
                width := 4,
                height := 4 })) ∧
        (∀ px py : ℚ, region.border.Contains px py ↔
          ∃ cell ∈ region.cells.map Prod.fst, cell.Contains px py) ∧
        (∀ (col r col' r' : ℕ) (px py : ℚ),
          (tile_cell region.category col r).Contains px py →
          (tile_cell region.category col' r').Contains px py → col = col' ∧ r = r')) := by
  refine ⟨fun st htheme hmode => render_canvas_isSome st (Or.inl ⟨htheme, hmode⟩), ?_⟩
  intro st regions hregions
  obtain ⟨hcats, hall⟩ := render_canvas_regions st regions hregions
  refine ⟨hcats, ?_⟩
  intro region hregion
  obtain ⟨hborder, hcells⟩ := hall region hregion
  refine ⟨?_, ?_, ?_, fun col r col' r' px py => tile_cell_unique _ col r col' r' px py⟩
  · rw [hborder, category_rect_eq]
  · rw [hcells, hborder]
    apply List.flatMap_congr
    intro r _
    apply List.map_congr_left
    intro col _
    exact tile_cell_eq _ col r
  · intro px py
    rw [hborder, category_rect_tiled, hcells]
    constructor
    · rintro ⟨col, r, hcol, hr, h⟩
      refine ⟨tile_cell region.category col r, ?_, h⟩
      rw [List.mem_flatMap]
      exact ⟨r, List.mem_range.mpr hr, List.mem_map.mpr ⟨col, List.mem_range.mpr hcol, rfl⟩⟩
    · rintro ⟨cell, hcell, h⟩
      rw [List.mem_flatMap] at hcell
      obtain ⟨r, hr, hcell⟩ := hcell
      obtain ⟨col, hcol, rfl⟩ := List.mem_map.mp hcell
      exact ⟨col, r, List.mem_range.mp hcol, List.mem_range.mp hr, h⟩

/-- The layout under the initial state: `render_canvas` returns, and a region
is drawn for every category that is not skipped. -/
theorem render_canvas_layout_witness :
    ∃ regions, render_canvas initial_state = some regions ∧
      regions.map Region.category = CATEGORIES.filter (is_rendered initial_state) := by
  obtain ⟨regions, h⟩ := render_canvas_layout.1 initial_state (by decide) (by decide)
  exact ⟨regions, h, (render_canvas_layout.2 initial_state regions h).1⟩

/-! ## Omitting unselected categories -/

theorem is_rendered_of_omit (st : State) (cat : Category) (homit : st.omit_unselected = true) :
    is_rendered st cat = decide (cat.id ∈ st.selected_categories) := by
  simp [is_rendered, homit]

theorem find_category_at_tile_rendered (st : State) (tile_x tile_y : ℤ) (cat : Category)
    (h : find_category_at_tile st tile_x tile_y = some cat) :
    cat ∈ CATEGORIES ∧ is_rendered st cat = true ∧ hit_test cat tile_x tile_y = true := by
  unfold find_category_at_tile at h
  have hp := List.find?_some h
  rw [Bool.and_eq_true] at hp
  exact ⟨List.mem_of_find?_eq_some h, hp.1, hp.2⟩

/-- C15: with `omit_unselected` set, the regions that `render_canvas` draws
are those of the selected catalog categories, in catalog order, and it does
return when the theme id and the mode are not inherited property names;
`find_category_at_tile` never returns an unselected category; and when no
catalog category is selected, `render_canvas` draws no region and
`find_category_at_tile` returns nothing for every tile coordinate. -/
theorem omit_unselected_regions :
    (∀ (st : State) (regions : List Region), st.omit_unselected = true →
      render_canvas st = some regions →
      regions.map Region.category =
        CATEGORIES.filter (fun cat => decide (cat.id ∈ st.selected_categories))) ∧
    (∀ st : State, st.omit_unselected = true → st.current_theme ∉ OBJECT_PROTOTYPE_KEYS →
      st.colorblind_mode ∉ OBJECT_PROTOTYPE_KEYS →
      ∃ regions, render_canvas st = some regions) ∧
    (∀ (st : State) (tile_x tile_y : ℤ) (cat : Category), st.omit_unselected = true →
      find_category_at_tile st tile_x tile_y = some cat → cat.id ∈ st.selected_categories) ∧
    (∀ st : State, st.omit_unselected = true →
      (∀ cat ∈ CATEGORIES, cat.id ∉ st.selected_categories) →
      render_canvas st = some [] ∧
      ∀ tile_x tile_y : ℤ, find_category_at_tile st tile_x tile_y = none) := by
  refine ⟨?_, ?_, ?_, ?_⟩
  · intro st regions homit h
    rw [(render_canvas_regions st regions h).1]
    apply List.filter_congr
    intro cat _
    exact is_rendered_of_omit st cat homit
  · intro st _ htheme hmode
    exact render_canvas_isSome st (Or.inl ⟨htheme, hmode⟩)
  · intro st tile_x tile_y cat homit h
    obtain ⟨-, hr, -⟩ := find_category_at_tile_rendered st tile_x tile_y cat h
    rw [is_rendered_of_omit st cat homit] at hr
    exact of_decide_eq_true hr
  · intro st homit hnone
    have hfilter : CATEGORIES.filter (is_rendered st) = [] := by
      rw [List.filter_eq_nil_iff]
      intro cat hcat
      rw [is_rendered_of_omit st cat homit]
      simpa using hnone cat hcat
    constructor
    · unfold render_canvas
      rw [hfilter]
      rfl
    · intro tile_x tile_y
      unfold find_category_at_tile
      rw [List.find?_eq_none]
      intro cat hcat
      rw [is_rendered_of_omit st cat homit]
      simpa using fun h => absurd h (hnone cat hcat)

/-- With `omit_unselected` set and nothing selected no region is drawn, and
the tile (8, 8), which is the top-left tile of `wood`, belongs to no
category. -/
theorem omit_unselected_regions_witness :
    render_canvas { initial_state with omit_unselected := true } = some [] ∧
    find_category_at_tile { initial_state with omit_unselected := true } 8 8 = none :=
  ⟨(omit_unselected_regions.2.2.2 { initial_state with omit_unselected := true } rfl
      (fun _ _ h => by cases h)).1,
    (omit_unselected_regions.2.2.2 { initial_state with omit_unselected := true } rfl
      (fun _ _ h => by cases h)).2 8 8⟩

/-! ## Hit testing against the drawn rectangles -/

/-- Whenever a pointer pixel is found to belong to a category, that category
is a rendered catalog category, the pixel lies within the horizontal extent of
its region rectangle and not above it, and at most two pixel rows below its
lower edge. -/
theorem find_category_at_tile_near_rect (st : State) (px py : ℚ) (cat : Category)
    (h : find_category_at_tile st (hover_tile px) (hover_tile py) = some cat) :
    cat ∈ CATEGORIES ∧ is_rendered st cat = true ∧
    ((category_rect cat).left : ℚ) ≤ px ∧
    px < ((category_rect cat).left : ℚ) + (category_rect cat).width ∧
    ((category_rect cat).top : ℚ) ≤ py ∧
    py < ((category_rect cat).top : ℚ) + (category_rect cat).height + 2 := by
  obtain ⟨hmem, hr, hit⟩ := find_category_at_tile_rendered st _ _ cat h
  refine ⟨hmem, hr, ?_⟩
  have hx1 := Int.floor_le (px / (TILE_SIZE : ℚ))
  have hx2 := Int.lt_floor_add_one (px / (TILE_SIZE : ℚ))
  have hy1 := Int.floor_le (py / (TILE_SIZE : ℚ))
  have hy2 := Int.lt_floor_add_one (py / (TILE_SIZE : ℚ))
  simp only [hit_test, hover_tile, Bool.and_eq_true, decide_eq_true_eq, PADDING_TILES,
    LABEL_HEIGHT_PX] at hit
  simp only [category_rect, PADDING_PX, PADDING_TILES, LABEL_HEIGHT_PX]
  generalize ⌊px / (TILE_SIZE : ℚ)⌋ = tx at *
  generalize ⌊py / (TILE_SIZE : ℚ)⌋ = ty at *
  simp only [TILE_SIZE] at *
  obtain ⟨⟨⟨h1, h2⟩, h3⟩, h4⟩ := hit
  have h2' : tx + 1 ≤ 8 + (cat.position.x : ℤ) + cat.tiles.w := by omega
  have h4' : ty * 4 + 2 ≤ 32 + get_category_row cat.position.y * 18 +
      (cat.position.y : ℤ) * 4 + (cat.tiles.h : ℤ) * 4 := by
    rcases get_category_row_cases cat.position.y with hrow | hrow | hrow | hrow | hrow | hrow <;>
      rw [hrow] at h4 ⊢ <;> omega
  have q1 : ((8 + (cat.position.x : ℤ) : ℤ) : ℚ) ≤ tx := by exact_mod_cast (by omega : 8 + (cat.position.x : ℤ) ≤ tx)
  have q2 : ((tx + 1 : ℤ) : ℚ) ≤ ((8 + (cat.position.x : ℤ) + cat.tiles.w : ℤ) : ℚ) := by
    exact_mod_cast h2'
  have q3 : ((32 + get_category_row cat.position.y * 18 + (cat.position.y : ℤ) * 4 : ℤ) : ℚ) ≤
      ((ty * 4 : ℤ) : ℚ) := by exact_mod_cast (by omega : 32 + get_category_row cat.position.y * 18 + (cat.position.y : ℤ) * 4 ≤ ty * 4)
  have q4 : ((ty * 4 + 2 : ℤ) : ℚ) ≤ ((32 + get_category_row cat.position.y * 18 +
      (cat.position.y : ℤ) * 4 + (cat.tiles.h : ℤ) * 4 : ℤ) : ℚ) := by exact_mod_cast h4'
  push_cast at q1 q2 q3 q4 hx1 hx2 hy1 hy2 ⊢
  refine ⟨?_, ?_, ?_, ?_⟩ <;> linarith

/-- C14: with nothing selected and nothing omitted, the pointer pixel
(40, 370) lies outside the region rectangle of every catalog category, the
rectangle of `stone` being `[32, 160) x [242, 370)`; yet the hover handler
turns it into tile (10, 92), for which `find_category_at_tile` returns
`stone`. -/
theorem find_category_at_tile_outside_rect :
    ∃ cat ∈ CATEGORIES, cat.id = "stone" ∧
      category_rect cat = { left := 32, top := 242, width := 128, height := 128 } ∧
      hover_tile 40 = 10 ∧ hover_tile 370 = 92 ∧
      find_category_at_tile initial_state (hover_tile 40) (hover_tile 370) = some cat ∧
      (∀ c ∈ CATEGORIES, is_rendered initial_state c = true) ∧
      ∀ c ∈ CATEGORIES, ¬ (category_rect c).Contains 40 370 := by
  refine ⟨mkCategory "stone" "Stone" 32 32 0 48 20 50 5 20 25 70, by simp [CATEGORIES], rfl,
    by decide, ?_, ?_, ?_, by decide, by decide!⟩
  · norm_num [hover_tile, TILE_SIZE]
  · norm_num [hover_tile, TILE_SIZE]
  · have h1 : hover_tile 40 = 10 := by norm_num [hover_tile, TILE_SIZE]
    have h2 : hover_tile 370 = 92 := by norm_num [hover_tile, TILE_SIZE]
    rw [h1, h2]
    decide!

/-- For a category with at least two rows the hue of a row `y < H` before
adjustment lies between the two ends of the hue range. -/
theorem raw_hue_between (cat : Category) (hh : 2 ≤ cat.tiles.h) (y : ℕ) (hy : y < cat.tiles.h) :
    ∃ v : ℚ, raw_hue cat y = fin v ∧
      Min.min cat.colors.hue_range.1 cat.colors.hue_range.2 ≤ v ∧
      v ≤ Max.max cat.colors.hue_range.1 cat.colors.hue_range.2 := by
  have h2 : (2 : ℚ) ≤ cat.tiles.h := by exact_mod_cast hh
  have hpos : (0 : ℚ) < (cat.tiles.h : ℚ) - 1 := by linarith
  have hyq : (y : ℚ) + 1 ≤ cat.tiles.h := by exact_mod_cast hy
  obtain ⟨h0, h1⟩ := unit_interval_of_div (y : ℚ) ((cat.tiles.h : ℚ) - 1) (Nat.cast_nonneg y)
    (by linarith) hpos
  refine ⟨_, raw_hue_fin cat y hh, ?_⟩
  rcases le_total cat.colors.hue_range.1 cat.colors.hue_range.2 with hab | hab
  · rw [min_eq_left hab, max_eq_right hab]
    constructor <;> nlinarith
  · rw [min_eq_right hab, max_eq_left hab]
    constructor <;> nlinarith

theorem raw_hue_mem_range (cat : Category) (hh : 2 ≤ cat.tiles.h)
    (hlo : cat.colors.hue_range.1 ≤ cat.colors.hue_range.2) (y : ℕ) (hy : y < cat.tiles.h) :
    ∃ v : ℚ, raw_hue cat y = fin v ∧
      cat.colors.hue_range.1 ≤ v ∧ v ≤ cat.colors.hue_range.2 := by
  obtain ⟨v, hv, h1, h2⟩ := raw_hue_between cat hh y hy
  rw [min_eq_left hlo] at h1
  rw [max_eq_right hlo] at h2
  exact ⟨v, hv, h1, h2⟩

/-- C19: for every category with at least two rows the hue of tile `(x, y)`
before adjustment is `h_lo + (y / (H - 1)) * (h_hi - h_lo)`; it does not
depend on `x`, is `h_lo` in the top row and `h_hi` in the bottom row, and for
every row `y < H` it lies between the two ends of the hue range: in
`[h_lo, h_hi]` for a range with `h_lo ≤ h_hi`, as the data model requires of
a category, and so for every tile of every catalog category. -/
theorem raw_hue_gradient (cat : Category) (hh : 2 ≤ cat.tiles.h) :
    (∀ y : ℕ, raw_hue cat y = fin (cat.colors.hue_range.1 +
      (y : ℚ) / ((cat.tiles.h : ℚ) - 1) * (cat.colors.hue_range.2 - cat.colors.hue_range.1))) ∧
    (∀ (adj : Adjustments) (x x' y : ℕ),
      (tile_hsl adj cat x y).1 = (tile_hsl adj cat x' y).1) ∧
    raw_hue cat 0 = fin cat.colors.hue_range.1 ∧
    raw_hue cat (cat.tiles.h - 1) = fin cat.colors.hue_range.2 ∧
    (∀ y : ℕ, y < cat.tiles.h → ∃ v : ℚ, raw_hue cat y = fin v ∧
      Min.min cat.colors.hue_range.1 cat.colors.hue_range.2 ≤ v ∧
      v ≤ Max.max cat.colors.hue_range.1 cat.colors.hue_range.2) ∧
    (cat.colors.hue_range.1 ≤ cat.colors.hue_range.2 →
      ∀ y : ℕ, y < cat.tiles.h → ∃ v : ℚ, raw_hue cat y = fin v ∧
        cat.colors.hue_range.1 ≤ v ∧ v ≤ cat.colors.hue_range.2) ∧
    (∀ c ∈ CATEGORIES, ∀ y : ℕ, y < c.tiles.h → ∃ v : ℚ, raw_hue c y = fin v ∧
      c.colors.hue_range.1 ≤ v ∧ v ≤ c.colors.hue_range.2) := by
  have h2 : (2 : ℚ) ≤ cat.tiles.h := by exact_mod_cast hh
  have hpos : (0 : ℚ) < (cat.tiles.h : ℚ) - 1 := by linarith
  refine ⟨fun y => raw_hue_fin cat y hh, fun _ _ _ _ => rfl, ?_, ?_,
    fun y hy => raw_hue_between cat hh y hy,
    fun hlo y hy => raw_hue_mem_range cat hh hlo y hy, ?_⟩
  · rw [raw_hue_fin cat 0 hh]
    simp
  · rw [raw_hue_fin cat _ hh]
    congr 1
    have hc : ((cat.tiles.h - 1 : ℕ) : ℚ) = (cat.tiles.h : ℚ) - 1 := by
      rw [Nat.cast_sub (by omega)]
      simp
    rw [hc, div_self hpos.ne']
    ring
  · intro c hc y hy
    obtain ⟨-, hch, -, hclo⟩ := CATEGORIES_well_formed c hc
    exact raw_hue_mem_range c hch hclo y hy

/-- The hue gradient of the catalog entry `wood`: 20 in the top row. -/
theorem raw_hue_gradient_witness :
    raw_hue (mkCategory "wood" "Wood" 48 48 0 0 20 40 30 60 25 70) 0 =
      fin (mkCategory "wood" "Wood" 48 48 0 0 20 40 30 60 25 70).colors.hue_range.1 :=
  (raw_hue_gradient (mkCategory "wood" "Wood" 48 48 0 0 20 40 30 60 25 70) (by decide)).2.2.1

/-! ## Catalog invariants -/

/-- C21: every category of the catalog has at least one column and one row of
tiles, has `lo ≤ hi` in its hue, saturation and lightness range, with the hue
range inside `[0, 360]` and the other two inside `[0, 100]`, and no two
entries of the catalog have the same id. -/
theorem CATEGORIES_invariants :
    (∀ cat ∈ CATEGORIES,
      1 ≤ cat.tiles.w ∧ 1 ≤ cat.tiles.h ∧
      (0 ≤ cat.colors.hue_range.1 ∧ cat.colors.hue_range.1 ≤ cat.colors.hue_range.2 ∧
        cat.colors.hue_range.2 ≤ 360) ∧
      (0 ≤ cat.colors.sat_range.1 ∧ cat.colors.sat_range.1 ≤ cat.colors.sat_range.2 ∧
        cat.colors.sat_range.2 ≤ 100) ∧
      (0 ≤ cat.colors.light_range.1 ∧ cat.colors.light_range.1 ≤ cat.colors.light_range.2 ∧
        cat.colors.light_range.2 ≤ 100)) ∧
    (CATEGORIES.map Category.id).Nodup ∧
    (∀ a ∈ CATEGORIES, ∀ b ∈ CATEGORIES, a.id = b.id → a = b) := by
  have hnodup : (CATEGORIES.map Category.id).Nodup := by decide
  refine ⟨by decide!, hnodup, ?_⟩
  intro a ha b hb hab
  exact List.inj_on_of_nodup_map hnodup ha hb hab

/-- The invariants at the catalog entry `wood`. -/
theorem CATEGORIES_invariants_witness :
    1 ≤ (mkCategory "wood" "Wood" 48 48 0 0 20 40 30 60 25 70).tiles.w ∧
    1 ≤ (mkCategory "wood" "Wood" 48 48 0 0 20 40 30 60 25 70).tiles.h :=
  ⟨(CATEGORIES_invariants.1 (mkCategory "wood" "Wood" 48 48 0 0 20 40 30 60 25 70)
      (by simp [CATEGORIES])).1,
    (CATEGORIES_invariants.1 (mkCategory "wood" "Wood" 48 48 0 0 20 40 30 60 25 70)
      (by simp [CATEGORIES])).2.1⟩

/-- C27: the region rectangle of every catalog category lies inside the
1024 x 1024 canvas: its left and top edge are not negative, and its right and
lower edge do not exceed `CANVAS_SIZE`. -/
theorem category_rect_inside_canvas : ∀ cat ∈ CATEGORIES,
    0 ≤ (category_rect cat).left ∧ 0 ≤ (category_rect cat).top ∧
    (category_rect cat).left + (category_rect cat).width ≤ CANVAS_SIZE ∧
    (category_rect cat).top + (category_rect cat).height ≤ CANVAS_SIZE := by
  decide!

/-- The region of `glass`, the rightmost of the top row, ends at pixel column
960. -/
theorem category_rect_inside_canvas_witness :
    (category_rect (mkCategory "glass" "Glass" 24 24 208 0 180 220 10 40 60 95)).left +
      (category_rect (mkCategory "glass" "Glass" 24 24 208 0 180 220 10 40 60 95)).width ≤
      CANVAS_SIZE :=
  (category_rect_inside_canvas (mkCategory "glass" "Glass" 24 24 208 0 180 220 10 40 60 95)
    (by simp [CATEGORIES])).2.2.1

/-! ## Uniqueness of the hit -/

/-- C23: for every tile coordinate at most one category of the catalog passes
the hit test, whatever the state; so scanning the catalog in any other order
returns the same category, or nothing, as `find_category_at_tile` does. -/
theorem find_category_at_tile_order_independent (st : State) (tile_x tile_y : ℤ) :
    (∀ a ∈ CATEGORIES, ∀ b ∈ CATEGORIES, hit_test a tile_x tile_y = true →
      hit_test b tile_x tile_y = true → a = b) ∧
    (∀ scan : List Category, scan.Perm CATEGORIES →
      scan.find? (fun cat => is_rendered st cat && hit_test cat tile_x tile_y) =
        find_category_at_tile st tile_x tile_y) := by
  refine ⟨fun a ha b hb hta htb => hit_test_unique b hb a ha tile_x tile_y htb hta, ?_⟩
  intro scan hperm
  cases h : find_category_at_tile st tile_x tile_y with
  | none =>
    unfold find_category_at_tile at h
    rw [List.find?_eq_none] at h ⊢
    intro c hc
    exact h c (hperm.mem_iff.mp hc)
  | some c =>
    obtain ⟨hmem, hr, hit⟩ := find_category_at_tile_rendered st tile_x tile_y c h
    apply find?_eq_some_of_unique _ _ _ (hperm.mem_iff.mpr hmem)
    · simp only [hr, hit, Bool.and_self]
    · intro b hb hpb
      rw [Bool.and_eq_true] at hpb
      exact hit_test_unique c hmem b (hperm.mem_iff.mp hb) _ _ hit hpb.2

/-- Scanning the catalog backwards finds at tile (10, 10) what
`find_category_at_tile` finds. -/
theorem find_category_at_tile_order_independent_witness :
    CATEGORIES.reverse.find? (fun cat => is_rendered initial_state cat && hit_test cat 10 10) =
      find_category_at_tile initial_state 10 10 :=
  (find_category_at_tile_order_independent initial_state 10 10).2 CATEGORIES.reverse
    (List.reverse_perm CATEGORIES)

/-! ## The 4 x 4 scenario -/

/-- C22, as the code has it: for a category with a 4 x 4 tile grid, hue range
`[0, 40]`, saturation range `[50, 50]`, lightness range `[50, 50]`, under theme
`none` and warmth 0, the values handed to `hsl_to_rgb` are hue 0 and lightness
50 for tile `(0, 0)`, hue 0 and lightness 50 for tile `(3, 0)`, and hue 40 and
lightness 50 for tile `(0, 3)`, tiles written `(x, y)`: the hue follows the
row `y`, and the hue 40/3 belongs to the row `y = 1`.  The saturation is 50
throughout. -/
theorem tile_hsl_scenario (id name : String) (px py : ℕ) :
    tile_hsl (resolve_adjustments THEMES_none id 0)
      (mkCategory id name 4 4 px py 0 40 50 50 50 50) 0 0 = (fin 0, fin 50, fin 50) ∧
    tile_hsl (resolve_adjustments THEMES_none id 0)
      (mkCategory id name 4 4 px py 0 40 50 50 50 50) 3 0 = (fin 0, fin 50, fin 50) ∧
    tile_hsl (resolve_adjustments THEMES_none id 0)
      (mkCategory id name 4 4 px py 0 40 50 50 50 50) 0 3 = (fin 40, fin 50, fin 50) ∧
    (∀ x : ℕ, tile_hsl (resolve_adjustments THEMES_none id 0)
      (mkCategory id name 4 4 px py 0 40 50 50 50 50) x 1 = (fin (40 / 3), fin 50, fin 50)) := by
  have key : ∀ x y : ℕ, tile_hsl (resolve_adjustments THEMES_none id 0)
      (mkCategory id name 4 4 px py 0 40 50 50 50 50) x y =
      (adjust_hue (fin ((y : ℚ) / 3 * 40)) 0, fin 50, fin 50) := by
    intro x y
    rw [resolve_adjustments_none, tile_hsl, raw_hue_fin _ _ (by simp [mkCategory]),
      raw_saturation_fin _ _ _ (by simp [mkCategory]),
      raw_lightness_fin _ _ (by simp [mkCategory])]
    simp [mkCategory, adjust_saturation, adjust_lightness]
    norm_num
  refine ⟨?_, ?_, ?_, fun x => ?_⟩
  · rw [key, adjust_hue_fin]
    norm_num [trunc]
  · rw [key, adjust_hue_fin]
    norm_num [trunc]
  · rw [key, adjust_hue_fin]
    norm_num [trunc]
  · rw [key, adjust_hue_fin]
    norm_num [trunc]

/-- C22 fails as stated: in the scenario the tile `(3, 0)` is handed hue 0,
not 40/3, and the tile `(0, 3)` is handed hue 40, not 0. -/
theorem tile_hsl_scenario_hue_follows_row :
    (tile_hsl (resolve_adjustments THEMES_none "scenario" 0)
      (mkCategory "scenario" "Scenario" 4 4 0 0 0 40 50 50 50 50) 3 0).1 = fin 0 ∧
    (tile_hsl (resolve_adjustments THEMES_none "scenario" 0)
      (mkCategory "scenario" "Scenario" 4 4 0 0 0 40 50 50 50 50) 3 0).1 ≠ fin (40 / 3) ∧
    (tile_hsl (resolve_adjustments THEMES_none "scenario" 0)
      (mkCategory "scenario" "Scenario" 4 4 0 0 0 40 50 50 50 50) 0 3).1 = fin 40 ∧
    (tile_hsl (resolve_adjustments THEMES_none "scenario" 0)
      (mkCategory "scenario" "Scenario" 4 4 0 0 0 40 50 50 50 50) 0 3).1 ≠ fin 0 := by
  have h30 : (tile_hsl (resolve_adjustments THEMES_none "scenario" 0)
      (mkCategory "scenario" "Scenario" 4 4 0 0 0 40 50 50 50 50) 3 0).1 = fin 0 := by
    rw [resolve_adjustments_none, tile_hsl, raw_hue_fin _ _ (by decide), adjust_hue_fin]
    norm_num [mkCategory, trunc]
  have h03 : (tile_hsl (resolve_adjustments THEMES_none "scenario" 0)
      (mkCategory "scenario" "Scenario" 4 4 0 0 0 40 50 50 50 50) 0 3).1 = fin 40 := by
    rw [resolve_adjustments_none, tile_hsl, raw_hue_fin _ _ (by decide), adjust_hue_fin]
    norm_num [mkCategory, trunc]
  refine ⟨h30, ?_, h03, ?_⟩
  · rw [h30]
    intro h
    have := JSNum.fin.inj h
    norm_num at this
  · rw [h03]
    intro h
    have := JSNum.fin.inj h
    norm_num at this

/-! ## The HSL conversion -/

theorem grey_level_close (l : ℚ) (hl0 : 0 ≤ l) (hl1 : l ≤ 100) :
    ∃ v : ℚ, f64 (f64 (fin l / 100) * 255) = fin v ∧ |v - 255 * l / 100| ≤ 1 / 10 ^ 13 := by
  have el : fin l / 100 = fin (l / 100) := by simp
  obtain ⟨l', hl', e1⟩ := fl64_close (l / 100) 0 (by norm_num) (by norm_num)
    (by rw [abs_lt]; norm_num; constructor <;> linarith)
  rw [abs_le] at e1
  norm_num at e1
  obtain ⟨v, hv, e2⟩ := fl64_close (l' * 255) 7 (by norm_num) (by norm_num)
    (by rw [abs_lt]; norm_num; constructor <;> linarith)
  rw [abs_le] at e2
  norm_num at e2
  refine ⟨v, by rw [el, f64_fin, hl', ofNat_eq_fin 255, fin_mul_fin, f64_fin, hv], ?_⟩
  rw [abs_le]
  norm_num
  constructor <;> linarith

/-- The integer lightnesses at which `255 l / 100` is a tie. -/
theorem grey_level_ties : ∀ k ∈ [(10 : ℤ), 30, 50, 70, 90],
    round (f64 (f64 (fin (k : ℚ) / 100) * 255)) = fin (⌊255 * (k : ℚ) / 100 + 1 / 2⌋ : ℤ) := by
  decide!

/-- Away from a tie the rounding error does not change the rounded value. -/
theorem grey_level_integer (k n : ℤ) (v : ℚ) (hk : k % 20 ≠ 10)
    (hv : |v - 255 * (k : ℚ) / 100| ≤ 1 / 10 ^ 13) (h1 : (n : ℚ) - 1 / 2 ≤ v)
    (h2 : v < (n : ℚ) + 1 / 2) : n = ⌊255 * (k : ℚ) / 100 + 1 / 2⌋ := by
  have hne : (51 * k + 10) % 20 ≠ 0 := by omega
  have hlo : 1 ≤ (51 * k + 10) % 20 := by omega
  have hhi : (51 * k + 10) % 20 ≤ 19 := by omega
  have hdiv := Int.emod_add_ediv (51 * k + 10) 20
  have hq : ((51 * k + 10 : ℤ) : ℚ) =
      (((51 * k + 10) % 20 : ℤ) : ℚ) + 20 * (((51 * k + 10) / 20 : ℤ) : ℚ) := by
    exact_mod_cast hdiv.symm
  push_cast at hq
  have qlo : (1 : ℚ) ≤ (((51 * k + 10) % 20 : ℤ) : ℚ) := by exact_mod_cast hlo
  have qhi : (((51 * k + 10) % 20 : ℤ) : ℚ) ≤ 19 := by exact_mod_cast hhi
  push_cast at qlo qhi
  rw [abs_le] at hv
  have a1 : (n : ℚ) < (((51 * k + 10) / 20 : ℤ) : ℚ) + 1 := by
    linarith
  have a2 : (((51 * k + 10) / 20 : ℤ) : ℚ) < (n : ℚ) + 1 := by
    linarith
  have b1 : n < (51 * k + 10) / 20 + 1 := by exact_mod_cast a1
  have b2 : (51 * k + 10) / 20 < n + 1 := by exact_mod_cast a2
  have hn : n = (51 * k + 10) / 20 := by omega
  symm
  rw [Int.floor_eq_iff, hn]
  constructor <;> linarith

/-- With saturation 0 the three channels are the rounded grey level. -/
theorem hsl_to_rgb_grey (h l : JSNum) :
    hsl_to_rgb h (fin 0) l =
      (round (f64 (f64 (l / 100) * 255)), round (f64 (f64 (l / 100) * 255)),
       round (f64 (f64 (l / 100) * 255))) := by
  have hs : f64 (fin 0 / 100) = fin 0 := by decide!
  unfold hsl_to_rgb
  simp only [hs]
  simp only [zero_eq_fin, strictEq_fin_fin, decide_True, if_true]

/-- C25, as the code has it: for every hue and every lightness `l` in
`[0, 100]`, `hsl_to_rgb(h, 0, l)` returns three equal channels
`n = Math.round(v)`, where `v` is the product `(l / 100) * 255` in double
arithmetic: `v` is within `10⁻¹³` of `255 l / 100`, `n` is the integer with
`n - 1/2 ≤ v < n + 1/2`, it lies in `[0, 255]` and within `1/2 + 10⁻¹³` of
`255 l / 100`; for an integer `l` it is `255 l / 100` rounded to the nearest
integer, a tie going up. -/
theorem hsl_to_rgb_achromatic (h : JSNum) (l : ℚ) (hl0 : 0 ≤ l) (hl1 : l ≤ 100) :
    ∃ (v : ℚ) (n : ℤ),
      f64 (f64 (fin l / 100) * 255) = fin v ∧ |v - 255 * l / 100| ≤ 1 / 10 ^ 13 ∧
      (n : ℚ) - 1 / 2 ≤ v ∧ v < (n : ℚ) + 1 / 2 ∧
      hsl_to_rgb h (fin 0) (fin l) = (fin n, fin n, fin n) ∧ 0 ≤ n ∧ n ≤ 255 ∧
      |(n : ℚ) - 255 * l / 100| ≤ 1 / 2 + 1 / 10 ^ 13 ∧
      ((∃ k : ℤ, l = k) → n = ⌊255 * l / 100 + 1 / 2⌋) := by
  obtain ⟨v, hv, e⟩ := grey_level_close l hl0 hl1
  obtain ⟨n, hn, h1, h2⟩ := round_fin_nearest v
  have e' := abs_le.mp e
  have h3 : (-1 : ℚ) < n := by linarith
  have h4 : (n : ℚ) < 256 := by linarith
  have h5 : (-1 : ℤ) < n := by exact_mod_cast h3
  have h6 : n < 256 := by exact_mod_cast h4
  refine ⟨v, n, hv, e, h1, h2, ?_, by omega, by omega, ?_, ?_⟩
  · rw [hsl_to_rgb_grey, hv, hn]
  · rw [abs_le]; constructor <;> linarith
  · rintro ⟨k, rfl⟩
    have hk0 : 0 ≤ k := by exact_mod_cast hl0
    have hk1 : k ≤ 100 := by exact_mod_cast hl1
    by_cases hk : k % 20 = 10
    · have hmem : k ∈ [(10 : ℤ), 30, 50, 70, 90] := by
        simp only [List.mem_cons, List.mem_singleton, List.not_mem_nil, or_false]
        omega
      have hg := grey_level_ties k hmem
      rw [hv, hn] at hg
      have := JSNum.fin.inj hg
      exact_mod_cast this
    · exact grey_level_integer k n v hk e h1 h2

/-- Saturation 0 and lightness 50 give the grey 128, whatever the hue; here
the hue is 200. -/
theorem hsl_to_rgb_achromatic_witness :
    hsl_to_rgb (fin 200) (fin 0) (fin 50) = (fin 128, fin 128, fin 128) := by
  obtain ⟨v, n, -, -, -, -, hn, -, -, -, hk⟩ :=
    hsl_to_rgb_achromatic (fin 200) 50 (by norm_num) (by norm_num)
  have := hk ⟨50, by norm_num⟩
  rw [hn, this]
  norm_num

/-- C25 fails as stated: the double 3.333333333333333 is a lightness in
`[0, 100]`; `255 l / 100` is then 8.4999999999999991..., which rounds to 8,
but in double arithmetic `(l / 100) * 255` is 8.5 and `hsl_to_rgb(0, 0, l)`
returns 9 in every channel. -/
theorem hsl_to_rgb_achromatic_rounds_up :
    fl64 (3752999689475413 / 1125899906842624) = fin (3752999689475413 / 1125899906842624) ∧
    (0 : ℚ) ≤ 3752999689475413 / 1125899906842624 ∧
    (3752999689475413 / 1125899906842624 : ℚ) ≤ 100 ∧
    f64 (f64 (fin (3752999689475413 / 1125899906842624) / 100) * 255) = fin (17 / 2) ∧
    hsl_to_rgb (fin 0) (fin 0) (fin (3752999689475413 / 1125899906842624)) =
      (fin 9, fin 9, fin 9) ∧
    round (fin (255 * (3752999689475413 / 1125899906842624) / 100)) = fin 8 := by
  refine ⟨by decide!, by norm_num, by norm_num, by decide!, by decide!, by decide!⟩

/-- C26: for every hue in `[0, 360)`, saturation in `[0, 100]` and lightness
in `[0, 100]` the three channels returned by `hsl_to_rgb` are integers in
`[0, 255]`; red `(0, 100, 50)` gives `(255, 0, 0)`, green `(120, 100, 50)`
gives `(0, 255, 0)` and blue `(240, 100, 50)` gives `(0, 0, 255)`. -/
theorem hsl_to_rgb_range_and_primaries :
    (∀ h s l : ℚ, 0 ≤ h → h < 360 → 0 ≤ s → s ≤ 100 → 0 ≤ l → l ≤ 100 →
      (hsl_to_rgb (fin h) (fin s) (fin l)).1.IsIntIn 0 255 ∧
      (hsl_to_rgb (fin h) (fin s) (fin l)).2.1.IsIntIn 0 255 ∧
      (hsl_to_rgb (fin h) (fin s) (fin l)).2.2.IsIntIn 0 255) ∧
    hsl_to_rgb (fin 0) (fin 100) (fin 50) = (fin 255, fin 0, fin 0) ∧
    hsl_to_rgb (fin 120) (fin 100) (fin 50) = (fin 0, fin 255, fin 0) ∧
    hsl_to_rgb (fin 240) (fin 100) (fin 50) = (fin 0, fin 0, fin 255) := by
  refine ⟨fun h s l hh0 hh1 hs0 hs1 hl0 hl1 =>
    hsl_to_rgb_isIntIn h s l hh0 hh1.le hs0 hs1 hl0 hl1, ?_, ?_, ?_⟩
  · decide!
  · decide!
  · decide!

/-- The range at hue 30, saturation 60 and lightness 40. -/
theorem hsl_to_rgb_range_and_primaries_witness :
    (hsl_to_rgb (fin 30) (fin 60) (fin 40)).1.IsIntIn 0 255 :=
  (hsl_to_rgb_range_and_primaries.1 30 60 40 (by norm_num) (by norm_num) (by norm_num)
    (by norm_num) (by norm_num) (by norm_num)).1

/-! ## The colour-blind matrices -/

/-- A row with non-negative entries of sum 1 takes three channels of
`[0, 255]` to a sum that rounds to an integer of `[0, 255]`, so the clamp
leaves it as it is. -/
theorem clamp_round_convex (a b c r g bl : ℚ) (ha : 0 ≤ a) (hb : 0 ≤ b) (hc : 0 ≤ c)
    (hsum : a + b + c = 1) (hr0 : 0 ≤ r) (hr1 : r ≤ 255) (hg0 : 0 ≤ g) (hg1 : g ≤ 255)
    (hb0 : 0 ≤ bl) (hb1 : bl ≤ 255) :
    ∃ n : ℤ, round (matrix_row a b c (fin r) (fin g) (fin bl)) = fin n ∧ 0 ≤ n ∧ n ≤ 255 ∧
      |(n : ℚ) - (a * r + b * g + c * bl)| ≤ 1 / 2 + 1 / 10 ^ 8 ∧
      JSNum.max 0 (JSNum.min 255 (round (matrix_row a b c (fin r) (fin g) (fin bl)))) = fin n := by
  have h0 : 0 ≤ a * r + b * g + c * bl := by positivity
  have h1 : a * r + b * g + c * bl ≤ 255 := by
    have e1 := mul_le_mul_of_nonneg_left hr1 ha
    have e2 := mul_le_mul_of_nonneg_left hg1 hb
    have e3 := mul_le_mul_of_nonneg_left hb1 hc
    have : a * 255 + b * 255 + c * 255 = 255 := by
      rw [← add_mul, ← add_mul, hsum]
      norm_num
    linarith
  obtain ⟨s, n, -, hs, h2, h3, hn, hc'⟩ := round_row a b c r g bl ha (by linarith) hb
    (by linarith) hc (by linarith) (by rw [abs_le]; constructor <;> linarith)
    (by rw [abs_le]; constructor <;> linarith) (by rw [abs_le]; constructor <;> linarith)
  rw [abs_le] at hs
  have h4 : (-1 : ℚ) < n := by linarith
  have h5 : (n : ℚ) < 256 := by linarith
  have h6 : (-1 : ℤ) < n := by exact_mod_cast h4
  have h7 : n < 256 := by exact_mod_cast h5
  have hn0 : 0 ≤ n := by omega
  have hn1 : n ≤ 255 := by omega
  refine ⟨n, hn, hn0, hn1, by rw [abs_le]; constructor <;> linarith, ?_⟩
  rw [hc', min_eq_right hn1, max_eq_right hn0]

/-- C28, as the code has it: every row of every colour-blind matrix has
non-negative entries whose decimal values sum to 1.  For every mode with a
matrix, in double arithmetic: a grey `(v, v, v)` with an integer `v` in
`[0, 255]` is returned unchanged; for every input with channels in `[0, 255]`
each rounded sum is an integer in `[0, 255]` and is returned as it is, the
clamp changing nothing.  Under `achromatopsia` the three channels of every
output are equal. -/
theorem COLORBLIND_MATRICES_convex :
    (∀ entry ∈ COLORBLIND_MATRICES, ∀ M : Matrix3, entry.2 = some M →
      (0 ≤ M.m00 ∧ 0 ≤ M.m01 ∧ 0 ≤ M.m02 ∧ M.m00 + M.m01 + M.m02 = 1) ∧
      (0 ≤ M.m10 ∧ 0 ≤ M.m11 ∧ 0 ≤ M.m12 ∧ M.m10 + M.m11 + M.m12 = 1) ∧
      (0 ≤ M.m20 ∧ 0 ≤ M.m21 ∧ 0 ≤ M.m22 ∧ M.m20 + M.m21 + M.m22 = 1)) ∧
    (∀ entry ∈ COLORBLIND_MATRICES, ∀ M : Matrix3, entry.2 = some M →
      ∀ v : ℤ, 0 ≤ v → v ≤ 255 →
        apply_colorblind_simulation entry.1 (fin v) (fin v) (fin v) =
          some { r := fin v, g := fin v, b := fin v }) ∧
    (∀ entry ∈ COLORBLIND_MATRICES, ∀ M : Matrix3, entry.2 = some M →
      ∀ r g b : ℚ, 0 ≤ r → r ≤ 255 → 0 ≤ g → g ≤ 255 → 0 ≤ b → b ≤ 255 →
        (round (matrix_row M.m00 M.m01 M.m02 (fin r) (fin g) (fin b))).IsIntIn 0 255 ∧
        (round (matrix_row M.m10 M.m11 M.m12 (fin r) (fin g) (fin b))).IsIntIn 0 255 ∧
        (round (matrix_row M.m20 M.m21 M.m22 (fin r) (fin g) (fin b))).IsIntIn 0 255 ∧
        apply_colorblind_simulation entry.1 (fin r) (fin g) (fin b) =
          some { r := round (matrix_row M.m00 M.m01 M.m02 (fin r) (fin g) (fin b)),
                 g := round (matrix_row M.m10 M.m11 M.m12 (fin r) (fin g) (fin b)),
                 b := round (matrix_row M.m20 M.m21 M.m22 (fin r) (fin g) (fin b)) }) ∧
    (∀ r g b : JSNum, ∃ c : RGB,
      apply_colorblind_simulation "achromatopsia" r g b = some c ∧
        c.r = c.g ∧ c.g = c.b) := by
  have channels : ∀ entry ∈ COLORBLIND_MATRICES, ∀ M : Matrix3, entry.2 = some M →
      ∀ r g b : ℚ, 0 ≤ r → r ≤ 255 → 0 ≤ g → g ≤ 255 → 0 ≤ b → b ≤ 255 →
        ∃ nr ng nb : ℤ,
          (round (matrix_row M.m00 M.m01 M.m02 (fin r) (fin g) (fin b)) = fin nr ∧
            0 ≤ nr ∧ nr ≤ 255 ∧
            |(nr : ℚ) - (M.m00 * r + M.m01 * g + M.m02 * b)| ≤ 1 / 2 + 1 / 10 ^ 8) ∧
          (round (matrix_row M.m10 M.m11 M.m12 (fin r) (fin g) (fin b)) = fin ng ∧
            0 ≤ ng ∧ ng ≤ 255 ∧
            |(ng : ℚ) - (M.m10 * r + M.m11 * g + M.m12 * b)| ≤ 1 / 2 + 1 / 10 ^ 8) ∧
          (round (matrix_row M.m20 M.m21 M.m22 (fin r) (fin g) (fin b)) = fin nb ∧
            0 ≤ nb ∧ nb ≤ 255 ∧
            |(nb : ℚ) - (M.m20 * r + M.m21 * g + M.m22 * b)| ≤ 1 / 2 + 1 / 10 ^ 8) ∧
          apply_colorblind_simulation entry.1 (fin r) (fin g) (fin b) =
            some { r := fin nr, g := fin ng, b := fin nb } := by
    intro entry hentry M hM r g b hr0 hr1 hg0 hg1 hb0 hb1
    obtain ⟨⟨a0, a1, a2, as⟩, ⟨b0, b1, b2, bs⟩, ⟨c0, c1, c2, cs⟩⟩ :=
      COLORBLIND_MATRICES_rowStochastic entry hentry M hM
    obtain ⟨nr, hnr, r0, r1, dr, cr⟩ :=
      clamp_round_convex _ _ _ r g b a0 a1 a2 as hr0 hr1 hg0 hg1 hb0 hb1
    obtain ⟨ng, hng, g0, g1, dg, cg⟩ :=
      clamp_round_convex _ _ _ r g b b0 b1 b2 bs hr0 hr1 hg0 hg1 hb0 hb1
    obtain ⟨nb, hnb, n0, n1, db, cb⟩ :=
      clamp_round_convex _ _ _ r g b c0 c1 c2 cs hr0 hr1 hg0 hg1 hb0 hb1
    refine ⟨nr, ng, nb, ⟨hnr, r0, r1, dr⟩, ⟨hng, g0, g1, dg⟩, ⟨hnb, n0, n1, db⟩, ?_⟩
    rw [COLORBLIND_MATRICES_own entry hentry M hM]
    simp only [apply_matrix, cr, cg, cb]
  refine ⟨fun entry hentry M hM => COLORBLIND_MATRICES_rowStochastic entry hentry M hM, ?_,
    ?_, ?_⟩
  · intro entry hentry M hM v hv0 hv1
    have hq0 : (0 : ℚ) ≤ v := by exact_mod_cast hv0
    have hq1 : (v : ℚ) ≤ 255 := by exact_mod_cast hv1
    obtain ⟨nr, ng, nb, ⟨-, -, -, dr⟩, ⟨-, -, -, dg⟩, ⟨-, -, -, db⟩, happ⟩ :=
      channels entry hentry M hM v v v hq0 hq1 hq0 hq1 hq0 hq1
    obtain ⟨⟨-, -, -, s0⟩, ⟨-, -, -, s1⟩, ⟨-, -, -, s2⟩⟩ :=
      COLORBLIND_MATRICES_rowStochastic entry hentry M hM
    have e0 : M.m00 * (v : ℚ) + M.m01 * v + M.m02 * v = v := by
      rw [← add_mul, ← add_mul, s0, one_mul]
    have e1 : M.m10 * (v : ℚ) + M.m11 * v + M.m12 * v = v := by
      rw [← add_mul, ← add_mul, s1, one_mul]
    have e2 : M.m20 * (v : ℚ) + M.m21 * v + M.m22 * v = v := by
      rw [← add_mul, ← add_mul, s2, one_mul]
    have key : ∀ n : ℤ, |(n : ℚ) - v| ≤ 1 / 2 + 1 / 10 ^ 8 → n = v := by
      intro n hn
      rw [abs_le] at hn
      have h3 : (n : ℚ) < v + 1 := by linarith
      have h4 : (v : ℚ) < n + 1 := by linarith
      have h5 : n < v + 1 := by exact_mod_cast h3
      have h6 : v < n + 1 := by exact_mod_cast h4
      omega
    rw [e0] at dr
    rw [e1] at dg
    rw [e2] at db
    rw [happ, key nr dr, key ng dg, key nb db]
  · intro entry hentry M hM r g b hr0 hr1 hg0 hg1 hb0 hb1
    obtain ⟨nr, ng, nb, ⟨hnr, r0, r1, -⟩, ⟨hng, g0, g1, -⟩, ⟨hnb, n0, n1, -⟩, happ⟩ :=
      channels entry hentry M hM r g b hr0 hr1 hg0 hg1 hb0 hb1
    rw [happ, hnr, hng, hnb]
    exact ⟨⟨nr, rfl, r0, r1⟩, ⟨ng, rfl, g0, g1⟩, ⟨nb, rfl, n0, n1⟩, rfl⟩
  · intro r g b
    refine ⟨_, COLORBLIND_MATRICES_own ("achromatopsia", some
        { m00 := 299 / 1000, m01 := 587 / 1000, m02 := 114 / 1000,
          m10 := 299 / 1000, m11 := 587 / 1000, m12 := 114 / 1000,
          m20 := 299 / 1000, m21 := 587 / 1000, m22 := 114 / 1000 })
      (by simp [COLORBLIND_MATRICES]) _ rfl r g b, rfl, rfl⟩

/-- The grey (100, 100, 100) under `protanopia` stays (100, 100, 100). -/
theorem COLORBLIND_MATRICES_convex_witness :
    apply_colorblind_simulation "protanopia" (fin (100 : ℤ)) (fin (100 : ℤ))
        (fin (100 : ℤ)) =
      some { r := fin (100 : ℤ), g := fin (100 : ℤ), b := fin (100 : ℤ) } :=
  COLORBLIND_MATRICES_convex.2.1
    ("protanopia", some
      { m00 := 567 / 1000, m01 := 433 / 1000, m02 := 0,
        m10 := 558 / 1000, m11 := 442 / 1000, m12 := 0,
        m20 := 0, m21 := 242 / 1000, m22 := 758 / 1000 })
    (by simp [COLORBLIND_MATRICES]) _ rfl 100 (by norm_num) (by norm_num)

/-- C28 fails as stated: the three entries 0.299, 0.587, 0.114 of a row of
`achromatopsia` are stored as doubles whose sum is `1 - 3/2⁵⁶`, not 1, and
adding them in double arithmetic gives `1 - 2⁻⁵³` (0.9999999999999999), not
1. -/
theorem COLORBLIND_MATRICES_row_sum_in_doubles :
    COLORBLIND_MATRICES.lookup "achromatopsia" = some (some
      { m00 := 299 / 1000, m01 := 587 / 1000, m02 := 114 / 1000,
        m10 := 299 / 1000, m11 := 587 / 1000, m12 := 114 / 1000,
        m20 := 299 / 1000, m21 := 587 / 1000, m22 := 114 / 1000 }) ∧
    fl64 (299 / 1000) = fin (5386305154335113 / 18014398509481984) ∧
    fl64 (587 / 1000) = fin (2643612981266481 / 4503599627370496) ∧
    fl64 (114 / 1000) = fin (8214565720323785 / 72057594037927936) ∧
    (5386305154335113 / 18014398509481984 + 2643612981266481 / 4503599627370496 +
      8214565720323785 / 72057594037927936 : ℚ) = 1 - 3 / 2 ^ 56 ∧
    f64 (f64 (fl64 (299 / 1000) + fl64 (587 / 1000)) + fl64 (114 / 1000)) =
      fin (1 - 1 / 2 ^ 53) ∧
    f64 (f64 (fl64 (299 / 1000) + fl64 (587 / 1000)) + fl64 (114 / 1000)) ≠ fin 1 := by
  refine ⟨by simp [COLORBLIND_MATRICES, List.lookup], by decide!, by decide!, by decide!,
    by norm_num, by decide!, by decide!⟩

/-! ## Pixels inside a region -/

/-- A pixel inside the region rectangle of a category passes the hit test of
that category when the category lies in an even label row, or when the pixel
is at least two pixel rows below the upper edge. -/
theorem hit_test_inside (cat : Category) (px py : ℚ)
    (hin : (category_rect cat).Contains px py)
    (hrow : get_category_row cat.position.y % 2 = 0 ∨
      ((category_rect cat).top : ℚ) + 2 ≤ py) :
    hit_test cat (hover_tile px) (hover_tile py) = true := by
  simp only [Rect.Contains, category_rect, PADDING_PX, PADDING_TILES, LABEL_HEIGHT_PX,
    TILE_SIZE] at hin hrow
  push_cast at hin hrow
  obtain ⟨h1, h2, h3, h4⟩ := hin
  simp only [hit_test, hover_tile, Bool.and_eq_true, decide_eq_true_eq, PADDING_TILES,
    LABEL_HEIGHT_PX, TILE_SIZE]
  have hA : 8 + (cat.position.x : ℤ) ≤ ⌊px / ((4 : ℤ) : ℚ)⌋ := by
    rw [Int.le_floor]
    push_cast
    linarith
  have hB : ⌊px / ((4 : ℤ) : ℚ)⌋ < 8 + (cat.position.x : ℤ) + cat.tiles.w := by
    rw [Int.floor_lt]
    push_cast
    linarith
  generalize ⌊px / ((4 : ℤ) : ℚ)⌋ = tx at *
  rcases get_category_row_cases cat.position.y with hr | hr | hr | hr | hr | hr <;>
    rw [hr] at h3 h4 hrow ⊢ <;> push_cast at h3 h4 hrow
  · have hC : 8 + (cat.position.y : ℤ) ≤ ⌊py / ((4 : ℤ) : ℚ)⌋ := by
      rw [Int.le_floor]
      push_cast
      linarith
    have hD : ⌊py / ((4 : ℤ) : ℚ)⌋ < 8 + (cat.position.y : ℤ) + cat.tiles.h := by
      rw [Int.floor_lt]
      push_cast
      linarith
    generalize ⌊py / ((4 : ℤ) : ℚ)⌋ = ty at *
    refine ⟨⟨⟨?_, ?_⟩, ?_⟩, ?_⟩ <;> omega
  · have h3' : (32 : ℚ) + 18 + (cat.position.y : ℚ) * 4 + 2 ≤ py := by
      rcases hrow with h | h
      · norm_num at h
      · linarith
    have hC : 8 + (cat.position.y : ℤ) + 5 ≤ ⌊py / ((4 : ℤ) : ℚ)⌋ := by
      rw [Int.le_floor]
      push_cast
      linarith
    have hD : ⌊py / ((4 : ℤ) : ℚ)⌋ < 8 + (cat.position.y : ℤ) + cat.tiles.h + 5 := by
      rw [Int.floor_lt]
      push_cast
      linarith
    generalize ⌊py / ((4 : ℤ) : ℚ)⌋ = ty at *
    refine ⟨⟨⟨?_, ?_⟩, ?_⟩, ?_⟩ <;> omega
  · have hC : 8 + (cat.position.y : ℤ) + 9 ≤ ⌊py / ((4 : ℤ) : ℚ)⌋ := by
      rw [Int.le_floor]
      push_cast
      linarith
    have hD : ⌊py / ((4 : ℤ) : ℚ)⌋ < 8 + (cat.position.y : ℤ) + cat.tiles.h + 9 := by
      rw [Int.floor_lt]
      push_cast
      linarith
    generalize ⌊py / ((4 : ℤ) : ℚ)⌋ = ty at *
    refine ⟨⟨⟨?_, ?_⟩, ?_⟩, ?_⟩ <;> omega
  · have h3' : (32 : ℚ) + 54 + (cat.position.y : ℚ) * 4 + 2 ≤ py := by
      rcases hrow with h | h
      · norm_num at h
      · linarith
    have hC : 8 + (cat.position.y : ℤ) + 14 ≤ ⌊py / ((4 : ℤ) : ℚ)⌋ := by
      rw [Int.le_floor]
      push_cast
      linarith
    have hD : ⌊py / ((4 : ℤ) : ℚ)⌋ < 8 + (cat.position.y : ℤ) + cat.tiles.h + 14 := by
      rw [Int.floor_lt]
      push_cast
      linarith
    generalize ⌊py / ((4 : ℤ) : ℚ)⌋ = ty at *
    refine ⟨⟨⟨?_, ?_⟩, ?_⟩, ?_⟩ <;> omega
  · have hC : 8 + (cat.position.y : ℤ) + 18 ≤ ⌊py / ((4 : ℤ) : ℚ)⌋ := by
      rw [Int.le_floor]
      push_cast
      linarith
    have hD : ⌊py / ((4 : ℤ) : ℚ)⌋ < 8 + (cat.position.y : ℤ) + cat.tiles.h + 18 := by
      rw [Int.floor_lt]
      push_cast
      linarith
    generalize ⌊py / ((4 : ℤ) : ℚ)⌋ = ty at *
    refine ⟨⟨⟨?_, ?_⟩, ?_⟩, ?_⟩ <;> omega
  · have h3' : (32 : ℚ) + 90 + (cat.position.y : ℚ) * 4 + 2 ≤ py := by
      rcases hrow with h | h
      · norm_num at h
      · linarith
    have hC : 8 + (cat.position.y : ℤ) + 23 ≤ ⌊py / ((4 : ℤ) : ℚ)⌋ := by
      rw [Int.le_floor]
      push_cast
      linarith
    have hD : ⌊py / ((4 : ℤ) : ℚ)⌋ < 8 + (cat.position.y : ℤ) + cat.tiles.h + 23 := by
      rw [Int.floor_lt]
      push_cast
      linarith
    generalize ⌊py / ((4 : ℤ) : ℚ)⌋ = ty at *
    refine ⟨⟨⟨?_, ?_⟩, ?_⟩, ?_⟩ <;> omega

/-- For a rendered catalog category, a pixel inside its region rectangle is
found to belong to it when the category lies in an even label row, or when the
pixel is at least two pixel rows below the upper edge of the rectangle. -/
theorem find_category_at_tile_inside (st : State) (cat : Category) (hcat : cat ∈ CATEGORIES)
    (hr : is_rendered st cat = true) (px py : ℚ) (hin : (category_rect cat).Contains px py)
    (hrow : get_category_row cat.position.y % 2 = 0 ∨
      ((category_rect cat).top : ℚ) + 2 ≤ py) :
    find_category_at_tile st (hover_tile px) (hover_tile py) = some cat := by
  have hit := hit_test_inside cat px py hin hrow
  apply find?_eq_some_of_unique _ _ _ hcat
  · simp only [hr, hit, Bool.and_self]
  · intro b hb hpb
    rw [Bool.and_eq_true] at hpb
    exact hit_test_unique cat hcat b hb _ _ hit hpb.2

/-- The pixel (40, 244) of the region of `stone`, two rows below its upper
edge, is found to belong to `stone`. -/
theorem find_category_at_tile_inside_witness :
    find_category_at_tile initial_state (hover_tile 40) (hover_tile 244) =
      some (mkCategory "stone" "Stone" 32 32 0 48 20 50 5 20 25 70) :=
  find_category_at_tile_inside initial_state _ (by simp [CATEGORIES]) (by decide) 40 244
    (by decide!) (Or.inr (by norm_num [category_rect, mkCategory, get_category_row, PADDING_PX,
      PADDING_TILES, TILE_SIZE, LABEL_HEIGHT_PX]))

/-- C24: with nothing selected and nothing omitted, the integer pixel
(40, 242) lies inside the region rectangle `[32, 160) x [242, 370)` of the
rendered catalog category `stone`, in its top pixel row; the hover handler
turns it into tile (10, 60), for which `find_category_at_tile` returns
nothing. -/
theorem find_category_at_tile_misses_top_rows :
    ∃ cat ∈ CATEGORIES, cat.id = "stone" ∧
      is_rendered initial_state cat = true ∧
      category_rect cat = { left := 32, top := 242, width := 128, height := 128 } ∧
      (category_rect cat).Contains 40 242 ∧
      hover_tile 40 = 10 ∧ hover_tile 242 = 60 ∧
      find_category_at_tile initial_state (hover_tile 40) (hover_tile 242) = none := by
  have h1 : hover_tile 40 = 10 := by norm_num [hover_tile, TILE_SIZE]
  have h2 : hover_tile 242 = 60 := by norm_num [hover_tile, TILE_SIZE]
  refine ⟨mkCategory "stone" "Stone" 32 32 0 48 20 50 5 20 25 70, by simp [CATEGORIES], rfl,
    by decide, by decide, by decide!, h1, h2, ?_⟩
  rw [h1, h2]
  decide!

/-! ## Grid overlay -/

theorem grid_rect_eq (cat : Category) :
    (grid_rect cat).left = (category_rect cat).left ∧
    (grid_rect cat).top + get_category_row cat.position.y * 18 = (category_rect cat).top ∧
    (grid_rect cat).width = (category_rect cat).width ∧
    (grid_rect cat).height = (category_rect cat).height := by
  refine ⟨rfl, ?_, rfl, rfl⟩
  simp only [grid_rect, category_rect, PADDING_PX, PADDING_TILES, TILE_SIZE, LABEL_HEIGHT_PX]
  ring

/-- The outline of the grid overlay is the region rectangle exactly for the
categories of label row 0, those at `y = 0`. -/
theorem grid_rect_eq_iff (cat : Category) :
    grid_rect cat = category_rect cat ↔ cat.position.y = 0 := by
  obtain ⟨h1, h2, h3, h4⟩ := grid_rect_eq cat
  constructor
  · intro h
    rw [h] at h2
    have h0 : get_category_row cat.position.y = 0 := by omega
    by_contra hy
    unfold get_category_row at h0
    rw [if_neg hy] at h0
    split_ifs at h0 <;> omega
  · intro hy
    have h0 : get_category_row cat.position.y = 0 := by
      unfold get_category_row
      rw [if_pos hy]
    rw [h0] at h2
    have h2' : (grid_rect cat).top = (category_rect cat).top := by omega
    cases hg : grid_rect cat
    cases hc : category_rect cat
    rw [hg, hc] at h1 h2' h3 h4
    simp only at h1 h2' h3 h4
    rw [h1, h2', h3, h4]

/-- C29: for the catalog category `stone`, at grid position (0, 48),
`render_grid` outlines the rectangle with left 32, top 224, width 128 and
height 128, while `render_canvas` draws its region with left 32, top 242,
width 128 and height 128: the outline ignores the label offset of 18 pixels
per row, and the two rectangles differ. -/
theorem render_grid_ignores_label_offset :
    ∃ cat ∈ CATEGORIES, cat.id = "stone" ∧
      grid_rect cat ∈ render_grid ∧
      grid_rect cat = { left := 32, top := 224, width := 128, height := 128 } ∧
      category_rect cat = { left := 32, top := 242, width := 128, height := 128 } ∧
      grid_rect cat ≠ category_rect cat := by
  refine ⟨mkCategory "stone" "Stone" 32 32 0 48 20 50 5 20 25 70, by simp [CATEGORIES], rfl,
    ?_, by decide, by decide, by decide⟩
  exact List.mem_map.mpr ⟨_, by simp [CATEGORIES], rfl⟩

end PaletteGenerator
